import Mathlib

/-!
# SoLoud core setters, tinyflock, pybind

The definitions of the three parts come first (namespaces `SoLoud`, `TinyFlock`,
`Pybind`), the theorems about them after.

## SoLoud core setters

A shallow embedding of `src/libs/audio/soloud/src/core/soloud_core_setters.cpp`
and of the voice iterations of `src/libs/audio/soloud/include/soloud_internal.h`
(`FOR_ALL_VOICES_PRE` / `FOR_ALL_VOICES_POST` and their 3D variants).

* Unsigned integers are `Nat`, `int` is `Int`.
* A `float` is carried as its 32-bit IEEE-754 pattern; the setters copy floats, and
  the one product they compute (`setSamplerate`) goes through `Env.fmul`.
* Every store to engine or voice state and every call of a lock callback is
  recorded, in order, in a trace next to the engine (`World`).
* A read or write through a null `mVoice[ch]`, or past the end of the handle
  array, has no defined result: the operation is `none`.
* `soloud.h` and the core functions the setters call (`getVoiceFromHandle`,
  `voiceGroupHandleToArray`, `setVoiceVolume`, ...) are not in the sources: they are
  the fields of `Env`, and a theorem holds for each choice of them that meets the
  conditions it states. The sample environment `specEnv` is one such choice.
-/

namespace SoLoud

/-- The type `handle` of the engine: `unsigned int`. -/
abbrev handle := Nat

/-- The type `result` of the engine: `unsigned int`. -/
abbrev result := Nat

/-- A `float`, as its 32-bit pattern. -/
abbrev SoFloat := Nat

/-- Modelled from the spec: the success outcome of a command. The enumerator is declared
in `soloud.h`, which is not among the sources; `setRelativePlaySpeed` writes it as the
literal `0` (`result retVal = 0`). -/
def SO_NO_ERROR : result := 0

/-- Modelled from the spec: the `InvalidParameter` outcome. The enumerator is declared
in `soloud.h`, which is not among the sources; it is an error, hence not `0`. -/
def INVALID_PARAMETER : result := 1

/-- The members of `Fader` the setters touch: the active flag, an `int`. -/
structure Fader where
  mActive : Int
deriving DecidableEq, Repr

/-- The members of `AudioSourceInstance` the setters read or write (`mChannelVolume` is
an array of floats, one per channel), and after them the three attributes of the spec's
voice slot (generation tag, volume, pan) that the core functions outside this file work
on. -/
structure AudioSourceInstance where
  mFlags : Nat
  mBaseSamplerate : SoFloat
  mSamplerate : SoFloat
  mRelativePlaySpeed : SoFloat
  mChannelVolume : List SoFloat
  mDelaySamples : Nat
  mVolumeFader : Fader
  mPanFader : Fader
  mRelativePlaySpeedFader : Fader
  generation : Nat
  volume : SoFloat
  pan : SoFloat
deriving DecidableEq, Repr

/-- The members of `Soloud` the setters and the voice iteration read or write:
`mVoice` holds a null pointer (`none`) or an instance per slot, `m3dData` the handle
recorded per slot, the two callbacks are `true` when the pointer is not null.
`mVoiceGroup` is the spec's table of voice groups, read outside this file. -/
structure Soloud where
  mVoice : List (Option AudioSourceInstance)
  mHighestVoice : Nat
  mMaxActiveVoices : Nat
  mGlobalVolume : SoFloat
  mGlobalVolumeFader : Fader
  mPostClipScaler : SoFloat
  mFlags : Nat
  mLockMutexFunc : Bool
  mUnlockMutexFunc : Bool
  m3dData : List handle
  mVoiceGroup : List (Option (List handle))
deriving DecidableEq, Repr

/-- What a command does that another thread can observe: a call of the lock callback,
a call of the unlock callback, a store to engine or voice state. -/
inductive Event where
  | lock
  | unlock
  | write
deriving DecidableEq, Repr

/-- The engine together with the trace of the events so far, oldest first. -/
structure World where
  eng : Soloud
  trace : List Event
deriving DecidableEq, Repr

/-- The declarations of `soloud.h` and the core functions that the setters use and
that are not among the sources. `voiceGroupHandleToArray` yields a null pointer
(`none`) or the memory from the first member of the group on; `getVoiceFromHandle`
yields `-1` or a slot index; the per-voice setters take the slot as `unsigned int`. -/
structure Env where
  VOICE_COUNT : Nat
  ENABLE_VISUALIZATION : Nat
  PROTECTED : Nat
  LOOPING : Nat
  INAUDIBLE_KILL : Nat
  INAUDIBLE_TICK : Nat
  fmul : SoFloat → SoFloat → SoFloat
  voiceGroupHandleToArray : Soloud → handle → Option (List handle)
  getVoiceFromHandle : Soloud → handle → Int
  setVoiceVolume : Nat → SoFloat → Soloud → Soloud
  setVoicePan : Nat → SoFloat → Soloud → Soloud
  setVoicePause : Nat → Bool → Soloud → Soloud
  setVoiceRelativePlaySpeed : Nat → SoFloat → Soloud → result × Soloud

/-- Conversion of an `int` to `unsigned int`. -/
def toUnsigned (i : Int) : Nat := (i % 4294967296).toNat

/-- Conversion of an `unsigned int` to `int`: the cast `(signed)`. -/
def toSigned (n : Nat) : Int :=
  if n % 4294967296 < 2147483648 then ((n % 4294967296 : Nat) : Int)
  else ((n % 4294967296 : Nat) : Int) - 4294967296

/-- The operator `~` on `unsigned int`. -/
def bitNot (n : Nat) : Nat := 4294967295 - n % 4294967296

/-- The statement `if (mLockMutexFunc) mLockMutexFunc(mMutex);`. -/
def callLock (w : World) : World :=
  if w.eng.mLockMutexFunc then { w with trace := w.trace ++ [Event.lock] } else w

/-- The statement `if (mUnlockMutexFunc) mUnlockMutexFunc(mMutex);`. -/
def callUnlock (w : World) : World :=
  if w.eng.mUnlockMutexFunc then { w with trace := w.trace ++ [Event.unlock] } else w

/-- A store to engine state, or a call of a core function that stores. -/
def store (f : Soloud → Soloud) (w : World) : World :=
  { eng := f w.eng, trace := w.trace ++ [Event.write] }

/-- The instance `mVoice[ch]` points to; `none` for a null pointer and outside the
table. -/
def voiceAt (e : Soloud) (ch : Int) : Option AudioSourceInstance :=
  if ch < 0 then none
  else
    match e.mVoice[ch.toNat]? with
    | some (some v) => some v
    | _ => none

/-- The engine with the instance of slot `ch` replaced by `v`. -/
def putVoice (e : Soloud) (ch : Int) (v : AudioSourceInstance) : Soloud :=
  { e with mVoice := e.mVoice.set ch.toNat (some v) }

/-- A store through `mVoice[ch]->`: the instance of slot `ch` becomes `f` of itself. -/
def storeVoice (ch : Int) (f : AudioSourceInstance → AudioSourceInstance) (w : World) :
    Option World :=
  match voiceAt w.eng ch with
  | none => none
  | some v => some (store (fun e => putVoice e ch (f v)) w)

/-- The loop of `FOR_ALL_VOICES_PRE` / `FOR_ALL_VOICES_POST` over the memory `h_`
points to: `while (*h_) { int ch = getVoiceFromHandle(*h_); if (ch != -1) { body }
h_++; }`. The state `α` is the world, with the locals of the enclosing function. -/
def forAllVoices {α : Type} (resolve : α → handle → Int) (body : Int → α → Option α) :
    List handle → α → Option α
  | [], _ => none
  | h :: rest, a =>
    if h = 0 then some a
    else if resolve a h ≠ -1 then
      match body (resolve a h) a with
      | none => none
      | some a1 => forAllVoices resolve body rest a1
    else forAllVoices resolve body rest a

/-- The array the loop walks: `h_ = voiceGroupHandleToArray(aVoiceHandle);
if (h_ == NULL) h_ = th_;` with `handle th_[2] = { aVoiceHandle, 0 }`. The array of a
group is taken as it is when the loop starts: no loop body of this file writes to it. -/
def handleArray (E : Env) (e : Soloud) (aVoiceHandle : handle) : List handle :=
  match E.voiceGroupHandleToArray e aVoiceHandle with
  | some arr => arr
  | none => [aVoiceHandle, 0]

/-- The pair `FOR_ALL_VOICES_PRE body FOR_ALL_VOICES_POST` in a function without
locals of its own. -/
def FOR_ALL_VOICES (E : Env) (aVoiceHandle : handle) (body : Int → World → Option World)
    (w : World) : Option World :=
  match forAllVoices (fun a h => E.getVoiceFromHandle a.eng h) body
      (handleArray E (callLock w).eng aVoiceHandle) (callLock w) with
  | none => none
  | some w2 => some (callUnlock w2)

/-- The slots, in order, for which the loop of `forAllVoices` runs its body. -/
def resolvedSlots {α : Type} (resolve : α → handle → Int) (body : Int → α → Option α) :
    List handle → α → List Int
  | [], _ => []
  | h :: rest, a =>
    if h = 0 then []
    else if resolve a h ≠ -1 then
      match body (resolve a h) a with
      | none => [resolve a h]
      | some a1 => resolve a h :: resolvedSlots resolve body rest a1
    else resolvedSlots resolve body rest a

/-- The function `Soloud::setPostClipScaler`. -/
def setPostClipScaler (aScaler : SoFloat) (w : World) : World :=
  store (fun e => { e with mPostClipScaler := aScaler }) w

/-- The function `Soloud::setGlobalVolume`: `mGlobalVolumeFader.mActive = 0;
mGlobalVolume = aVolume;`. -/
def setGlobalVolume (aVolume : SoFloat) (w : World) : World :=
  store (fun e => { e with mGlobalVolume := aVolume })
    (store (fun e => { e with mGlobalVolumeFader := { e.mGlobalVolumeFader with mActive := 0 } }) w)

/-- The loop body of `setRelativePlaySpeed`, on the local `retVal` and the world:
`mVoice[ch]->mRelativePlaySpeedFader.mActive = 0;
retVal = setVoiceRelativePlaySpeed(ch, aSpeed);`. -/
def setRelativePlaySpeed_body (E : Env) (aSpeed : SoFloat) (ch : Int) (a : result × World) :
    Option (result × World) :=
  match storeVoice ch
      (fun v => { v with mRelativePlaySpeedFader := { v.mRelativePlaySpeedFader with mActive := 0 } })
      a.2 with
  | none => none
  | some w1 =>
    some ((E.setVoiceRelativePlaySpeed (toUnsigned ch) aSpeed w1.eng).1,
      store (fun e => (E.setVoiceRelativePlaySpeed (toUnsigned ch) aSpeed e).2) w1)

/-- The function `Soloud::setRelativePlaySpeed`: the voice iteration around its body,
with `result retVal = 0` before and `return retVal` after. -/
def setRelativePlaySpeed (E : Env) (aVoiceHandle : handle) (aSpeed : SoFloat) (w : World) :
    Option (result × World) :=
  match forAllVoices (fun a h => E.getVoiceFromHandle a.2.eng h)
      (setRelativePlaySpeed_body E aSpeed)
      (handleArray E (callLock w).eng aVoiceHandle) ((0 : result), callLock w) with
  | none => none
  | some a => some (a.1, callUnlock a.2)

/-- The loop body of `setSamplerate`: `mVoice[ch]->mBaseSamplerate = aSamplerate;
mVoice[ch]->mSamplerate = mVoice[ch]->mBaseSamplerate * mVoice[ch]->mRelativePlaySpeed;`. -/
def setSamplerate_body (E : Env) (aSamplerate : SoFloat) (ch : Int) (w : World) : Option World :=
  match storeVoice ch (fun v => { v with mBaseSamplerate := aSamplerate }) w with
  | none => none
  | some w1 =>
    storeVoice ch
      (fun v => { v with mSamplerate := E.fmul v.mBaseSamplerate v.mRelativePlaySpeed }) w1

/-- The function `Soloud::setSamplerate`. -/
def setSamplerate (E : Env) (aVoiceHandle : handle) (aSamplerate : SoFloat) (w : World) :
    Option World :=
  FOR_ALL_VOICES E aVoiceHandle (setSamplerate_body E aSamplerate) w

/-- The loop body of `setPause`: `setVoicePause(ch, aPause);`. -/
def setPause_body (E : Env) (aPause : Bool) (ch : Int) (w : World) : Option World :=
  some (store (E.setVoicePause (toUnsigned ch) aPause) w)

/-- The function `Soloud::setPause`. -/
def setPause (E : Env) (aVoiceHandle : handle) (aPause : Bool) (w : World) : Option World :=
  FOR_ALL_VOICES E aVoiceHandle (setPause_body E aPause) w

/-- The function `Soloud::setMaxActiveVoiceCount`. -/
def setMaxActiveVoiceCount (E : Env) (aVoiceCount : Nat) (w : World) : result × World :=
  if aVoiceCount = 0 ∨ aVoiceCount ≥ E.VOICE_COUNT then (INVALID_PARAMETER, w)
  else
    (SO_NO_ERROR,
      callUnlock (store (fun e => { e with mMaxActiveVoices := aVoiceCount }) (callLock w)))

/-- The loop of `setPauseAll`: `for (ch = 0; ch < (signed)mHighestVoice; ch++)
setVoicePause(ch, aPause);`. The condition is read again on every round; the first
argument bounds the rounds, and `2147483648` of them cannot be used up, an `int`
counter from `0` being below `(signed)mHighestVoice` at most `2147483647` times. -/
def setPauseAll_loop (E : Env) (aPause : Bool) : Nat → Int → World → World
  | 0, _, w => w
  | fuel + 1, ch, w =>
    if ch < toSigned w.eng.mHighestVoice then
      setPauseAll_loop E aPause fuel (ch + 1) (store (E.setVoicePause (toUnsigned ch) aPause) w)
    else w

/-- The function `Soloud::setPauseAll`. -/
def setPauseAll (E : Env) (aPause : Bool) (w : World) : World :=
  callUnlock (setPauseAll_loop E aPause 2147483648 0 (callLock w))

/-- The loop body of `setProtectVoice`. -/
def setProtectVoice_body (E : Env) (aProtect : Bool) (ch : Int) (w : World) : Option World :=
  if aProtect then storeVoice ch (fun v => { v with mFlags := v.mFlags ||| E.PROTECTED }) w
  else storeVoice ch (fun v => { v with mFlags := v.mFlags &&& bitNot E.PROTECTED }) w

/-- The function `Soloud::setProtectVoice`. -/
def setProtectVoice (E : Env) (aVoiceHandle : handle) (aProtect : Bool) (w : World) :
    Option World :=
  FOR_ALL_VOICES E aVoiceHandle (setProtectVoice_body E aProtect) w

/-- The loop body of `setPan`: `setVoicePan(ch, aPan);`. -/
def setPan_body (E : Env) (aPan : SoFloat) (ch : Int) (w : World) : Option World :=
  some (store (E.setVoicePan (toUnsigned ch) aPan) w)

/-- The function `Soloud::setPan`. -/
def setPan (E : Env) (aVoiceHandle : handle) (aPan : SoFloat) (w : World) : Option World :=
  FOR_ALL_VOICES E aVoiceHandle (setPan_body E aPan) w

/-- The loop body of `setPanAbsolute`: `mVoice[ch]->mPanFader.mActive = 0;
mVoice[ch]->mChannelVolume[0] = aLVolume; mVoice[ch]->mChannelVolume[1] = aRVolume;`. -/
def setPanAbsolute_body (aLVolume aRVolume : SoFloat) (ch : Int) (w : World) : Option World :=
  match storeVoice ch (fun v => { v with mPanFader := { v.mPanFader with mActive := 0 } }) w with
  | none => none
  | some w1 =>
    match storeVoice ch (fun v => { v with mChannelVolume := v.mChannelVolume.set 0 aLVolume }) w1 with
    | none => none
    | some w2 =>
      storeVoice ch (fun v => { v with mChannelVolume := v.mChannelVolume.set 1 aRVolume }) w2

/-- The function `Soloud::setPanAbsolute`. -/
def setPanAbsolute (E : Env) (aVoiceHandle : handle) (aLVolume aRVolume : SoFloat) (w : World) :
    Option World :=
  FOR_ALL_VOICES E aVoiceHandle (setPanAbsolute_body aLVolume aRVolume) w

/-- The loop body of `setInaudibleBehavior`: both flags are cleared, then each is set
when its argument is true. -/
def setInaudibleBehavior_body (E : Env) (aMustTick aKill : Bool) (ch : Int) (w : World) :
    Option World :=
  match storeVoice ch
      (fun v => { v with mFlags := v.mFlags &&& bitNot (E.INAUDIBLE_KILL ||| E.INAUDIBLE_TICK) })
      w with
  | none => none
  | some w1 =>
    match (if aMustTick then
        storeVoice ch (fun v => { v with mFlags := v.mFlags ||| E.INAUDIBLE_TICK }) w1
      else some w1) with
    | none => none
    | some w2 =>
      if aKill then storeVoice ch (fun v => { v with mFlags := v.mFlags ||| E.INAUDIBLE_KILL }) w2
      else some w2

/-- The function `Soloud::setInaudibleBehavior`. -/
def setInaudibleBehavior (E : Env) (aVoiceHandle : handle) (aMustTick aKill : Bool) (w : World) :
    Option World :=
  FOR_ALL_VOICES E aVoiceHandle (setInaudibleBehavior_body E aMustTick aKill) w

/-- The loop body of `setLooping`. -/
def setLooping_body (E : Env) (aLooping : Bool) (ch : Int) (w : World) : Option World :=
  if aLooping then storeVoice ch (fun v => { v with mFlags := v.mFlags ||| E.LOOPING }) w
  else storeVoice ch (fun v => { v with mFlags := v.mFlags &&& bitNot E.LOOPING }) w

/-- The function `Soloud::setLooping`. -/
def setLooping (E : Env) (aVoiceHandle : handle) (aLooping : Bool) (w : World) : Option World :=
  FOR_ALL_VOICES E aVoiceHandle (setLooping_body E aLooping) w

/-- The loop body of `setVolume`: `mVoice[ch]->mVolumeFader.mActive = 0;
setVoiceVolume(ch, aVolume);`. -/
def setVolume_body (E : Env) (aVolume : SoFloat) (ch : Int) (w : World) : Option World :=
  match storeVoice ch (fun v => { v with mVolumeFader := { v.mVolumeFader with mActive := 0 } }) w with
  | none => none
  | some w1 => some (store (E.setVoiceVolume (toUnsigned ch) aVolume) w1)

/-- The function `Soloud::setVolume`. -/
def setVolume (E : Env) (aVoiceHandle : handle) (aVolume : SoFloat) (w : World) : Option World :=
  FOR_ALL_VOICES E aVoiceHandle (setVolume_body E aVolume) w

/-- The loop body of `setDelaySamples`: `mVoice[ch]->mDelaySamples = aSamples;`. -/
def setDelaySamples_body (aSamples : Nat) (ch : Int) (w : World) : Option World :=
  storeVoice ch (fun v => { v with mDelaySamples := aSamples }) w

/-- The function `Soloud::setDelaySamples`. -/
def setDelaySamples (E : Env) (aVoiceHandle : handle) (aSamples : Nat) (w : World) :
    Option World :=
  FOR_ALL_VOICES E aVoiceHandle (setDelaySamples_body aSamples) w

/-- The function `Soloud::setVisualizationEnable`. -/
def setVisualizationEnable (E : Env) (aEnable : Bool) (w : World) : World :=
  if aEnable then store (fun e => { e with mFlags := e.mFlags ||| E.ENABLE_VISUALIZATION }) w
  else store (fun e => { e with mFlags := e.mFlags &&& bitNot E.ENABLE_VISUALIZATION }) w

/-! ## Conditions on the functions outside this file -/

/-- What the voice iteration relies on in the two lookups it calls: a slot that
`getVoiceFromHandle` yields holds an instance, the array of a group ends with a `0`,
and the null handle is no group. -/
structure Env.Sound (E : Env) : Prop where
  resolve_occupied : ∀ e h, E.getVoiceFromHandle e h ≠ -1 →
    (voiceAt e (E.getVoiceFromHandle e h)).isSome = true
  group_terminated : ∀ e h arr, E.voiceGroupHandleToArray e h = some arr → 0 ∈ arr
  null_not_group : ∀ e, E.voiceGroupHandleToArray e 0 = none

/-- The volume fader of slot `ch` is inactive: the instance there, if any, has
`mVolumeFader.mActive = 0`. -/
def volumeFaderOff (e : Soloud) (ch : Int) : Prop :=
  ∀ v, voiceAt e ch = some v → v.mVolumeFader.mActive = 0

/-- The pan fader of slot `ch` is inactive. -/
def panFaderOff (e : Soloud) (ch : Int) : Prop :=
  ∀ v, voiceAt e ch = some v → v.mPanFader.mActive = 0

/-- The relative-speed fader of slot `ch` is inactive. -/
def speedFaderOff (e : Soloud) (ch : Int) : Prop :=
  ∀ v, voiceAt e ch = some v → v.mRelativePlaySpeedFader.mActive = 0

/-- The per-voice setters leave both lock callbacks as they are. -/
structure Env.KeepsCallbacks (E : Env) : Prop where
  volume : ∀ n x e, (E.setVoiceVolume n x e).mLockMutexFunc = e.mLockMutexFunc ∧
    (E.setVoiceVolume n x e).mUnlockMutexFunc = e.mUnlockMutexFunc
  pan : ∀ n x e, (E.setVoicePan n x e).mLockMutexFunc = e.mLockMutexFunc ∧
    (E.setVoicePan n x e).mUnlockMutexFunc = e.mUnlockMutexFunc
  pause : ∀ n b e, (E.setVoicePause n b e).mLockMutexFunc = e.mLockMutexFunc ∧
    (E.setVoicePause n b e).mUnlockMutexFunc = e.mUnlockMutexFunc
  speed : ∀ n x e, (E.setVoiceRelativePlaySpeed n x e).2.mLockMutexFunc = e.mLockMutexFunc ∧
    (E.setVoiceRelativePlaySpeed n x e).2.mUnlockMutexFunc = e.mUnlockMutexFunc

/-- Every store of the trace happens while the gate is held: `held` tells whether it
is held before the first event, and at the end it has been released. -/
def gatedFrom : Bool → List Event → Bool
  | held, [] => !held
  | _, Event.lock :: t => gatedFrom true t
  | _, Event.unlock :: t => gatedFrom false t
  | held, Event.write :: t => held && gatedFrom held t

/-- From `a` to `a1` only stores were recorded and both lock callbacks stayed as they
were. -/
def StoresOnly (a a1 : World) : Prop :=
  a1.eng.mLockMutexFunc = a.eng.mLockMutexFunc ∧
    a1.eng.mUnlockMutexFunc = a.eng.mUnlockMutexFunc ∧
    ∃ k, a1.trace = a.trace ++ List.replicate k Event.write

/-- The events a command added to the trace of `w`, ending in `w1`, have every store
after a call of the lock callback and before the next call of the unlock callback. -/
def Gated (w w1 : World) : Prop :=
  ∃ evs, w1.trace = w.trace ++ evs ∧ gatedFrom false evs = true

/-! ## The setters whose loop body is written out in the setters file -/

/-- The six handle-based setters whose loop body stores to the instance itself:
`setProtectVoice`, `setLooping`, `setInaudibleBehavior`, `setSamplerate`,
`setDelaySamples` and `setPanAbsolute`, each with its arguments after the handle. -/
inductive SlotSetter where
  | protectVoice (aProtect : Bool)
  | looping (aLooping : Bool)
  | inaudibleBehavior (aMustTick aKill : Bool)
  | samplerate (aSamplerate : SoFloat)
  | delaySamples (aSamples : Nat)
  | panAbsolute (aLVolume aRVolume : SoFloat)
deriving DecidableEq, Repr

/-- The setter itself, called on a handle. -/
def SlotSetter.run (E : Env) (s : SlotSetter) (aVoiceHandle : handle) (w : World) :
    Option World :=
  match s with
  | .protectVoice b => setProtectVoice E aVoiceHandle b w
  | .looping b => setLooping E aVoiceHandle b w
  | .inaudibleBehavior t k => setInaudibleBehavior E aVoiceHandle t k w
  | .samplerate r => setSamplerate E aVoiceHandle r w
  | .delaySamples n => setDelaySamples E aVoiceHandle n w
  | .panAbsolute l r => setPanAbsolute E aVoiceHandle l r w

/-- The loop body of the setter. -/
def SlotSetter.body (E : Env) (s : SlotSetter) : Int → World → Option World :=
  match s with
  | .protectVoice b => setProtectVoice_body E b
  | .looping b => setLooping_body E b
  | .inaudibleBehavior t k => setInaudibleBehavior_body E t k
  | .samplerate r => setSamplerate_body E r
  | .delaySamples n => setDelaySamples_body n
  | .panAbsolute l r => setPanAbsolute_body l r

/-- What the stores of one run of the loop body add up to on the instance of the slot
(`SlotSetter.body_eq_update` proves it of the body). -/
def SlotSetter.update (E : Env) (s : SlotSetter) (v : AudioSourceInstance) :
    AudioSourceInstance :=
  match s with
  | .protectVoice b =>
    { v with mFlags := if b then v.mFlags ||| E.PROTECTED else v.mFlags &&& bitNot E.PROTECTED }
  | .looping b =>
    { v with mFlags := if b then v.mFlags ||| E.LOOPING else v.mFlags &&& bitNot E.LOOPING }
  | .inaudibleBehavior t k =>
    { v with mFlags :=
        (if k then
          (if t then (v.mFlags &&& bitNot (E.INAUDIBLE_KILL ||| E.INAUDIBLE_TICK)) |||
              E.INAUDIBLE_TICK
            else v.mFlags &&& bitNot (E.INAUDIBLE_KILL ||| E.INAUDIBLE_TICK)) |||
            E.INAUDIBLE_KILL
        else
          (if t then (v.mFlags &&& bitNot (E.INAUDIBLE_KILL ||| E.INAUDIBLE_TICK)) |||
              E.INAUDIBLE_TICK
            else v.mFlags &&& bitNot (E.INAUDIBLE_KILL ||| E.INAUDIBLE_TICK))) }
  | .samplerate r =>
    { v with mBaseSamplerate := r, mSamplerate := E.fmul r v.mRelativePlaySpeed }
  | .delaySamples n => { v with mDelaySamples := n }
  | .panAbsolute l r =>
    { v with mPanFader := { v.mPanFader with mActive := 0 },
             mChannelVolume := (v.mChannelVolume.set 0 l).set 1 r }

/-- Every member of the engine other than the voice table is the same in `e` and `e1`. -/
def sameEngineFields (e e1 : Soloud) : Prop :=
  e1.mHighestVoice = e.mHighestVoice ∧ e1.mMaxActiveVoices = e.mMaxActiveVoices ∧
    e1.mGlobalVolume = e.mGlobalVolume ∧ e1.mGlobalVolumeFader = e.mGlobalVolumeFader ∧
    e1.mPostClipScaler = e.mPostClipScaler ∧ e1.mFlags = e.mFlags ∧
    e1.mLockMutexFunc = e.mLockMutexFunc ∧ e1.mUnlockMutexFunc = e.mUnlockMutexFunc ∧
    e1.m3dData = e.m3dData ∧ e1.mVoiceGroup = e.mVoiceGroup

/-- From `e` to `e1` at most slot `ch` of the voice table has changed: every other
entry of `mVoice`, the length of the table and every engine-level member are the
same. -/
def onlySlotChanged (e e1 : Soloud) (ch : Int) : Prop :=
  (∀ i : Nat, (i : Int) ≠ ch → e1.mVoice[i]? = e.mVoice[i]?) ∧
    e1.mVoice.length = e.mVoice.length ∧ sameEngineFields e e1

/-- The two lookups outside this file look at a slot only for whether it holds an
instance and for the generation of that instance: replacing the instance of a slot by
one of the same generation changes neither result. -/
structure Env.StableLookup (E : Env) : Prop where
  resolve_stable : ∀ e ch v v1 h, voiceAt e ch = some v → v1.generation = v.generation →
    E.getVoiceFromHandle (putVoice e ch v1) h = E.getVoiceFromHandle e h
  group_stable : ∀ e ch v v1 h, voiceAt e ch = some v → v1.generation = v.generation →
    E.voiceGroupHandleToArray (putVoice e ch v1) h = E.voiceGroupHandleToArray e h

/-- From `e` to `e1` the instance of every slot `i` with `R i` has been replaced by `g`
of itself, and nothing else has changed: the other entries of the voice table and every
engine-level member are the same. -/
def updatedAt (g : AudioSourceInstance → AudioSourceInstance) (R : Nat → Prop)
    (e e1 : Soloud) : Prop :=
  (∀ i : Nat, R i → e1.mVoice[i]? = (e.mVoice[i]?).map (Option.map g)) ∧
    (∀ i : Nat, ¬ R i → e1.mVoice[i]? = e.mVoice[i]?) ∧ sameEngineFields e e1

/-! ## The voice table and the fader of the spec

Allocation, release and resolution of handles, and the fader's interpolation, are not
among the sources: this part follows sections 3, 4.1, 4.3 and 4.4 of the spec. -/

/-- Modelled from the spec: a handle, "an opaque value combining a slot index and a
monotonically incrementing generation tag, or a group marker"; the null handle is what
a failed allocation returns. The tag is the slot's generation as it is, not cut to the
bits of a 32-bit encoding. -/
inductive VoiceHandle where
  | null
  | voice (slot : Nat) (generation : Nat)
  | group (id : Nat)
deriving DecidableEq, Repr

/-- Modelled from the spec: what allocation looks at in a playing voice, its volume
(a float, as its bit pattern) and the protected flag. -/
structure VoiceInfo where
  volume : SoFloat
  isProtected : Bool
deriving DecidableEq, Repr

/-- Modelled from the spec: a voice slot, its generation counter and the voice it holds,
if any. -/
structure VoiceSlot where
  generation : Nat
  voice : Option VoiceInfo
deriving DecidableEq, Repr

/-- Modelled from the spec: the voice table, a fixed-capacity array of voice slots. -/
structure VoiceTable where
  slots : List VoiceSlot
deriving DecidableEq, Repr

/-- Modelled from the spec: `resolve(Handle)`, which "validates generation match" and
"returns not-found for stale or group handles": the slot index when the slot holds a
voice and its generation is the handle's tag. -/
def VoiceTable.resolve (t : VoiceTable) : VoiceHandle → Option Nat
  | VoiceHandle.voice i g =>
    match t.slots[i]? with
    | some s => if s.generation = g ∧ s.voice.isSome = true then some i else none
    | none => none
  | _ => none

/-- Modelled from the spec: `free(slot)`, which "detaches the instance, increments the
slot's generation and marks the slot free". -/
def VoiceTable.free (t : VoiceTable) (i : Nat) : VoiceTable :=
  match t.slots[i]? with
  | some s => { slots := t.slots.set i { generation := s.generation + 1, voice := none } }
  | none => t

/-- Modelled from the spec: the second half of `allocate`, which "constructs a new
instance in the slot, bumps that slot's generation, returns a handle encoding (slot,
generation)". -/
def VoiceTable.place (t : VoiceTable) (i : Nat) (v : VoiceInfo) : VoiceHandle × VoiceTable :=
  match t.slots[i]? with
  | some s =>
    (VoiceHandle.voice i (s.generation + 1),
      { slots := t.slots.set i { generation := s.generation + 1, voice := some v } })
  | none => (VoiceHandle.null, t)

/-- Modelled from the spec: the first free slot among `slots`, which start at index
`i`. -/
def firstFreeFrom : List VoiceSlot → Nat → Option Nat
  | [], _ => none
  | s :: rest, i => if s.voice.isNone = true then some i else firstFreeFrom rest (i + 1)

/-- Modelled from the spec: the eviction candidate among `slots`, which start at index
`i`: the least audible voice that is not protected, with its score; of two equally
audible ones the one in the lower slot. The audibility score is a policy parameter. -/
def victimFrom (score : VoiceInfo → Nat) : List VoiceSlot → Nat → Option (Nat × Nat)
  | [], _ => none
  | s :: rest, i =>
    match s.voice with
    | none => victimFrom score rest (i + 1)
    | some v =>
      if v.isProtected = true then victimFrom score rest (i + 1)
      else
        match victimFrom score rest (i + 1) with
        | some (j, sc) => if sc < score v then some (j, sc) else some (i, score v)
        | none => some (i, score v)

/-- Modelled from the spec: `allocate`, which "finds a free slot (or evicts the
least-audible active voice if at capacity and unprotected voices exist)", places the
new voice there, and "fails by returning a null handle if no free or evictable slot
exists". An eviction frees the slot first. -/
def VoiceTable.allocate (score : VoiceInfo → Nat) (t : VoiceTable) (v : VoiceInfo) :
    VoiceHandle × VoiceTable :=
  match firstFreeFrom t.slots 0 with
  | some i => t.place i v
  | none =>
    match victimFrom score t.slots 0 with
    | some (j, _) => (t.free j).place j v
    | none => (VoiceHandle.null, t)

/-- Modelled from the spec: one operation of a sequence on the voice table. -/
inductive TableOp where
  | allocate (v : VoiceInfo)
  | free (slot : Nat)
deriving DecidableEq, Repr

/-- Modelled from the spec: the table after one operation. -/
def VoiceTable.step (score : VoiceInfo → Nat) (t : VoiceTable) : TableOp → VoiceTable
  | TableOp.allocate v => (t.allocate score v).2
  | TableOp.free i => t.free i

/-- Modelled from the spec: the table after a sequence of operations. -/
def VoiceTable.runOps (score : VoiceInfo → Nat) (t : VoiceTable) (ops : List TableOp) :
    VoiceTable :=
  ops.foldl (VoiceTable.step score) t

/-- Modelled from the spec: the operation ends the voice in slot `i` of table `t`: a
`free` of that slot, or an `allocate` that evicts it. -/
def freesSlot (score : VoiceInfo → Nat) (t : VoiceTable) (i : Nat) : TableOp → Bool
  | TableOp.free j => decide (j = i)
  | TableOp.allocate _ =>
    match firstFreeFrom t.slots 0 with
    | some _ => false
    | none =>
      match victimFrom score t.slots 0 with
      | some (j, _) => decide (j = i)
      | none => false

/-- Modelled from the spec: some operation of the sequence, run from table `t`, ends the
voice in slot `i`. -/
def freedDuring (score : VoiceInfo → Nat) (i : Nat) : VoiceTable → List TableOp → Bool
  | _, [] => false
  | t, op :: ops =>
    freesSlot score t i op || freedDuring score i (t.step score op) ops

/-- Modelled from the spec: the audibility score of the end-to-end scenario, where
voices differ in volume only: the bit pattern of the volume, which for volumes that are
not negative is ordered like the volume. -/
def volumeScore (v : VoiceInfo) : Nat := v.volume

/-- Modelled from the spec: an empty table of capacity 2. -/
def emptyTable2 : VoiceTable :=
  { slots := [{ generation := 0, voice := none }, { generation := 0, voice := none }] }

/-- Modelled from the spec: a fader, with its active flag, start value, target value
and duration. -/
structure TimedFader where
  active : Bool
  start : ℚ
  target : ℚ
  duration : ℚ

/-- Modelled from the spec: activation of a fader "with start, target, duration". -/
def TimedFader.activate (start target duration : ℚ) : TimedFader :=
  { active := true, start := start, target := target, duration := duration }

/-- Modelled from the spec: the query of a fader at the time elapsed since its
activation: an inactive fader has its "value pinned at target"; an active one yields the
target and becomes inactive once "elapsed ≥ duration", and before that the linear
interpolation between start and target. -/
def TimedFader.query (f : TimedFader) (elapsed : ℚ) : ℚ × TimedFader :=
  if f.active = true then
    if f.duration ≤ elapsed then (f.target, { f with active := false })
    else (f.start + (f.target - f.start) * (elapsed / f.duration), f)
  else (f.target, f)

/-! ## The 3D voice iteration, the lock calls and the result of setRelativePlaySpeed -/

/-- The slot a handle addresses in the 3D voice iteration: `int ch = (*h_ & 0xfff) - 1;`,
a subtraction in `unsigned int` whose result is converted to `int`. -/
def slot3d (h : handle) : Int := toSigned (((h &&& 4095) + 4294967295) % 4294967296)

/-- The loop of `FOR_ALL_VOICES_PRE_3D` / `FOR_ALL_VOICES_POST_3D` over the memory `h_`
points to: `while (*h_) { int ch = (*h_ & 0xfff) - 1;
if (ch != -1 && m3dData[ch].mHandle == *h_) { body } h_++; }`. `m3dData` gives the
handle recorded per slot in the state; a read outside that array has no defined result,
and `&&` does not read it when `ch` is `-1`. -/
def forAllVoices3d {α : Type} (m3dData : α → List handle) (body : Int → α → Option α) :
    List handle → α → Option α
  | [], _ => none
  | h :: rest, a =>
    if h = 0 then some a
    else if slot3d h ≠ -1 then
      match (m3dData a)[(slot3d h).toNat]? with
      | none => none
      | some recorded =>
        if recorded = h then
          match body (slot3d h) a with
          | none => none
          | some a1 => forAllVoices3d m3dData body rest a1
        else forAllVoices3d m3dData body rest a
    else forAllVoices3d m3dData body rest a

/-- The pair `FOR_ALL_VOICES_PRE_3D body FOR_ALL_VOICES_POST_3D`: the 3D iteration over
the array of the handle. Neither macro calls a lock callback. -/
def FOR_ALL_VOICES_3D (E : Env) (aVoiceHandle : handle) (body : Int → World → Option World)
    (w : World) : Option World :=
  forAllVoices3d (fun a => a.eng.m3dData) body (handleArray E w.eng aVoiceHandle) w

/-- The events a command added to the trace of `w`, ending in `w1`, are one call of the
lock callback, then stores only, then one call of the unlock callback. -/
def LockedOnce (w w1 : World) : Prop :=
  ∃ k, w1.trace = w.trace ++ Event.lock :: (List.replicate k Event.write ++ [Event.unlock])

/-- The values the loop of `setRelativePlaySpeed` assigns to `retVal`, in order: one
result of `setVoiceRelativePlaySpeed(ch, aSpeed)` for each member of the array the loop
runs its body for. -/
def speedSetterResults (E : Env) (aSpeed : SoFloat) : List handle → World → List result
  | [], _ => []
  | h :: rest, w =>
    if h = 0 then []
    else if E.getVoiceFromHandle w.eng h ≠ -1 then
      match setRelativePlaySpeed_body E aSpeed (E.getVoiceFromHandle w.eng h) (0, w) with
      | none => []
      | some a1 => a1.1 :: speedSetterResults E aSpeed rest a1.2
    else speedSetterResults E aSpeed rest w

/-! ## A sample environment

The spec's voice table, written out so that the conditions above can be met by
running code: handles, groups and per-voice setters as the spec describes them. -/

/-- Rounding of `m * 2 ^ k` to the nearest integer, ties to even. -/
def roundShift (m : Nat) (k : Int) : Nat :=
  if 0 ≤ k then m * 2 ^ k.toNat
  else if 2 * (m % 2 ^ (-k).toNat) > 2 ^ (-k).toNat ∨
      (2 * (m % 2 ^ (-k).toNat) = 2 ^ (-k).toNat ∧ m / 2 ^ (-k).toNat % 2 = 1) then
    m / 2 ^ (-k).toNat + 1
  else m / 2 ^ (-k).toNat

/-- The operator `*` on `float`: the IEEE-754 binary32 product of two patterns,
rounded to nearest, ties to even; a NaN result is the pattern `0x7fc00000`. -/
def f32mul (a b : Nat) : Nat :=
  let sign := ((a / 2147483648 + b / 2147483648) % 2) * 2147483648
  let ea := a / 8388608 % 256
  let eb := b / 8388608 % 256
  let ma := a % 8388608
  let mb := b % 8388608
  if (ea = 255 ∧ ma ≠ 0) ∨ (eb = 255 ∧ mb ≠ 0) then 2143289344
  else if ea = 255 ∨ eb = 255 then
    (if (ea = 0 ∧ ma = 0) ∨ (eb = 0 ∧ mb = 0) then 2143289344 else sign + 2139095040)
  else
    let sa := if ea = 0 then ma else 8388608 + ma
    let sb := if eb = 0 then mb else 8388608 + mb
    let xa : Int := if ea = 0 then -149 else (ea : Int) - 150
    let xb : Int := if eb = 0 then -149 else (eb : Int) - 150
    let m := sa * sb
    if m = 0 then sign
    else
      let u : Int := max ((Nat.log2 m : Int) + (xa + xb) - 23) (-149)
      let q := roundShift m (xa + xb - u)
      let bits := (u + 149).toNat * 8388608 + q
      if bits ≥ 2139095040 then sign + 2139095040 else sign + bits

/-- Modelled from the spec: `voiceGroupHandleToArray`, which is not among the sources.
A handle denotes a group when it carries the group marker (here: its 20 high bits are
all set; the low 12 bits index the table of groups), and the array returned is the
ordered list of the group's handles followed by the terminating `0`. -/
def specGroupArray (e : Soloud) (h : handle) : Option (List handle) :=
  if h / 4096 = 1048575 then
    match e.mVoiceGroup[h % 4096]? with
    | some (some g) => some (g ++ [0])
    | _ => none
  else none

/-- Modelled from the spec: `getVoiceFromHandle`, which is not among the sources. The
low 12 bits of a handle, minus one, are the slot (as in `FOR_ALL_VOICES_PRE_3D`), the
high bits the generation tag; the handle resolves when the slot holds an instance of
that generation, and a null or group handle does not resolve. -/
def specResolve (e : Soloud) (h : handle) : Int :=
  if h = 0 ∨ h / 4096 = 1048575 then -1
  else
    match voiceAt e (((h % 4096 : Nat) : Int) - 1) with
    | some v => if v.generation = h / 4096 then ((h % 4096 : Nat) : Int) - 1 else -1
    | none => -1

/-- Modelled from the spec: `setVoiceVolume`, which is not among the sources: the
volume of the slot's instance becomes `aVolume`; an empty slot is left alone. -/
def specSetVoiceVolume (aVoice : Nat) (aVolume : SoFloat) (e : Soloud) : Soloud :=
  match voiceAt e aVoice with
  | some v => putVoice e aVoice { v with volume := aVolume }
  | none => e

/-- Modelled from the spec: `setVoicePan`, which is not among the sources: the pan of
the slot's instance becomes `aPan`; an empty slot is left alone. -/
def specSetVoicePan (aVoice : Nat) (aPan : SoFloat) (e : Soloud) : Soloud :=
  match voiceAt e aVoice with
  | some v => putVoice e aVoice { v with pan := aPan }
  | none => e

/-- Modelled from the spec: `setVoicePause`, which is not among the sources: the
paused flag (here the bit `4`) of the slot's instance is set or cleared. -/
def specSetVoicePause (aVoice : Nat) (aPause : Bool) (e : Soloud) : Soloud :=
  match voiceAt e aVoice with
  | some v =>
    putVoice e aVoice { v with mFlags := if aPause then v.mFlags ||| 4 else v.mFlags &&& bitNot 4 }
  | none => e

/-- Modelled from the spec: `setVoiceRelativePlaySpeed`, which is not among the
sources. A bad value (here: a speed that is zero or has the sign bit set) is answered
with `INVALID_PARAMETER` and no state change; otherwise the instance takes the speed
and its derived sample rate follows. -/
def specSetVoiceRelativePlaySpeed (aVoice : Nat) (aSpeed : SoFloat) (e : Soloud) :
    result × Soloud :=
  if aSpeed = 0 ∨ aSpeed ≥ 2147483648 then (INVALID_PARAMETER, e)
  else
    match voiceAt e aVoice with
    | some v =>
      (SO_NO_ERROR, putVoice e aVoice
        { v with mRelativePlaySpeed := aSpeed, mSamplerate := f32mul v.mBaseSamplerate aSpeed })
    | none => (SO_NO_ERROR, e)

/-- The sample environment: a table of 16 slots, flag masks that are distinct bits, and
the lookups and per-voice setters modelled from the spec. -/
def specEnv : Env where
  VOICE_COUNT := 16
  ENABLE_VISUALIZATION := 2
  PROTECTED := 2
  LOOPING := 1
  INAUDIBLE_KILL := 32
  INAUDIBLE_TICK := 64
  fmul := f32mul
  voiceGroupHandleToArray := specGroupArray
  getVoiceFromHandle := specResolve
  setVoiceVolume := specSetVoiceVolume
  setVoicePan := specSetVoicePan
  setVoicePause := specSetVoicePause
  setVoiceRelativePlaySpeed := specSetVoiceRelativePlaySpeed

/-- A playing instance of generation `g` with all three faders active: sample rate
44100.0, speed 1.0, channel volumes 1.0, volume 1.0, pan 0.0. -/
def sampleVoice (g : Nat) : AudioSourceInstance where
  mFlags := 0
  mBaseSamplerate := 1194083328
  mSamplerate := 1194083328
  mRelativePlaySpeed := 1065353216
  mChannelVolume := [1065353216, 1065353216]
  mDelaySamples := 0
  mVolumeFader := { mActive := 1 }
  mPanFader := { mActive := 1 }
  mRelativePlaySpeedFader := { mActive := 1 }
  generation := g
  volume := 1065353216
  pan := 0

/-- A sample engine: slot 0 holds an instance of generation 1 (handle `4097`), slot 1
one of generation 2 (handle `8194`), the other 14 slots are empty; group 0 (handle
`4294963200`) lists handle `4097`, the stale handle `28673` of slot 0, and handle
`8194`; both lock callbacks are installed and the global-volume fader is active. -/
def sampleEngine : Soloud where
  mVoice := some (sampleVoice 1) :: some (sampleVoice 2) :: List.replicate 14 none
  mHighestVoice := 2
  mMaxActiveVoices := 8
  mGlobalVolume := 1065353216
  mGlobalVolumeFader := { mActive := 1 }
  mPostClipScaler := 1065353216
  mFlags := 1
  mLockMutexFunc := true
  mUnlockMutexFunc := true
  m3dData := 4097 :: 8194 :: List.replicate 14 0
  mVoiceGroup := [some [4097, 28673, 8194]]

/-- The sample engine before any command. -/
def sampleWorld : World where
  eng := sampleEngine
  trace := []

/-- The sample engine with `mHighestVoice` as the spec's data model words it: the
highest index that holds an instance, here `1`. -/
def sampleWorldTop : World where
  eng := { sampleEngine with mHighestVoice := 1 }
  trace := []

/-- The sample engine with two more groups: group 0 (handle `4294963200`) lists the
handle of slot 0 twice, around the handle of slot 1, and group 1 (handle `4294963201`)
is that list with the repeat removed. -/
def sampleWorldDup : World where
  eng := { sampleEngine with mVoiceGroup := [some [4097, 8194, 4097], some [8194, 4097]] }
  trace := []

end SoLoud

/-! # tinyflock: parse_arguments and avg_fps

A shallow embedding of `parse_arguments` and `avg_fps` of
`src/apps/22-tinyflock/main.cpp`. The argument vector is the list of its entries
`argv[0]`, `argv[1]`, ...; every member of the configuration is carried as the integer
assigned to it; the static array of `avg_fps` is passed in and out. -/

namespace TinyFlock

/-- The members of `config->video` that `parse_arguments` writes. -/
structure Video where
  screen_width : Int
  screen_height : Int
  screen_depth : Int
  frames_per_second : Int
deriving DecidableEq, Repr

/-- The member of `config->input` that `parse_arguments` writes. -/
structure Input where
  influence_radius : Int
deriving DecidableEq, Repr

/-- The members of `config->flock` that `parse_arguments` writes. -/
structure Flock where
  size : Int
  max_velocity : Int
  min_separation : Int
  max_steering_force : Int
  neighborhood_radius : Int
deriving DecidableEq, Repr

/-- The members of `configuration` that `parse_arguments` writes, each carried as the
integer assigned to it (`configuration.h` is not among the sources). -/
structure configuration where
  num_threads : Int
  video : Video
  input : Input
  flock : Flock
deriving DecidableEq, Repr

/-- What `parse_arguments` uses and the sources do not hold: the default values, which
are macros of `configuration.h`, the C library's `atoi`, and `sqrtOver5 x`, the value
that the assignment `influence_radius = sqrt(x) / 5` stores. -/
structure Env where
  NUM_THREADS : Int
  SCREEN_WIDTH : Int
  SCREEN_HEIGHT : Int
  SCREEN_DEPTH : Int
  FPS : Int
  NUM_BOIDS : Int
  MAX_BOID_VELOCITY : Int
  MIN_BOID_SEPARATION : Int
  MAX_BOID_STEERING_FORCE : Int
  NEIGHBORHOOD_RADIUS : Int
  atoi : String → Int
  sqrtOver5 : Int → Int

/-- How a call of `parse_arguments` ends: it returns a value and leaves a configuration,
or it passes to `strcmp` or `atoi` a pointer that is no entry of `argv` (no defined
result); `outOfFuel` is the bound on the rounds of the model's loop being used up. -/
inductive Outcome where
  | returned (ret : Int) (config : configuration)
  | undefined
  | outOfFuel
deriving DecidableEq, Repr

/-- A run of `parse_arguments`: the indices `i` of the entries `argv[i]` it passed to
`strcmp` or `atoi`, in order, and how it ended. -/
structure Parse where
  reads : List Nat
  outcome : Outcome
deriving DecidableEq, Repr

/-- The function `print_help`: it prints the help text and returns `0`. -/
def print_help : Int := 0

/-- The chain of `else if (strcmp(argv[i], ...) == 0 ...)` after the test for the help
option: for each option that takes a value, the member that
`... = atoi(argv[++i])` assigns; `none` when no comparison succeeds. -/
def assignment (a : String) : Option (configuration → Int → configuration) :=
  if a = "--width" then some (fun c v => { c with video := { c.video with screen_width := v } })
  else if a = "--height" then
    some (fun c v => { c with video := { c.video with screen_height := v } })
  else if a = "--depth" then
    some (fun c v => { c with video := { c.video with screen_depth := v } })
  else if a = "--fps" then
    some (fun c v => { c with video := { c.video with frames_per_second := v } })
  else if a = "-ir" ∨ a = "--influence-radius" then
    some (fun c v => { c with input := { c.input with influence_radius := v } })
  else if a = "-fc" ∨ a = "--flock-count" then
    some (fun c v => { c with flock := { c.flock with size := v } })
  else if a = "-fs" ∨ a = "--flock-separation" then
    some (fun c v => { c with flock := { c.flock with min_separation := v } })
  else if a = "-fv" ∨ a = "--flock-velocity" then
    some (fun c v => { c with flock := { c.flock with max_velocity := v } })
  else if a = "-fn" ∨ a = "--flock-neighborhood" then
    some (fun c v => { c with flock := { c.flock with neighborhood_radius := v } })
  else if a = "-t" ∨ a = "--num-threads" then some (fun c v => { c with num_threads := v })
  else none

/-- The loop `for(int i = 1; i < argc; i++)` of `parse_arguments` from index `i` on,
with the two statements after it. `argv` holds the entries `argv[0]`, `argv[1]`, ...;
a read at an index where it has none is a read of no entry of the vector. The first
argument bounds the rounds. -/
def parse_loop (E : Env) (argc : Nat) (argv : List String) :
    Nat → Nat → configuration → List Nat → Parse
  | 0, _, _, reads => { reads := reads, outcome := Outcome.outOfFuel }
  | fuel + 1, i, c, reads =>
    if i < argc then
      match argv[i]? with
      | none => { reads := reads ++ [i], outcome := Outcome.undefined }
      | some a =>
        if a = "-h" ∨ a = "--help" then
          { reads := reads ++ [i], outcome := Outcome.returned print_help c }
        else
          match assignment a with
          | some assign =>
            match argv[i + 1]? with
            | none => { reads := reads ++ [i, i + 1], outcome := Outcome.undefined }
            | some v =>
              parse_loop E argc argv fuel (i + 2) (assign c (E.atoi v)) (reads ++ [i, i + 1])
          | none => parse_loop E argc argv fuel (i + 1) c (reads ++ [i])
    else
      { reads := reads,
        outcome := Outcome.returned 1
          { c with input := { c.input with
              influence_radius :=
                E.sqrtOver5 (c.video.screen_height * c.video.screen_width) } } }

/-- The function `parse_arguments`: the defaults are stored, then the loop runs from
index `1`. The loop makes at most `argc` rounds. -/
def parse_arguments (E : Env) (argc : Nat) (argv : List String) (config : configuration) :
    Parse :=
  parse_loop E argc argv (argc + 1) 1
    { config with
      num_threads := E.NUM_THREADS,
      video := { screen_width := E.SCREEN_WIDTH, screen_height := E.SCREEN_HEIGHT,
                 screen_depth := E.SCREEN_DEPTH, frames_per_second := E.FPS },
      flock := { size := E.NUM_BOIDS, max_velocity := E.MAX_BOID_VELOCITY,
                 min_separation := E.MIN_BOID_SEPARATION,
                 max_steering_force := E.MAX_BOID_STEERING_FORCE,
                 neighborhood_radius := E.NEIGHBORHOOD_RADIUS } }
    []

/-- The macro `FPS_BUFFER_SIZE`. -/
def FPS_BUFFER_SIZE : Nat := 5

/-- The loop `for(int i = FPS_BUFFER_SIZE - 1; i != 0; i--)
fps_buffer[i] = fps_buffer[i - 1];` of `avg_fps`, from index `i` down. -/
def shift_loop : Nat → List Int → List Int
  | 0, fps_buffer => fps_buffer
  | i + 1, fps_buffer => shift_loop i (fps_buffer.set (i + 1) (fps_buffer.getD i 0))

/-- The loop `for(int i = 0; i < FPS_BUFFER_SIZE; i++) fps_avg += fps_buffer[i];` of
`avg_fps`: `n` rounds are left, the index is `i`. -/
def sum_loop (fps_buffer : List Int) : Nat → Nat → Int → Int
  | 0, _, fps_avg => fps_avg
  | n + 1, i, fps_avg => sum_loop fps_buffer n (i + 1) (fps_avg + fps_buffer.getD i 0)

/-- The function `avg_fps`, on its argument and the static array `fps_buffer`: the
value returned and the array afterwards. A `long` is taken to have 64 bits, so that no
sum of five quotients `1000000000 / t` overflows; the division by a zero frame time has
no defined result. -/
def avg_fps (frame_time_nsec : Int) (fps_buffer : List Int) : Option (Int × List Int) :=
  if frame_time_nsec = 0 then none
  else
    some
      (Int.tdiv
        (sum_loop ((shift_loop (FPS_BUFFER_SIZE - 1) fps_buffer).set 0
          (Int.tdiv 1000000000 frame_time_nsec)) FPS_BUFFER_SIZE 0 0)
        FPS_BUFFER_SIZE,
      (shift_loop (FPS_BUFFER_SIZE - 1) fps_buffer).set 0 (Int.tdiv 1000000000 frame_time_nsec))

/-- The static array `fps_buffer` before the first call: static storage is zeroed. -/
def fps_buffer_initial : List Int := List.replicate FPS_BUFFER_SIZE 0

/-- Successive calls of `avg_fps` with the frame times `ts`, oldest first: the values
returned, in order, and the array after the last call. -/
def avg_fps_calls : List Int → List Int → Option (List Int × List Int)
  | [], fps_buffer => some ([], fps_buffer)
  | t :: ts, fps_buffer =>
    match avg_fps t fps_buffer with
    | none => none
    | some r =>
      match avg_fps_calls ts r.2 with
      | none => none
      | some rs => some (r.1 :: rs.1, rs.2)

/-- The five most recent values `1000000000 / t` of the calls with the frame times
`ts` (oldest first), newest first, with `0` for calls not yet made: what the claim about
`avg_fps` says the array holds. -/
def recentRates (ts : List Int) : List Int :=
  ((ts.reverse.map (fun t => Int.tdiv 1000000000 t)) ++ List.replicate 5 0).take 5

/-- A sample for `atoi`: the digits of a decimal numeral, read from the left up to the
first character that is no digit. -/
def atoiDigits : List Char → Int → Int
  | [], acc => acc
  | c :: cs, acc =>
    if 48 ≤ c.toNat ∧ c.toNat ≤ 57 then atoiDigits cs (acc * 10 + ((c.toNat : Int) - 48))
    else acc

/-- A sample for `atoi`, which is the C library's: leading blanks, a sign, decimal
digits. -/
def sampleAtoi (s : String) : Int :=
  match s.toList.dropWhile (fun c => c = ' ') with
  | '-' :: cs => - atoiDigits cs 0
  | '+' :: cs => atoiDigits cs 0
  | cs => atoiDigits cs 0

/-- A sample for the square root: the largest `k` with `k * k <= x`, found by halving
the interval from `lo` (whose square is at most `x`) to `hi` (whose square is above `x`);
the first argument bounds the rounds. -/
def sqrtBetween : Nat → Nat → Nat → Nat → Nat
  | 0, lo, _, _ => lo
  | fuel + 1, lo, hi, x =>
    if hi ≤ lo + 1 then lo
    else if ((lo + hi) / 2) * ((lo + hi) / 2) ≤ x then sqrtBetween fuel ((lo + hi) / 2) hi x
    else sqrtBetween fuel lo ((lo + hi) / 2) x

/-- A sample environment: a screen of 640 by 480 as the default, the sample `atoi`,
and for `sqrt(x) / 5` the integer square root of `x` divided by five. -/
def sampleEnv : Env where
  NUM_THREADS := 2
  SCREEN_WIDTH := 640
  SCREEN_HEIGHT := 480
  SCREEN_DEPTH := 32
  FPS := 60
  NUM_BOIDS := 256
  MAX_BOID_VELOCITY := 10
  MIN_BOID_SEPARATION := 20
  MAX_BOID_STEERING_FORCE := 1
  NEIGHBORHOOD_RADIUS := 50
  atoi := sampleAtoi
  sqrtOver5 := fun x => ((sqrtBetween 64 0 (x.toNat + 1) x.toNat / 5 : Nat) : Int)

/-- The configuration as `main` allocates it with `calloc`: every member zero. -/
def zeroConfig : configuration where
  num_threads := 0
  video := { screen_width := 0, screen_height := 0, screen_depth := 0, frames_per_second := 0 }
  input := { influence_radius := 0 }
  flock := { size := 0, max_velocity := 0, min_separation := 0, max_steering_force := 0,
             neighborhood_radius := 0 }

end TinyFlock

/-! # pybind: the numeric type caster and the signature descriptor

A shallow embedding of `PYBIND_TYPE_CASTER_NUMBER` and of the class `descr` of
`src/apps/24-nanogui/include/pybind/cast.h`. Integers are `Int`, with the conversion
between integer types written out; the entries of a descriptor live in a heap, at
addresses, and a pointer is an address or null (`none`). -/

namespace Pybind

/-! ## The numeric type caster -/

/-- An integer type of C++: its size in bytes and whether it is signed. For such a type
`std::numeric_limits<type>::is_integer` is true. -/
structure IntType where
  sizeof : Nat
  isSigned : Bool
deriving DecidableEq, Repr

/-- The width of the type in bits. -/
def IntType.bits (T : IntType) : Nat := 8 * T.sizeof

/-- The value `std::numeric_limits<type>::min()`. -/
def IntType.min (T : IntType) : Int := if T.isSigned then -(2 ^ (T.bits - 1)) else 0

/-- The value `std::numeric_limits<type>::max()`. -/
def IntType.max (T : IntType) : Int :=
  if T.isSigned then 2 ^ (T.bits - 1) - 1 else 2 ^ T.bits - 1

/-- The conversion `(type) x` of an integer: the value of the type that is congruent to
`x` modulo `2 ^ bits`. -/
def IntType.convert (T : IntType) (x : Int) : Int :=
  if T.isSigned then (x + 2 ^ (T.bits - 1)) % 2 ^ T.bits - 2 ^ (T.bits - 1)
  else x % 2 ^ T.bits

/-- What a call `from_type(src)` of the Python API did: it returned the value `v`, or it
raised an error, which is to return `(py_type) -1` with the error indicator set. -/
inductive Converted where
  | value (v : Int)
  | raised
deriving DecidableEq, Repr

/-- The outcome of `load`: the value returned, the member `value` of the caster and the
error indicator of the interpreter afterwards. -/
structure Loaded where
  ok : Bool
  value : Int
  errorSet : Bool
deriving DecidableEq, Repr

/-- The function `load` of `PYBIND_TYPE_CASTER_NUMBER(type, py_type, from_type,
to_pytype)` for an integer `type`: `py_value = from_type(src)`; when
`py_value == (py_type) -1 && PyErr_Occurred()`, or the two types differ in size and
`py_value` is below `(py_type) min` or above `(py_type) max`, the error is cleared and
`false` returned; otherwise `value = (type) py_value` and `true` is returned.
`errorSet` is the error indicator on entry, `value` the member before the call. -/
def load {Obj : Type} (T P : IntType) (from_type : Obj → Converted) (src : Obj)
    (errorSet : Bool) (value : Int) : Loaded :=
  let py_value : Int :=
    match from_type src with
    | Converted.value v => v
    | Converted.raised => P.convert (-1)
  let occurred : Bool :=
    match from_type src with
    | Converted.value _ => errorSet
    | Converted.raised => true
  if (py_value = P.convert (-1) ∧ occurred = true) ∨
      (T.sizeof ≠ P.sizeof ∧ (py_value < P.convert T.min ∨ py_value > P.convert T.max)) then
    { ok := false, value := value, errorSet := false }
  else { ok := true, value := T.convert py_value, errorSet := occurred }

/-- The function `cast` of the same caster: `return to_pytype((py_type) src);`. -/
def cast {Obj : Type} (P : IntType) (to_pytype : Int → Obj) (src : Int) : Obj :=
  to_pytype (P.convert src)

/-! ## The signature descriptor -/

/-- The struct `descr::entry`: a pointer to a `std::type_info` (here the number of the
type) or null, a string or null, and the pointer to the next entry or null. -/
structure entry where
  type : Option Nat
  str : Option String
  next : Option Nat
deriving DecidableEq, Repr

/-- The heap of entries: what each address holds, `none` where no entry lives. -/
abbrev Heap := Nat → Option entry

/-- The class `descr`: the pointers `first` and `last`. -/
structure descr where
  first : Option Nat
  last : Option Nat
deriving DecidableEq, Repr

/-- What `str()` reads outside the descriptor: the `tp_name` of each registered type,
and for the other types the name that `clean_type_id` makes of `type_info::name()`. -/
structure Internals where
  registered_types : Nat → Option String
  clean_type_id : Nat → String

/-- The move constructor `descr(descr &&d) : first(d.first), last(d.last)
{ d.first = d.last = nullptr; }`: the new descriptor and `d` afterwards. -/
def descr.move (d : descr) : descr × descr :=
  ({ first := d.first, last := d.last }, { first := none, last := none })

/-- The loop `while (last->next) last = last->next;` of `operator+=`, from the entry at
address `last`; the first argument bounds the rounds. -/
def advance_last (m : Heap) : Nat → Nat → Option Nat
  | 0, _ => none
  | fuel + 1, last =>
    match m last with
    | none => none
    | some e =>
      match e.next with
      | none => some last
      | some n => advance_last m fuel n

/-- The heap after the store `p->next = q` to the entry `e` at address `p`. -/
def setNext (m : Heap) (p : Nat) (e : entry) (q : Option Nat) : Heap :=
  fun a => if a = p then some { e with next := q } else m a

/-- The function `descr::operator+=(descr &&other)`: `last->next = other.first;
while (last->next) last = last->next; other.first = other.last = nullptr;`. The result
is the heap, `*this` and `other` afterwards; a store through a null `last` has no
defined result. -/
def plus_assign (fuel : Nat) (m : Heap) (this other : descr) :
    Option (Heap × descr × descr) :=
  match this.last with
  | none => none
  | some l =>
    match m l with
    | none => none
    | some e =>
      match advance_last (setNext m l e other.first) fuel l with
      | none => none
      | some l1 =>
        some (setNext m l e other.first, { this with last := some l1 },
          { first := none, last := none })

/-- The friend `operator+(descr &&l, descr &&r)`: `descr result(std::move(l));
result += std::move(r); return result;`. The result is the heap, `result`, `l` and `r`
afterwards. -/
def plus (fuel : Nat) (m : Heap) (l r : descr) : Option (Heap × descr × descr × descr) :=
  match plus_assign fuel m (descr.move l).1 r with
  | none => none
  | some (m1, res, r1) => some (m1, res, (descr.move l).2, r1)

/-- What the body of the loop of `str()` appends for one entry: the name of the type
when `type` is not null, and `str` otherwise (appending a null `str` has no defined
result). -/
def entryText (I : Internals) (e : entry) : Option String :=
  match e.type with
  | some ty =>
    match I.registered_types ty with
    | some tp_name => some tp_name
    | none => some (I.clean_type_id ty)
  | none => e.str

/-- The loop `for (entry *it = first; it != nullptr; it = it->next)` of `str()`; the
first argument bounds the rounds. -/
def str_loop (I : Internals) (m : Heap) : Nat → Option Nat → String → Option String
  | 0, _, _ => none
  | _ + 1, none, result => some result
  | fuel + 1, some a, result =>
    match m a with
    | none => none
    | some e =>
      match entryText I e with
      | none => none
      | some s => str_loop I m fuel e.next (result ++ s)

/-- The function `descr::str()`. -/
def descr.str (I : Internals) (fuel : Nat) (m : Heap) (d : descr) : Option String :=
  str_loop I m fuel d.first ""

/-- The entries at the addresses `as`, in this order, are linked from the pointer `p`
on, and the `next` of the last of them is `q` (`p` itself is `q` when there is none). -/
def segment (m : Heap) : Option Nat → List Nat → Option Nat → Bool
  | p, [], q => decide (p = q)
  | p, a :: rest, q =>
    decide (p = some a) &&
      match m a with
      | none => false
      | some e => segment m e.next rest q

/-- The descriptor `d` is the list of the entries at the addresses `as`: they are linked
from `first` on, the `next` of the last is null, and `last` points to the last. -/
def descr.IsList (m : Heap) (d : descr) (as : List Nat) : Prop :=
  segment m d.first as none = true ∧ d.last = as.getLast?

/-- The texts of the entries at the addresses `as`, one after the other. -/
def textsOf (I : Internals) (m : Heap) : List Nat → Option String
  | [] => some ""
  | a :: rest =>
    match m a with
    | none => none
    | some e =>
      match entryText I e, textsOf I m rest with
      | some s, some t => some (s ++ t)
      | _, _ => none

/-! ## Samples for the caster and the descriptor -/

/-- The type `int8_t`. -/
def int8_t : IntType := { sizeof := 1, isSigned := true }

/-- The type `uint16_t`. -/
def uint16_t : IntType := { sizeof := 2, isSigned := false }

/-- The type `long`, of eight bytes. -/
def long : IntType := { sizeof := 8, isSigned := true }

/-- The type `unsigned long`, of eight bytes. -/
def unsigned_long : IntType := { sizeof := 8, isSigned := false }

/-- A sample for `PyLong_AsLong` and `PyLong_AsUnsignedLong`, with a Python integer as
the object: the value when it fits the carrier type, an error otherwise. -/
def sampleFromType (P : IntType) (o : Int) : Converted :=
  if P.min ≤ o ∧ o ≤ P.max then Converted.value o else Converted.raised

/-- A sample heap: the entries of `(`, of the type 7 and of `, ` at the addresses 1, 2
and 3, linked in this order, and the entry of `)` at the address 5. -/
def sampleHeap : Heap := fun a =>
  if a = 1 then some { type := none, str := some "(", next := some 2 }
  else if a = 2 then some { type := some 7, str := none, next := some 3 }
  else if a = 3 then some { type := none, str := some ", ", next := none }
  else if a = 5 then some { type := none, str := some ")", next := none }
  else none

/-- Sample internals: the type 7 is registered as `Widget`. -/
def sampleInternals : Internals where
  registered_types := fun ty => if ty = 7 then some "Widget" else none
  clean_type_id := fun _ => "?"

end Pybind

/-! # Theorems: SoLoud -/

namespace SoLoud

/-! ## The primitives -/

@[simp] theorem callLock_eng (w : World) : (callLock w).eng = w.eng := by
  unfold callLock; split <;> rfl

@[simp] theorem callUnlock_eng (w : World) : (callUnlock w).eng = w.eng := by
  unfold callUnlock; split <;> rfl

@[simp] theorem store_eng (f : Soloud → Soloud) (w : World) : (store f w).eng = f w.eng := rfl

@[simp] theorem store_trace (f : Soloud → Soloud) (w : World) :
    (store f w).trace = w.trace ++ [Event.write] := rfl

theorem callLock_trace (w : World) (h : w.eng.mLockMutexFunc = true) :
    (callLock w).trace = w.trace ++ [Event.lock] := by
  simp [callLock, h]

theorem callUnlock_trace (w : World) (h : w.eng.mUnlockMutexFunc = true) :
    (callUnlock w).trace = w.trace ++ [Event.unlock] := by
  simp [callUnlock, h]

/-! ## setMaxActiveVoiceCount -/

/-- C1. For `n = 0` and for every `n` above the table capacity `VOICE_COUNT`,
`setMaxActiveVoiceCount(n)` returns `INVALID_PARAMETER` and leaves the whole engine,
`mMaxActiveVoices` included, and the trace of events exactly as they were. -/
theorem setMaxActiveVoiceCount_out_of_range (E : Env) (n : Nat) (w : World)
    (hn : n = 0 ∨ E.VOICE_COUNT < n) :
    setMaxActiveVoiceCount E n w = (INVALID_PARAMETER, w) ∧
      (setMaxActiveVoiceCount E n w).2.eng.mMaxActiveVoices = w.eng.mMaxActiveVoices := by
  have hc : n = 0 ∨ n ≥ E.VOICE_COUNT := by
    rcases hn with h | h
    · exact Or.inl h
    · exact Or.inr (Nat.le_of_lt h)
  simp [setMaxActiveVoiceCount, hc]

/-- Witness of C1 on the sample engine (capacity 16, cap 8): the request `17`. -/
theorem setMaxActiveVoiceCount_out_of_range_witness :
    setMaxActiveVoiceCount specEnv 17 sampleWorld = (INVALID_PARAMETER, sampleWorld) ∧
      (setMaxActiveVoiceCount specEnv 17 sampleWorld).2.eng.mMaxActiveVoices = 8 :=
  setMaxActiveVoiceCount_out_of_range specEnv 17 sampleWorld (Or.inr (by decide))

/-- C2, as stated, fails at `n = VOICE_COUNT`: on the sample engine (capacity 16) the
request `16` is neither zero nor above the capacity, yet the call returns
`INVALID_PARAMETER`, not `SO_NO_ERROR`, and the cap stays `8`. -/
theorem setMaxActiveVoiceCount_capacity_rejected :
    (1 ≤ 16 ∧ 16 ≤ specEnv.VOICE_COUNT) ∧ ¬ (16 = 0 ∨ specEnv.VOICE_COUNT < 16) ∧
      (setMaxActiveVoiceCount specEnv 16 sampleWorld).1 = INVALID_PARAMETER ∧
      (setMaxActiveVoiceCount specEnv 16 sampleWorld).1 ≠ SO_NO_ERROR ∧
      (setMaxActiveVoiceCount specEnv 16 sampleWorld).2.eng.mMaxActiveVoices = 8 := by
  decide

/-- C2, amended. `setMaxActiveVoiceCount(n)` returns `INVALID_PARAMETER` if and only if
`n` is zero or `n` is at least `VOICE_COUNT`; for every `n` with
`1 <= n < VOICE_COUNT` it returns `SO_NO_ERROR` and afterwards `mMaxActiveVoices = n`. -/
theorem setMaxActiveVoiceCount_result (E : Env) (n : Nat) (w : World) :
    ((setMaxActiveVoiceCount E n w).1 = INVALID_PARAMETER ↔ (n = 0 ∨ E.VOICE_COUNT ≤ n)) ∧
      (1 ≤ n ∧ n < E.VOICE_COUNT →
        (setMaxActiveVoiceCount E n w).1 = SO_NO_ERROR ∧
          (setMaxActiveVoiceCount E n w).2.eng.mMaxActiveVoices = n) := by
  by_cases hc : n = 0 ∨ n ≥ E.VOICE_COUNT
  · refine ⟨?_, ?_⟩
    · simp [setMaxActiveVoiceCount, hc]
    · rintro ⟨h1, h2⟩
      rcases hc with h | h
      · omega
      · omega
  · refine ⟨?_, ?_⟩
    · simp only [setMaxActiveVoiceCount, if_neg hc]
      constructor
      · intro h
        exact absurd h (by decide)
      · intro h
        exact absurd h hc
    · intro _
      simp [setMaxActiveVoiceCount, hc]

/-- Witness of the amended C2 on the sample engine: the request `15`, one below the
capacity, succeeds and becomes the cap. -/
theorem setMaxActiveVoiceCount_result_witness :
    (1 ≤ 15 ∧ 15 < specEnv.VOICE_COUNT) ∧
      (setMaxActiveVoiceCount specEnv 15 sampleWorld).1 = SO_NO_ERROR ∧
      (setMaxActiveVoiceCount specEnv 15 sampleWorld).2.eng.mMaxActiveVoices = 15 :=
  ⟨by decide, (setMaxActiveVoiceCount_result specEnv 15 sampleWorld).2 (by decide)⟩

/-! ## setGlobalVolume -/

/-- C6. After `setGlobalVolume(v)` the global volume is `v` and the global-volume fader
is inactive; the voice table and every other member of the engine are as before. -/
theorem setGlobalVolume_effect (v : SoFloat) (w : World) :
    (setGlobalVolume v w).eng.mGlobalVolume = v ∧
      (setGlobalVolume v w).eng.mGlobalVolumeFader.mActive = 0 ∧
      (setGlobalVolume v w).eng.mVoice = w.eng.mVoice ∧
      (setGlobalVolume v w).eng.mHighestVoice = w.eng.mHighestVoice ∧
      (setGlobalVolume v w).eng.mMaxActiveVoices = w.eng.mMaxActiveVoices ∧
      (setGlobalVolume v w).eng.mPostClipScaler = w.eng.mPostClipScaler ∧
      (setGlobalVolume v w).eng.mFlags = w.eng.mFlags ∧
      (setGlobalVolume v w).eng.mLockMutexFunc = w.eng.mLockMutexFunc ∧
      (setGlobalVolume v w).eng.mUnlockMutexFunc = w.eng.mUnlockMutexFunc ∧
      (setGlobalVolume v w).eng.m3dData = w.eng.m3dData ∧
      (setGlobalVolume v w).eng.mVoiceGroup = w.eng.mVoiceGroup := by
  simp [setGlobalVolume]

/-! ## The voice table -/

theorem voiceAt_nonneg {e : Soloud} {ch : Int} {v : AudioSourceInstance}
    (h : voiceAt e ch = some v) : 0 ≤ ch := by
  unfold voiceAt at h
  by_contra hneg
  simp [not_le.mp hneg] at h

theorem voiceAt_putVoice_self {e : Soloud} {ch : Int} {v0 : AudioSourceInstance}
    (v : AudioSourceInstance) (h : voiceAt e ch = some v0) :
    voiceAt (putVoice e ch v) ch = some v := by
  have h0 := voiceAt_nonneg h
  unfold voiceAt at h ⊢
  simp only [not_lt.mpr h0, if_false] at h ⊢
  have hlt : ch.toNat < e.mVoice.length := by
    by_contra hge
    rw [List.getElem?_eq_none (not_lt.mp hge)] at h
    simp at h
  simp [putVoice, List.getElem?_set, hlt]

theorem voiceAt_putVoice_ne {e : Soloud} {ch c : Int} (v : AudioSourceInstance)
    (h0 : 0 ≤ ch) (hne : c ≠ ch) : voiceAt (putVoice e ch v) c = voiceAt e c := by
  unfold voiceAt
  by_cases hc : c < 0
  · simp [hc]
  · have hn : ch.toNat ≠ c.toNat := by
      intro heq
      apply hne
      have := Int.toNat_of_nonneg h0
      have := Int.toNat_of_nonneg (not_lt.mp hc)
      omega
    simp [hc, putVoice, List.getElem?_set, hn]

theorem storeVoice_eq_some {ch : Int} {f : AudioSourceInstance → AudioSourceInstance}
    {w w1 : World} (h : storeVoice ch f w = some w1) :
    ∃ v0, voiceAt w.eng ch = some v0 ∧ w1 = store (fun e => putVoice e ch (f v0)) w := by
  unfold storeVoice at h
  split at h
  · simp at h
  · rename_i v hv
    exact ⟨v, hv, by simpa using h.symm⟩

theorem storeVoice_of_occupied (ch : Int) (f : AudioSourceInstance → AudioSourceInstance)
    (w : World) (h : (voiceAt w.eng ch).isSome = true) :
    ∃ v0, voiceAt w.eng ch = some v0 ∧
      storeVoice ch f w = some (store (fun e => putVoice e ch (f v0)) w) := by
  obtain ⟨v0, hv0⟩ := Option.isSome_iff_exists.mp h
  exact ⟨v0, hv0, by simp [storeVoice, hv0]⟩


theorem putVoice_keeps (P : AudioSourceInstance → Prop) {e : Soloud} {ch : Int}
    {v0 : AudioSourceInstance} (v : AudioSourceInstance) (h : voiceAt e ch = some v0)
    (hv : P v) :
    (∀ x, voiceAt (putVoice e ch v) ch = some x → P x) ∧
      ∀ c, (∀ x, voiceAt e c = some x → P x) →
        ∀ x, voiceAt (putVoice e ch v) c = some x → P x := by
  refine ⟨?_, ?_⟩
  · intro x hx
    rw [voiceAt_putVoice_self v h] at hx
    cases hx
    exact hv
  · intro c hc x hx
    by_cases hcc : c = ch
    · subst hcc
      rw [voiceAt_putVoice_self v h] at hx
      cases hx
      exact hv
    · rw [voiceAt_putVoice_ne v (voiceAt_nonneg h) hcc] at hx
      exact hc x hx

/-! ## The voice iteration -/

theorem forAllVoices_establishes {α : Type} (resolve : α → handle → Int)
    (body : Int → α → Option α) (off : α → Int → Prop)
    (hbody : ∀ a h, resolve a h ≠ -1 →
      ∃ a1, body (resolve a h) a = some a1 ∧ off a1 (resolve a h) ∧ ∀ c, off a c → off a1 c)
    (hs : List handle) (hterm : 0 ∈ hs) (a : α) (S : List Int) (hS : ∀ c ∈ S, off a c) :
    ∃ a1, forAllVoices resolve body hs a = some a1 ∧
      ∀ c ∈ S ++ resolvedSlots resolve body hs a, off a1 c := by
  induction hs generalizing a S with
  | nil => simp at hterm
  | cons h rest ih =>
    by_cases h0 : h = 0
    · refine ⟨a, by simp [forAllVoices, h0], ?_⟩
      simpa [resolvedSlots, h0] using hS
    · have hterm1 : 0 ∈ rest := by
        rcases List.mem_cons.mp hterm with h1 | h1
        · exact absurd h1.symm h0
        · exact h1
      by_cases hr : resolve a h ≠ -1
      · obtain ⟨a1, hb, hoff, hpres⟩ := hbody a h hr
        obtain ⟨a2, hrun, hall⟩ := ih hterm1 a1 (S ++ [resolve a h]) (by
          intro c hc
          rcases List.mem_append.mp hc with h1 | h1
          · exact hpres c (hS c h1)
          · rw [List.mem_singleton.mp h1]; exact hoff)
        refine ⟨a2, by simp [forAllVoices, h0, hr, hb, hrun], ?_⟩
        intro c hc
        apply hall
        simp only [resolvedSlots, h0, hr, hb, if_false, if_true, ne_eq, not_false_eq_true,
          List.mem_append, List.mem_cons] at hc
        simp only [List.mem_append, List.mem_singleton]
        tauto
      · obtain ⟨a2, hrun, hall⟩ := ih hterm1 a S hS
        refine ⟨a2, by simp [forAllVoices, h0, hr, hrun], ?_⟩
        intro c hc
        apply hall
        simpa [resolvedSlots, h0, hr] using hc

theorem handleArray_terminated (E : Env) (hE : E.Sound) (e : Soloud) (h : handle) :
    0 ∈ handleArray E e h := by
  unfold handleArray
  split
  · rename_i arr harr
    exact hE.group_terminated e h arr harr
  · simp

theorem mem_resolvedSlots_head {α : Type} (resolve : α → handle → Int)
    (body : Int → α → Option α) (h : handle) (rest : List handle) (a : α) (h0 : h ≠ 0)
    (hr : resolve a h ≠ -1) : resolve a h ∈ resolvedSlots resolve body (h :: rest) a := by
  simp only [resolvedSlots, h0, hr, if_false, if_true, ne_eq, not_false_eq_true]
  split <;> simp

/-! ## setVolume -/

theorem setVolume_body_spec (E : Env) (hE : E.Sound)
    (hkeep : ∀ n x e c, volumeFaderOff e c → volumeFaderOff (E.setVoiceVolume n x e) c)
    (v : SoFloat) (w : World) (h : handle) (hr : E.getVoiceFromHandle w.eng h ≠ -1) :
    ∃ w1, setVolume_body E v (E.getVoiceFromHandle w.eng h) w = some w1 ∧
      volumeFaderOff w1.eng (E.getVoiceFromHandle w.eng h) ∧
      ∀ c, volumeFaderOff w.eng c → volumeFaderOff w1.eng c := by
  obtain ⟨v0, hv0, hst⟩ := storeVoice_of_occupied (E.getVoiceFromHandle w.eng h)
    (fun v => { v with mVolumeFader := { v.mVolumeFader with mActive := 0 } }) w
    (hE.resolve_occupied w.eng h hr)
  have hk := putVoice_keeps (fun x => x.mVolumeFader.mActive = 0)
    ({ v0 with mVolumeFader := { v0.mVolumeFader with mActive := 0 } }) hv0 rfl
  refine ⟨_, by unfold setVolume_body; rw [hst], ?_, ?_⟩
  · exact hkeep _ _ _ _ hk.1
  · intro c hc
    exact hkeep _ _ _ _ (hk.2 c hc)

/-- C3. `setVolume(h, v)` returns, and afterwards the volume fader of every slot the
handle resolved to (every slot the loop ran its body for) is inactive, whatever it was
before; for a single-voice handle that is the slot `getVoiceFromHandle(h)`. The
per-voice `setVoiceVolume`, which is not in this file, is taken not to start a fader. -/
theorem setVolume_deactivates_fader (E : Env) (hE : E.Sound)
    (hkeep : ∀ n x e c, volumeFaderOff e c → volumeFaderOff (E.setVoiceVolume n x e) c)
    (h : handle) (v : SoFloat) (w : World) :
    ∃ w1, setVolume E h v w = some w1 ∧
      (∀ ch ∈ resolvedSlots (fun a x => E.getVoiceFromHandle a.eng x) (setVolume_body E v)
          (handleArray E w.eng h) (callLock w), volumeFaderOff w1.eng ch) ∧
      (E.voiceGroupHandleToArray w.eng h = none → h ≠ 0 →
        E.getVoiceFromHandle w.eng h ≠ -1 →
        volumeFaderOff w1.eng (E.getVoiceFromHandle w.eng h)) := by
  obtain ⟨w1, hrun, hall⟩ := forAllVoices_establishes
    (fun a x => E.getVoiceFromHandle a.eng x) (setVolume_body E v)
    (fun a c => volumeFaderOff a.eng c)
    (fun a x hr => setVolume_body_spec E hE hkeep v a x hr)
    (handleArray E w.eng h) (handleArray_terminated E hE w.eng h) (callLock w) [] (by simp)
  have hall1 : ∀ ch ∈ resolvedSlots (fun a x => E.getVoiceFromHandle a.eng x)
      (setVolume_body E v) (handleArray E w.eng h) (callLock w),
      volumeFaderOff (callUnlock w1).eng ch := by
    intro ch hch
    simpa using hall ch (by simpa using hch)
  refine ⟨callUnlock w1, by simp [setVolume, FOR_ALL_VOICES, hrun], hall1, ?_⟩
  intro hng h0 hr
  apply hall1
  have harr : handleArray E w.eng h = [h, 0] := by simp [handleArray, hng]
  rw [harr]
  have := mem_resolvedSlots_head (fun (a : World) x => E.getVoiceFromHandle a.eng x)
    (setVolume_body E v) h [0] (callLock w) h0 (by simpa using hr)
  simpa using this

/-! ## The sample environment meets the conditions -/

theorem putVoice_preserves (P : AudioSourceInstance → Prop) {e : Soloud} {ch : Int}
    {v0 : AudioSourceInstance} (v : AudioSourceInstance) (h : voiceAt e ch = some v0)
    (hv : P v0 → P v) (c : Int) (hc : ∀ x, voiceAt e c = some x → P x) :
    ∀ x, voiceAt (putVoice e ch v) c = some x → P x := by
  intro x hx
  by_cases hcc : c = ch
  · subst hcc
    rw [voiceAt_putVoice_self v h] at hx
    cases hx
    exact hv (hc v0 h)
  · rw [voiceAt_putVoice_ne v (voiceAt_nonneg h) hcc] at hx
    exact hc x hx

theorem specEnv_sound : specEnv.Sound where
  resolve_occupied := by
    intro e h hr
    change specResolve e h ≠ -1 at hr
    change (voiceAt e (specResolve e h)).isSome = true
    unfold specResolve at hr ⊢
    by_cases hc : h = 0 ∨ h / 4096 = 1048575
    · rw [if_pos hc] at hr
      exact absurd rfl hr
    · rw [if_neg hc] at hr ⊢
      cases hv : voiceAt e (((h % 4096 : Nat) : Int) - 1) with
      | none =>
        simp only [hv] at hr
        exact absurd rfl hr
      | some v =>
        simp only [hv] at hr ⊢
        by_cases hg : v.generation = h / 4096
        · rw [if_pos hg, hv]
          rfl
        · rw [if_neg hg] at hr
          exact absurd rfl hr
  group_terminated := by
    intro e h arr harr
    have h1 : specGroupArray e h = some arr := harr
    unfold specGroupArray at h1
    split at h1
    · split at h1
      · cases h1
        simp
      · simp at h1
    · simp at h1
  null_not_group := by
    intro e
    show specGroupArray e 0 = none
    simp [specGroupArray]

theorem specEnv_keeps_volumeFaderOff (n : Nat) (x : SoFloat) (e : Soloud) (c : Int)
    (h : volumeFaderOff e c) : volumeFaderOff (specEnv.setVoiceVolume n x e) c := by
  show volumeFaderOff (specSetVoiceVolume n x e) c
  unfold specSetVoiceVolume
  split
  · rename_i v hv
    exact fun y hy => putVoice_preserves (fun y => y.mVolumeFader.mActive = 0)
      { v with volume := x } hv (fun hy => hy) c h y hy
  · exact h

theorem specEnv_keeps_speedFaderOff (n : Nat) (x : SoFloat) (e : Soloud) (c : Int)
    (h : speedFaderOff e c) : speedFaderOff (specEnv.setVoiceRelativePlaySpeed n x e).2 c := by
  show speedFaderOff (specSetVoiceRelativePlaySpeed n x e).2 c
  unfold specSetVoiceRelativePlaySpeed
  split
  · exact h
  · split
    · rename_i v hv
      exact fun y hy => putVoice_preserves (fun y => y.mRelativePlaySpeedFader.mActive = 0)
        { v with mRelativePlaySpeed := x, mSamplerate := f32mul v.mBaseSamplerate x } hv
        (fun hy => hy) c h y hy
    · exact h

theorem specEnv_pan_keeps_panFader (n : Nat) (x : SoFloat) (e : Soloud) (c : Int) :
    (voiceAt (specEnv.setVoicePan n x e) c).map (fun v => v.mPanFader) =
      (voiceAt e c).map (fun v => v.mPanFader) := by
  show (voiceAt (specSetVoicePan n x e) c).map (fun v => v.mPanFader) = _
  unfold specSetVoicePan
  split
  · rename_i v hv
    by_cases hcc : c = (n : Int)
    · subst hcc
      rw [voiceAt_putVoice_self _ hv, hv]
      rfl
    · rw [voiceAt_putVoice_ne _ (voiceAt_nonneg hv) hcc]
  · rfl

theorem specEnv_speed_error_keeps (n : Nat) (x : SoFloat) (e : Soloud)
    (h : (specEnv.setVoiceRelativePlaySpeed n x e).1 ≠ 0) :
    (specEnv.setVoiceRelativePlaySpeed n x e).2 = e := by
  have h1 : (specSetVoiceRelativePlaySpeed n x e).1 ≠ 0 := h
  show (specSetVoiceRelativePlaySpeed n x e).2 = e
  unfold specSetVoiceRelativePlaySpeed at h1 ⊢
  split
  · rfl
  · rename_i hc
    simp only [hc, if_false] at h1
    split
    · rename_i v hv
      simp [hv, SO_NO_ERROR] at h1
    · rfl

theorem specEnv_keepsCallbacks : specEnv.KeepsCallbacks where
  volume := by
    intro n x e
    show (specSetVoiceVolume n x e).mLockMutexFunc = _ ∧ (specSetVoiceVolume n x e).mUnlockMutexFunc = _
    unfold specSetVoiceVolume
    split <;> simp [putVoice]
  pan := by
    intro n x e
    show (specSetVoicePan n x e).mLockMutexFunc = _ ∧ (specSetVoicePan n x e).mUnlockMutexFunc = _
    unfold specSetVoicePan
    split <;> simp [putVoice]
  pause := by
    intro n b e
    show (specSetVoicePause n b e).mLockMutexFunc = _ ∧ (specSetVoicePause n b e).mUnlockMutexFunc = _
    unfold specSetVoicePause
    split <;> simp [putVoice]
  speed := by
    intro n x e
    show (specSetVoiceRelativePlaySpeed n x e).2.mLockMutexFunc = _ ∧
      (specSetVoiceRelativePlaySpeed n x e).2.mUnlockMutexFunc = _
    unfold specSetVoiceRelativePlaySpeed
    split
    · simp
    · split <;> simp [putVoice]

/-- Witness of C3 on the sample engine: the group handle `4294963200` lists the handles
of slots 0 and 1 (and a stale one); after `setVolume` to 0.5 both volume faders, active
before, are inactive. -/
theorem setVolume_deactivates_fader_witness :
    ∃ w1, setVolume specEnv 4294963200 1056964608 sampleWorld = some w1 ∧
      volumeFaderOff w1.eng 0 ∧ volumeFaderOff w1.eng 1 := by
  obtain ⟨w1, hrun, hall, _⟩ := setVolume_deactivates_fader specEnv specEnv_sound
    specEnv_keeps_volumeFaderOff 4294963200 1056964608 sampleWorld
  exact ⟨w1, hrun, hall 0 (by decide), hall 1 (by decide)⟩

/-! ## setRelativePlaySpeed -/

theorem setRelativePlaySpeed_body_spec (E : Env) (hE : E.Sound)
    (hkeep : ∀ n x e c, speedFaderOff e c →
      speedFaderOff (E.setVoiceRelativePlaySpeed n x e).2 c)
    (s : SoFloat) (a : result × World) (h : handle)
    (hr : E.getVoiceFromHandle a.2.eng h ≠ -1) :
    ∃ a1, setRelativePlaySpeed_body E s (E.getVoiceFromHandle a.2.eng h) a = some a1 ∧
      speedFaderOff a1.2.eng (E.getVoiceFromHandle a.2.eng h) ∧
      ∀ c, speedFaderOff a.2.eng c → speedFaderOff a1.2.eng c := by
  obtain ⟨v0, hv0, hst⟩ := storeVoice_of_occupied (E.getVoiceFromHandle a.2.eng h)
    (fun v => { v with mRelativePlaySpeedFader := { v.mRelativePlaySpeedFader with mActive := 0 } })
    a.2 (hE.resolve_occupied a.2.eng h hr)
  have hk := putVoice_keeps (fun x => x.mRelativePlaySpeedFader.mActive = 0)
    ({ v0 with mRelativePlaySpeedFader := { v0.mRelativePlaySpeedFader with mActive := 0 } })
    hv0 rfl
  refine ⟨_, by unfold setRelativePlaySpeed_body; rw [hst], ?_, ?_⟩
  · exact hkeep _ _ _ _ hk.1
  · intro c hc
    exact hkeep _ _ _ _ (hk.2 c hc)

/-- C5. `setRelativePlaySpeed(h, s)` returns, and afterwards the relative-speed fader of
every slot the handle resolved to is inactive, whatever it was before; for a
single-voice handle that is the slot `getVoiceFromHandle(h)`. The per-voice
`setVoiceRelativePlaySpeed`, which is not in this file, is taken not to start a fader. -/
theorem setRelativePlaySpeed_deactivates_fader (E : Env) (hE : E.Sound)
    (hkeep : ∀ n x e c, speedFaderOff e c →
      speedFaderOff (E.setVoiceRelativePlaySpeed n x e).2 c)
    (h : handle) (s : SoFloat) (w : World) :
    ∃ r w1, setRelativePlaySpeed E h s w = some (r, w1) ∧
      (∀ ch ∈ resolvedSlots (fun a x => E.getVoiceFromHandle a.2.eng x)
          (setRelativePlaySpeed_body E s) (handleArray E w.eng h) ((0 : result), callLock w),
        speedFaderOff w1.eng ch) ∧
      (E.voiceGroupHandleToArray w.eng h = none → h ≠ 0 →
        E.getVoiceFromHandle w.eng h ≠ -1 →
        speedFaderOff w1.eng (E.getVoiceFromHandle w.eng h)) := by
  obtain ⟨a1, hrun, hall⟩ := forAllVoices_establishes
    (fun (a : result × World) x => E.getVoiceFromHandle a.2.eng x)
    (setRelativePlaySpeed_body E s) (fun a c => speedFaderOff a.2.eng c)
    (fun a x hr => setRelativePlaySpeed_body_spec E hE hkeep s a x hr)
    (handleArray E w.eng h) (handleArray_terminated E hE w.eng h) ((0 : result), callLock w) []
    (by simp)
  have hall1 : ∀ ch ∈ resolvedSlots (fun (a : result × World) x => E.getVoiceFromHandle a.2.eng x)
      (setRelativePlaySpeed_body E s) (handleArray E w.eng h) ((0 : result), callLock w),
      speedFaderOff (callUnlock a1.2).eng ch := by
    intro ch hch
    simpa using hall ch (by simpa using hch)
  refine ⟨a1.1, callUnlock a1.2, by simp [setRelativePlaySpeed, hrun], hall1, ?_⟩
  intro hng h0 hr
  apply hall1
  have harr : handleArray E w.eng h = [h, 0] := by simp [handleArray, hng]
  rw [harr]
  have := mem_resolvedSlots_head (fun (a : result × World) x => E.getVoiceFromHandle a.2.eng x)
    (setRelativePlaySpeed_body E s) h [0] ((0 : result), callLock w) h0 (by simpa using hr)
  simpa using this

/-- Witness of C5 on the sample engine: after `setRelativePlaySpeed` to 2.0 on the group
handle `4294963200`, the relative-speed faders of slots 0 and 1, active before, are
inactive. -/
theorem setRelativePlaySpeed_deactivates_fader_witness :
    ∃ r w1, setRelativePlaySpeed specEnv 4294963200 1073741824 sampleWorld = some (r, w1) ∧
      speedFaderOff w1.eng 0 ∧ speedFaderOff w1.eng 1 := by
  obtain ⟨r, w1, hrun, hall, _⟩ := setRelativePlaySpeed_deactivates_fader specEnv specEnv_sound
    specEnv_keeps_speedFaderOff 4294963200 1073741824 sampleWorld
  exact ⟨r, w1, hrun, hall 0 (by decide), hall 1 (by decide)⟩

/-! ## setPan -/

/-- C4 does not hold of the code. For a single-voice handle that resolves,
`setPan(h, p)` returns and its whole effect on the engine is the one call
`setVoicePan(ch, p)`: unlike `setPanAbsolute`, `setVolume` and
`setRelativePlaySpeed`, it has no store `mPanFader.mActive = 0` of its own. With a
per-voice `setVoicePan` that leaves the pan faders alone, the pan fader of the slot is
after the call what it was before: a fader that was active is not inactive. -/
theorem setPan_leaves_pan_fader (E : Env)
    (hpan : ∀ n x e c, (voiceAt (E.setVoicePan n x e) c).map (fun v => v.mPanFader) =
      (voiceAt e c).map (fun v => v.mPanFader))
    (h : handle) (p : SoFloat) (w : World)
    (hng : E.voiceGroupHandleToArray w.eng h = none) (h0 : h ≠ 0)
    (hr : E.getVoiceFromHandle w.eng h ≠ -1) :
    ∃ w1, setPan E h p w = some w1 ∧
      w1.eng = E.setVoicePan (toUnsigned (E.getVoiceFromHandle w.eng h)) p w.eng ∧
      (voiceAt w1.eng (E.getVoiceFromHandle w.eng h)).map (fun v => v.mPanFader) =
        (voiceAt w.eng (E.getVoiceFromHandle w.eng h)).map (fun v => v.mPanFader) ∧
      (∀ v, voiceAt w.eng (E.getVoiceFromHandle w.eng h) = some v → v.mPanFader.mActive ≠ 0 →
        ¬ panFaderOff w1.eng (E.getVoiceFromHandle w.eng h)) := by
  have hrun : setPan E h p w = some (callUnlock
      (store (E.setVoicePan (toUnsigned (E.getVoiceFromHandle w.eng h)) p) (callLock w))) := by
    simp [setPan, FOR_ALL_VOICES, handleArray, hng, forAllVoices, h0, hr, setPan_body]
  have hsame : (voiceAt (callUnlock (store (E.setVoicePan
      (toUnsigned (E.getVoiceFromHandle w.eng h)) p) (callLock w))).eng
      (E.getVoiceFromHandle w.eng h)).map (fun v => v.mPanFader) =
      (voiceAt w.eng (E.getVoiceFromHandle w.eng h)).map (fun v => v.mPanFader) := by
    simp only [callUnlock_eng, store_eng, callLock_eng]
    exact hpan _ _ _ _
  refine ⟨_, hrun, by simp, hsame, ?_⟩
  intro v hv hact hoff
  rw [hv] at hsame
  cases hv1 : voiceAt (callUnlock (store (E.setVoicePan
      (toUnsigned (E.getVoiceFromHandle w.eng h)) p) (callLock w))).eng
      (E.getVoiceFromHandle w.eng h) with
  | none =>
    rw [hv1] at hsame
    cases hsame
  | some v1 =>
    rw [hv1] at hsame
    have hf : v1.mPanFader = v.mPanFader := Option.some.inj hsame
    exact hact (by rw [← hf]; exact hoff v1 hv1)

/-- Witness of the C4 theorem on the sample engine: `setPan(4097, 1.0)` on slot 0, whose
pan fader is active (`mActive = 1`), leaves it active. -/
theorem setPan_leaves_pan_fader_witness :
    (∃ w1, setPan specEnv 4097 1065353216 sampleWorld = some w1 ∧ ¬ panFaderOff w1.eng 0) ∧
      (voiceAt sampleWorld.eng 0).map (fun v => v.mPanFader.mActive) = some 1 ∧
      (setPan specEnv 4097 1065353216 sampleWorld).map
        (fun w1 => (voiceAt w1.eng 0).map (fun v => v.mPanFader.mActive)) = some (some 1) := by
  obtain ⟨w1, hrun, _, _, hact⟩ := setPan_leaves_pan_fader specEnv specEnv_pan_keeps_panFader
    4097 1065353216 sampleWorld (by decide) (by decide) (by decide)
  exact ⟨⟨w1, hrun, hact (sampleVoice 1) (by decide) (by decide)⟩, by decide, by decide⟩

/-! ## Errors of setRelativePlaySpeed -/

/-- C9, as stated, fails: on the sample engine `setRelativePlaySpeed(4097, 0.0)` returns
the non-zero `INVALID_PARAMETER` of the per-voice setter, and yet the engine is not what
it was: the relative-speed fader of slot 0, active before (`mActive = 1`), is inactive
after (`mActive = 0`). -/
theorem setRelativePlaySpeed_error_changes_state :
    INVALID_PARAMETER ≠ 0 ∧
      (voiceAt sampleWorld.eng 0).map (fun v => v.mRelativePlaySpeedFader.mActive) = some 1 ∧
      (setRelativePlaySpeed specEnv 4097 0 sampleWorld).map
        (fun a => (a.1, decide (a.2.eng = sampleWorld.eng),
          (voiceAt a.2.eng 0).map (fun v => v.mRelativePlaySpeedFader.mActive))) =
        some (INVALID_PARAMETER, false, some 0) := by
  decide

/-- C9, amended. `setRelativePlaySpeed(h, s)` on a single-voice handle returns, and when
its result is not zero, the per-voice setter having changed nothing when it reported the
error, the engine differs from the one before the call in exactly one place: the
relative-speed fader of the slot the handle resolves to has been deactivated. -/
theorem setRelativePlaySpeed_error_effect (E : Env) (hE : E.Sound)
    (herr : ∀ n x e, (E.setVoiceRelativePlaySpeed n x e).1 ≠ 0 →
      (E.setVoiceRelativePlaySpeed n x e).2 = e)
    (h : handle) (s : SoFloat) (w : World)
    (hng : E.voiceGroupHandleToArray w.eng h = none) :
    ∃ r w1, setRelativePlaySpeed E h s w = some (r, w1) ∧
      (r ≠ 0 → ∃ v0, voiceAt w.eng (E.getVoiceFromHandle w.eng h) = some v0 ∧
        w1.eng = putVoice w.eng (E.getVoiceFromHandle w.eng h)
          { v0 with mRelativePlaySpeedFader := { v0.mRelativePlaySpeedFader with mActive := 0 } }) := by
  by_cases h0 : h = 0
  · subst h0
    exact ⟨0, callUnlock (callLock w), by
      simp [setRelativePlaySpeed, handleArray, hng, forAllVoices], fun hne => absurd rfl hne⟩
  · by_cases hr : E.getVoiceFromHandle w.eng h ≠ -1
    · obtain ⟨v0, hv0, hst⟩ := storeVoice_of_occupied (E.getVoiceFromHandle w.eng h)
        (fun v => { v with mRelativePlaySpeedFader := { v.mRelativePlaySpeedFader with mActive := 0 } })
        (callLock w) (by simpa using hE.resolve_occupied w.eng h hr)
      rw [callLock_eng] at hv0
      have hrun : setRelativePlaySpeed E h s w = some
          ((E.setVoiceRelativePlaySpeed (toUnsigned (E.getVoiceFromHandle w.eng h)) s
              (putVoice w.eng (E.getVoiceFromHandle w.eng h)
                { v0 with mRelativePlaySpeedFader :=
                    { v0.mRelativePlaySpeedFader with mActive := 0 } })).1,
            callUnlock (store
              (fun e => (E.setVoiceRelativePlaySpeed
                (toUnsigned (E.getVoiceFromHandle w.eng h)) s e).2)
              (store (fun e => putVoice e (E.getVoiceFromHandle w.eng h)
                { v0 with mRelativePlaySpeedFader :=
                    { v0.mRelativePlaySpeedFader with mActive := 0 } }) (callLock w)))) := by
        simp only [setRelativePlaySpeed, handleArray, hng, forAllVoices, h0, if_false,
          callLock_eng, hr, if_true, ne_eq, not_false_eq_true, setRelativePlaySpeed_body, hst,
          store_eng]
      refine ⟨_, _, hrun, ?_⟩
      intro hne
      refine ⟨v0, hv0, ?_⟩
      simp only [callUnlock_eng, store_eng, callLock_eng]
      exact herr _ _ _ hne
    · exact ⟨0, callUnlock (callLock w), by
        simp [setRelativePlaySpeed, handleArray, hng, forAllVoices, h0, hr],
        fun hne => absurd rfl hne⟩

/-- Witness of the amended C9 on the sample engine, with the handle `4097` of slot 0. -/
theorem setRelativePlaySpeed_error_effect_witness :
    ∃ r w1, setRelativePlaySpeed specEnv 4097 0 sampleWorld = some (r, w1) ∧
      (r ≠ 0 → ∃ v0, voiceAt sampleWorld.eng (specEnv.getVoiceFromHandle sampleWorld.eng 4097) =
          some v0 ∧
        w1.eng = putVoice sampleWorld.eng (specEnv.getVoiceFromHandle sampleWorld.eng 4097)
          { v0 with mRelativePlaySpeedFader := { v0.mRelativePlaySpeedFader with mActive := 0 } }) :=
  setRelativePlaySpeed_error_effect specEnv specEnv_sound specEnv_speed_error_keeps 4097 0
    sampleWorld (by decide)

/-! ## Handles that do not resolve -/

theorem FOR_ALL_VOICES_unresolved (E : Env) (hE : E.Sound) (h : handle)
    (body : Int → World → Option World) (w : World)
    (hun : h = 0 ∨
      (E.voiceGroupHandleToArray w.eng h = none ∧ E.getVoiceFromHandle w.eng h = -1)) :
    FOR_ALL_VOICES E h body w = some (callUnlock (callLock w)) := by
  rcases hun with h0 | ⟨hng, hr⟩
  · subst h0
    simp [FOR_ALL_VOICES, handleArray, hE.null_not_group, forAllVoices]
  · by_cases h0 : h = 0
    · subst h0
      simp [FOR_ALL_VOICES, handleArray, hng, forAllVoices]
    · simp [FOR_ALL_VOICES, handleArray, hng, forAllVoices, h0, hr]

theorem setRelativePlaySpeed_unresolved (E : Env) (hE : E.Sound) (h : handle) (s : SoFloat)
    (w : World)
    (hun : h = 0 ∨
      (E.voiceGroupHandleToArray w.eng h = none ∧ E.getVoiceFromHandle w.eng h = -1)) :
    setRelativePlaySpeed E h s w = some (0, callUnlock (callLock w)) := by
  rcases hun with h0 | ⟨hng, hr⟩
  · subst h0
    simp [setRelativePlaySpeed, handleArray, hE.null_not_group, forAllVoices]
  · by_cases h0 : h = 0
    · subst h0
      simp [setRelativePlaySpeed, handleArray, hng, forAllVoices]
    · simp [setRelativePlaySpeed, handleArray, hng, forAllVoices, h0, hr]

/-- C7. When the handle is the null handle `0`, or a non-group handle for which
`getVoiceFromHandle` returns `-1`, each of the ten handle-based setters returns with
the engine, voice table included, exactly as before, and `setRelativePlaySpeed`
returns `0`. -/
theorem setters_ignore_unresolved_handle (E : Env) (hE : E.Sound) (h : handle) (w : World)
    (hun : h = 0 ∨
      (E.voiceGroupHandleToArray w.eng h = none ∧ E.getVoiceFromHandle w.eng h = -1)) :
    (∀ x, (setVolume E h x w).map World.eng = some w.eng) ∧
    (∀ x, (setPan E h x w).map World.eng = some w.eng) ∧
    (∀ l r, (setPanAbsolute E h l r w).map World.eng = some w.eng) ∧
    (∀ x, (setRelativePlaySpeed E h x w).map (fun a => (a.1, a.2.eng)) = some (0, w.eng)) ∧
    (∀ x, (setSamplerate E h x w).map World.eng = some w.eng) ∧
    (∀ b, (setPause E h b w).map World.eng = some w.eng) ∧
    (∀ b, (setProtectVoice E h b w).map World.eng = some w.eng) ∧
    (∀ b, (setLooping E h b w).map World.eng = some w.eng) ∧
    (∀ t k, (setInaudibleBehavior E h t k w).map World.eng = some w.eng) ∧
    (∀ n, (setDelaySamples E h n w).map World.eng = some w.eng) := by
  have key : ∀ body, (FOR_ALL_VOICES E h body w).map World.eng = some w.eng := by
    intro body
    rw [FOR_ALL_VOICES_unresolved E hE h body w hun]
    simp
  refine ⟨fun _ => key _, fun _ => key _, fun _ _ => key _, ?_, fun _ => key _, fun _ => key _,
    fun _ => key _, fun _ => key _, fun _ _ => key _, fun _ => key _⟩
  intro x
  rw [setRelativePlaySpeed_unresolved E hE h x w hun]
  simp

/-- Witness of C7 on the sample engine, with the stale handle `28673` (slot 0, an old
generation): every setter leaves the engine as it is. -/
theorem setters_ignore_unresolved_handle_witness :
    (setVolume specEnv 28673 1056964608 sampleWorld).map World.eng = some sampleEngine ∧
    (setPan specEnv 28673 1065353216 sampleWorld).map World.eng = some sampleEngine ∧
    (setPanAbsolute specEnv 28673 0 1065353216 sampleWorld).map World.eng = some sampleEngine ∧
    (setRelativePlaySpeed specEnv 28673 1073741824 sampleWorld).map (fun a => (a.1, a.2.eng)) =
      some (0, sampleEngine) ∧
    (setSamplerate specEnv 28673 1194083328 sampleWorld).map World.eng = some sampleEngine ∧
    (setPause specEnv 28673 true sampleWorld).map World.eng = some sampleEngine ∧
    (setProtectVoice specEnv 28673 true sampleWorld).map World.eng = some sampleEngine ∧
    (setLooping specEnv 28673 true sampleWorld).map World.eng = some sampleEngine ∧
    (setInaudibleBehavior specEnv 28673 true true sampleWorld).map World.eng = some sampleEngine ∧
    (setDelaySamples specEnv 28673 512 sampleWorld).map World.eng = some sampleEngine :=
  have t := setters_ignore_unresolved_handle specEnv specEnv_sound 28673 sampleWorld
    (Or.inr (by decide))
  ⟨t.1 _, t.2.1 _, t.2.2.1 _ _, t.2.2.2.1 _, t.2.2.2.2.1 _, t.2.2.2.2.2.1 _, t.2.2.2.2.2.2.1 _,
    t.2.2.2.2.2.2.2.1 _, t.2.2.2.2.2.2.2.2.1 _ _, t.2.2.2.2.2.2.2.2.2 _⟩

/-! ## Group handles -/

theorem forAllVoices_members {α : Type} (resolve : α → handle → Int)
    (body : Int → α → Option α) (hs tl : List handle) (hnz : ∀ x ∈ hs, x ≠ 0) (a : α) :
    forAllVoices resolve body (hs ++ 0 :: tl) a =
      hs.foldlM (fun a x => if resolve a x ≠ -1 then body (resolve a x) a else some a) a := by
  induction hs generalizing a with
  | nil => simp [forAllVoices]
  | cons h rest ih =>
    have h0 : h ≠ 0 := hnz h (List.mem_cons_self h rest)
    have hrest : ∀ x ∈ rest, x ≠ 0 := fun x hx => hnz x (List.mem_cons_of_mem h hx)
    by_cases hr : resolve a h = -1
    · simp [forAllVoices, h0, hr, ih hrest a]
    · cases hb : body (resolve a h) a with
      | none => simp [forAllVoices, h0, hr, hb]
      | some a1 => simp [forAllVoices, h0, hr, hb, ih hrest a1]

/-- C8. For a group handle whose array holds the members `h1, ..., hk` (none of them
zero) before the terminating zero, the voice iteration is the lock call, then the
members taken in array order, each one resolved with `getVoiceFromHandle` at its turn,
the body being run for its slot when the result is not `-1` and the member being passed
over, with the state as it is, when it is `-1`, then the unlock call. This holds of
every setter written with `FOR_ALL_VOICES_PRE` / `FOR_ALL_VOICES_POST`, and of
`setRelativePlaySpeed` with its local `retVal`. -/
theorem FOR_ALL_VOICES_group (E : Env) (h : handle) (w : World) (hs tl : List handle)
    (harr : E.voiceGroupHandleToArray w.eng h = some (hs ++ 0 :: tl))
    (hnz : ∀ x ∈ hs, x ≠ 0) :
    (∀ body : Int → World → Option World,
      FOR_ALL_VOICES E h body w =
        (hs.foldlM (fun a x =>
            if E.getVoiceFromHandle a.eng x ≠ -1 then body (E.getVoiceFromHandle a.eng x) a
            else some a) (callLock w)).map callUnlock) ∧
    (∀ s, setRelativePlaySpeed E h s w =
        (hs.foldlM (fun (a : result × World) x =>
            if E.getVoiceFromHandle a.2.eng x ≠ -1 then
              setRelativePlaySpeed_body E s (E.getVoiceFromHandle a.2.eng x) a
            else some a) ((0 : result), callLock w)).map (fun a => (a.1, callUnlock a.2))) := by
  have harr1 : handleArray E (callLock w).eng h = hs ++ 0 :: tl := by
    simp [handleArray, harr]
  refine ⟨?_, ?_⟩
  · intro body
    unfold FOR_ALL_VOICES
    rw [harr1, forAllVoices_members _ _ hs tl hnz]
    cases hs.foldlM (fun a x =>
      if E.getVoiceFromHandle a.eng x ≠ -1 then body (E.getVoiceFromHandle a.eng x) a
      else some a) (callLock w) <;> rfl
  · intro s
    unfold setRelativePlaySpeed
    rw [harr1, forAllVoices_members _ _ hs tl hnz]
    cases hs.foldlM (fun (a : result × World) x =>
      if E.getVoiceFromHandle a.2.eng x ≠ -1 then
        setRelativePlaySpeed_body E s (E.getVoiceFromHandle a.2.eng x) a
      else some a) ((0 : result), callLock w) <;> rfl

/-- Witness of C8 on the sample engine: group `4294963200` holds the handle of slot 0,
a stale handle, and the handle of slot 1; `setDelaySamples(512)` writes slot 0, passes
over the stale member and still writes slot 1, in that order, between lock and unlock. -/
theorem FOR_ALL_VOICES_group_witness :
    ((∀ body : Int → World → Option World,
      FOR_ALL_VOICES specEnv 4294963200 body sampleWorld =
        ([4097, 28673, 8194].foldlM (fun a x =>
            if specEnv.getVoiceFromHandle a.eng x ≠ -1 then
              body (specEnv.getVoiceFromHandle a.eng x) a
            else some a) (callLock sampleWorld)).map callUnlock) ∧
    (∀ s, setRelativePlaySpeed specEnv 4294963200 s sampleWorld =
        ([4097, 28673, 8194].foldlM (fun (a : result × World) x =>
            if specEnv.getVoiceFromHandle a.2.eng x ≠ -1 then
              setRelativePlaySpeed_body specEnv s (specEnv.getVoiceFromHandle a.2.eng x) a
            else some a) ((0 : result), callLock sampleWorld)).map
          (fun a => (a.1, callUnlock a.2)))) ∧
    (setDelaySamples specEnv 4294963200 512 sampleWorld).map
        (fun w1 => ((voiceAt w1.eng 0).map (fun v => v.mDelaySamples),
          (voiceAt w1.eng 1).map (fun v => v.mDelaySamples), w1.trace)) =
      some (some 512, some 512, [Event.lock, Event.write, Event.write, Event.unlock]) ∧
    resolvedSlots (fun (a : World) x => specEnv.getVoiceFromHandle a.eng x)
        (setDelaySamples_body 512) (handleArray specEnv sampleWorld.eng 4294963200)
        (callLock sampleWorld) = [0, 1] :=
  ⟨FOR_ALL_VOICES_group specEnv 4294963200 sampleWorld [4097, 28673, 8194] [] (by decide)
    (by decide), by decide, by decide⟩

/-! ## The gate -/

theorem StoresOnly.refl (a : World) : StoresOnly a a :=
  ⟨rfl, rfl, 0, by simp⟩

theorem StoresOnly.trans {a b c : World} (h1 : StoresOnly a b) (h2 : StoresOnly b c) :
    StoresOnly a c := by
  obtain ⟨hl1, hu1, k1, ht1⟩ := h1
  obtain ⟨hl2, hu2, k2, ht2⟩ := h2
  refine ⟨hl2.trans hl1, hu2.trans hu1, k1 + k2, ?_⟩
  rw [ht2, ht1, List.append_assoc, ← List.replicate_add]

theorem storesOnly_store (g : Soloud → Soloud) (a : World)
    (hg : (g a.eng).mLockMutexFunc = a.eng.mLockMutexFunc ∧
      (g a.eng).mUnlockMutexFunc = a.eng.mUnlockMutexFunc) :
    StoresOnly a (store g a) :=
  ⟨hg.1, hg.2, 1, rfl⟩

theorem storeVoice_storesOnly (ch : Int) (f : AudioSourceInstance → AudioSourceInstance)
    (a : World) (hocc : (voiceAt a.eng ch).isSome = true) :
    ∃ a1, storeVoice ch f a = some a1 ∧ StoresOnly a a1 ∧ (voiceAt a1.eng ch).isSome = true := by
  obtain ⟨v0, hv0, hst⟩ := storeVoice_of_occupied ch f a hocc
  refine ⟨_, hst, storesOnly_store _ a ⟨rfl, rfl⟩, ?_⟩
  rw [store_eng, voiceAt_putVoice_self _ hv0]
  rfl

theorem forAllVoices_invariant {α : Type} (resolve : α → handle → Int)
    (body : Int → α → Option α) (P : α → Prop)
    (hbody : ∀ a h, P a → resolve a h ≠ -1 → ∃ a1, body (resolve a h) a = some a1 ∧ P a1)
    (hs : List handle) (hterm : 0 ∈ hs) (a : α) (hP : P a) :
    ∃ a1, forAllVoices resolve body hs a = some a1 ∧ P a1 := by
  induction hs generalizing a with
  | nil => simp at hterm
  | cons h rest ih =>
    by_cases h0 : h = 0
    · exact ⟨a, by simp [forAllVoices, h0], hP⟩
    · have hterm1 : 0 ∈ rest := by
        rcases List.mem_cons.mp hterm with h1 | h1
        · exact absurd h1.symm h0
        · exact h1
      by_cases hr : resolve a h = -1
      · obtain ⟨a2, hrun, hP2⟩ := ih hterm1 a hP
        exact ⟨a2, by simp [forAllVoices, h0, hr, hrun], hP2⟩
      · obtain ⟨a1, hb, hP1⟩ := hbody a h hP hr
        obtain ⟨a2, hrun, hP2⟩ := ih hterm1 a1 hP1
        exact ⟨a2, by simp [forAllVoices, h0, hr, hb, hrun], hP2⟩

theorem gatedFrom_stores_unlock (k : Nat) :
    gatedFrom true (List.replicate k Event.write ++ [Event.unlock]) = true := by
  induction k with
  | zero => rfl
  | succ k ih => simpa [List.replicate_succ, gatedFrom] using ih

theorem gated_of_storesOnly (w a1 : World) (hl : w.eng.mLockMutexFunc = true)
    (hu : w.eng.mUnlockMutexFunc = true) (hs : StoresOnly (callLock w) a1) :
    Gated w (callUnlock a1) := by
  obtain ⟨_, hu1, k, ht⟩ := hs
  rw [callLock_eng] at hu1
  refine ⟨Event.lock :: (List.replicate k Event.write ++ [Event.unlock]), ?_, ?_⟩
  · rw [callUnlock_trace a1 (hu1.trans hu), ht, callLock_trace w hl]
    simp
  · exact gatedFrom_stores_unlock k

theorem FOR_ALL_VOICES_gated (E : Env) (hE : E.Sound) (body : Int → World → Option World)
    (hbody : ∀ ch a, (voiceAt a.eng ch).isSome = true →
      ∃ a1, body ch a = some a1 ∧ StoresOnly a a1)
    (h : handle) (w : World) (hl : w.eng.mLockMutexFunc = true)
    (hu : w.eng.mUnlockMutexFunc = true) :
    ∃ w1, FOR_ALL_VOICES E h body w = some w1 ∧ Gated w w1 := by
  obtain ⟨a1, hrun, hP⟩ := forAllVoices_invariant
    (fun (a : World) x => E.getVoiceFromHandle a.eng x) body (fun a => StoresOnly (callLock w) a)
    (fun a x hPa hr => by
      obtain ⟨a1, hb, hs⟩ := hbody _ a (hE.resolve_occupied a.eng x hr)
      exact ⟨a1, hb, hPa.trans hs⟩)
    (handleArray E (callLock w).eng h) (handleArray_terminated E hE _ h) (callLock w)
    (StoresOnly.refl _)
  exact ⟨callUnlock a1, by simp only [FOR_ALL_VOICES, hrun], gated_of_storesOnly w a1 hl hu hP⟩

theorem setVolume_body_storesOnly (E : Env) (hK : E.KeepsCallbacks) (x : SoFloat) (ch : Int)
    (a : World) (hocc : (voiceAt a.eng ch).isSome = true) :
    ∃ a1, setVolume_body E x ch a = some a1 ∧ StoresOnly a a1 := by
  obtain ⟨a1, h1, hs1, _⟩ := storeVoice_storesOnly ch
    (fun v => { v with mVolumeFader := { v.mVolumeFader with mActive := 0 } }) a hocc
  exact ⟨_, by unfold setVolume_body; rw [h1],
    hs1.trans (storesOnly_store _ a1 (hK.volume _ _ _))⟩

theorem setSamplerate_body_storesOnly (E : Env) (x : SoFloat) (ch : Int)
    (a : World) (hocc : (voiceAt a.eng ch).isSome = true) :
    ∃ a1, setSamplerate_body E x ch a = some a1 ∧ StoresOnly a a1 := by
  obtain ⟨a1, h1, hs1, ho1⟩ := storeVoice_storesOnly ch
    (fun v => { v with mBaseSamplerate := x }) a hocc
  obtain ⟨a2, h2, hs2, _⟩ := storeVoice_storesOnly ch
    (fun v => { v with mSamplerate := E.fmul v.mBaseSamplerate v.mRelativePlaySpeed }) a1 ho1
  exact ⟨a2, by unfold setSamplerate_body; rw [h1]; exact h2, hs1.trans hs2⟩

theorem setProtectVoice_body_storesOnly (E : Env) (b : Bool) (ch : Int)
    (a : World) (hocc : (voiceAt a.eng ch).isSome = true) :
    ∃ a1, setProtectVoice_body E b ch a = some a1 ∧ StoresOnly a a1 := by
  unfold setProtectVoice_body
  cases b
  · obtain ⟨a1, h1, hs1, _⟩ := storeVoice_storesOnly ch
      (fun v => { v with mFlags := v.mFlags &&& bitNot E.PROTECTED }) a hocc
    exact ⟨a1, by simpa using h1, hs1⟩
  · obtain ⟨a1, h1, hs1, _⟩ := storeVoice_storesOnly ch
      (fun v => { v with mFlags := v.mFlags ||| E.PROTECTED }) a hocc
    exact ⟨a1, by simpa using h1, hs1⟩

theorem setLooping_body_storesOnly (E : Env) (b : Bool) (ch : Int)
    (a : World) (hocc : (voiceAt a.eng ch).isSome = true) :
    ∃ a1, setLooping_body E b ch a = some a1 ∧ StoresOnly a a1 := by
  unfold setLooping_body
  cases b
  · obtain ⟨a1, h1, hs1, _⟩ := storeVoice_storesOnly ch
      (fun v => { v with mFlags := v.mFlags &&& bitNot E.LOOPING }) a hocc
    exact ⟨a1, by simpa using h1, hs1⟩
  · obtain ⟨a1, h1, hs1, _⟩ := storeVoice_storesOnly ch
      (fun v => { v with mFlags := v.mFlags ||| E.LOOPING }) a hocc
    exact ⟨a1, by simpa using h1, hs1⟩

theorem setPanAbsolute_body_storesOnly (l r : SoFloat) (ch : Int)
    (a : World) (hocc : (voiceAt a.eng ch).isSome = true) :
    ∃ a1, setPanAbsolute_body l r ch a = some a1 ∧ StoresOnly a a1 := by
  obtain ⟨a1, h1, hs1, ho1⟩ := storeVoice_storesOnly ch
    (fun v => { v with mPanFader := { v.mPanFader with mActive := 0 } }) a hocc
  obtain ⟨a2, h2, hs2, ho2⟩ := storeVoice_storesOnly ch
    (fun v => { v with mChannelVolume := v.mChannelVolume.set 0 l }) a1 ho1
  obtain ⟨a3, h3, hs3, _⟩ := storeVoice_storesOnly ch
    (fun v => { v with mChannelVolume := v.mChannelVolume.set 1 r }) a2 ho2
  exact ⟨a3, by unfold setPanAbsolute_body; rw [h1]; simp only [h2]; exact h3,
    (hs1.trans hs2).trans hs3⟩

theorem setInaudibleBehavior_body_storesOnly (E : Env) (t k : Bool) (ch : Int)
    (a : World) (hocc : (voiceAt a.eng ch).isSome = true) :
    ∃ a1, setInaudibleBehavior_body E t k ch a = some a1 ∧ StoresOnly a a1 := by
  obtain ⟨a1, h1, hs1, ho1⟩ := storeVoice_storesOnly ch
    (fun v => { v with mFlags := v.mFlags &&& bitNot (E.INAUDIBLE_KILL ||| E.INAUDIBLE_TICK) })
    a hocc
  obtain ⟨a2, h2, hs2, ho2⟩ : ∃ a2, (if t then
      storeVoice ch (fun v => { v with mFlags := v.mFlags ||| E.INAUDIBLE_TICK }) a1
      else some a1) = some a2 ∧ StoresOnly a1 a2 ∧ (voiceAt a2.eng ch).isSome = true := by
    cases t
    · exact ⟨a1, by simp, StoresOnly.refl a1, ho1⟩
    · obtain ⟨a2, h2, hs2, ho2⟩ := storeVoice_storesOnly ch
        (fun v => { v with mFlags := v.mFlags ||| E.INAUDIBLE_TICK }) a1 ho1
      exact ⟨a2, by simpa using h2, hs2, ho2⟩
  obtain ⟨a3, h3, hs3⟩ : ∃ a3, (if k then
      storeVoice ch (fun v => { v with mFlags := v.mFlags ||| E.INAUDIBLE_KILL }) a2
      else some a2) = some a3 ∧ StoresOnly a2 a3 := by
    cases k
    · exact ⟨a2, by simp, StoresOnly.refl a2⟩
    · obtain ⟨a3, h3, hs3, _⟩ := storeVoice_storesOnly ch
        (fun v => { v with mFlags := v.mFlags ||| E.INAUDIBLE_KILL }) a2 ho2
      exact ⟨a3, by simpa using h3, hs3⟩
  exact ⟨a3, by unfold setInaudibleBehavior_body; rw [h1]; simp only [h2]; exact h3,
    (hs1.trans hs2).trans hs3⟩

theorem setDelaySamples_body_storesOnly (n : Nat) (ch : Int)
    (a : World) (hocc : (voiceAt a.eng ch).isSome = true) :
    ∃ a1, setDelaySamples_body n ch a = some a1 ∧ StoresOnly a a1 := by
  obtain ⟨a1, h1, hs1, _⟩ := storeVoice_storesOnly ch
    (fun v => { v with mDelaySamples := n }) a hocc
  exact ⟨a1, h1, hs1⟩

theorem setRelativePlaySpeed_gated (E : Env) (hE : E.Sound) (hK : E.KeepsCallbacks)
    (h : handle) (s : SoFloat) (w : World) (hl : w.eng.mLockMutexFunc = true)
    (hu : w.eng.mUnlockMutexFunc = true) :
    ∃ r w1, setRelativePlaySpeed E h s w = some (r, w1) ∧ Gated w w1 := by
  obtain ⟨a1, hrun, hP⟩ := forAllVoices_invariant
    (fun (a : result × World) x => E.getVoiceFromHandle a.2.eng x)
    (setRelativePlaySpeed_body E s) (fun a => StoresOnly (callLock w) a.2)
    (fun a x hPa hr => by
      obtain ⟨a1, h1, hs1, _⟩ := storeVoice_storesOnly (E.getVoiceFromHandle a.2.eng x)
        (fun v => { v with mRelativePlaySpeedFader :=
          { v.mRelativePlaySpeedFader with mActive := 0 } }) a.2
        (hE.resolve_occupied a.2.eng x hr)
      exact ⟨_, by unfold setRelativePlaySpeed_body; rw [h1],
        hPa.trans (hs1.trans (storesOnly_store _ a1 (hK.speed _ _ _)))⟩)
    (handleArray E (callLock w).eng h) (handleArray_terminated E hE _ h)
    ((0 : result), callLock w) (StoresOnly.refl _)
  exact ⟨a1.1, callUnlock a1.2, by simp only [setRelativePlaySpeed, hrun],
    gated_of_storesOnly w a1.2 hl hu hP⟩

theorem setPauseAll_loop_storesOnly (E : Env) (hK : E.KeepsCallbacks) (b : Bool) (fuel : Nat)
    (ch : Int) (a : World) : StoresOnly a (setPauseAll_loop E b fuel ch a) := by
  induction fuel generalizing ch a with
  | zero => exact StoresOnly.refl a
  | succ n ih =>
    unfold setPauseAll_loop
    split
    · exact (storesOnly_store _ a (hK.pause _ _ _)).trans (ih _ _)
    · exact StoresOnly.refl a

theorem setMaxActiveVoiceCount_gated (E : Env) (n : Nat) (w : World)
    (hl : w.eng.mLockMutexFunc = true) (hu : w.eng.mUnlockMutexFunc = true) :
    Gated w (setMaxActiveVoiceCount E n w).2 := by
  unfold setMaxActiveVoiceCount
  split
  · exact ⟨[], by simp, rfl⟩
  · exact gated_of_storesOnly w _ hl hu (storesOnly_store _ _ ⟨rfl, rfl⟩)

/-- C10, as stated, fails: on the sample engine, where both lock callbacks are installed,
`setGlobalVolume(0.5)` records its two stores and no call of either callback, so the
stores are made while the gate is not held. -/
theorem setGlobalVolume_not_gated :
    sampleWorld.eng.mLockMutexFunc = true ∧ sampleWorld.eng.mUnlockMutexFunc = true ∧
      (setGlobalVolume 1056964608 sampleWorld).trace =
        sampleWorld.trace ++ [Event.write, Event.write] ∧
      gatedFrom false [Event.write, Event.write] = false := by
  decide

/-- C10, amended. With both lock callbacks installed, every handle-based setter,
`setPauseAll` and `setMaxActiveVoiceCount` perform each of their stores after calling the
lock callback and before calling the unlock callback; `setGlobalVolume`,
`setPostClipScaler` and `setVisualizationEnable` store to the engine without calling
either callback. The per-voice setters outside this file are taken to leave the two
callbacks installed. -/
theorem setters_gate (E : Env) (hE : E.Sound) (hK : E.KeepsCallbacks) (w : World)
    (hl : w.eng.mLockMutexFunc = true) (hu : w.eng.mUnlockMutexFunc = true) (h : handle) :
    (∀ x, ∃ w1, setVolume E h x w = some w1 ∧ Gated w w1) ∧
    (∀ x, ∃ w1, setPan E h x w = some w1 ∧ Gated w w1) ∧
    (∀ l r, ∃ w1, setPanAbsolute E h l r w = some w1 ∧ Gated w w1) ∧
    (∀ x, ∃ r w1, setRelativePlaySpeed E h x w = some (r, w1) ∧ Gated w w1) ∧
    (∀ x, ∃ w1, setSamplerate E h x w = some w1 ∧ Gated w w1) ∧
    (∀ b, ∃ w1, setPause E h b w = some w1 ∧ Gated w w1) ∧
    (∀ b, ∃ w1, setProtectVoice E h b w = some w1 ∧ Gated w w1) ∧
    (∀ b, ∃ w1, setLooping E h b w = some w1 ∧ Gated w w1) ∧
    (∀ t k, ∃ w1, setInaudibleBehavior E h t k w = some w1 ∧ Gated w w1) ∧
    (∀ n, ∃ w1, setDelaySamples E h n w = some w1 ∧ Gated w w1) ∧
    (∀ b, Gated w (setPauseAll E b w)) ∧
    (∀ n, Gated w (setMaxActiveVoiceCount E n w).2) ∧
    (∀ x, (setGlobalVolume x w).trace = w.trace ++ [Event.write, Event.write]) ∧
    (∀ x, (setPostClipScaler x w).trace = w.trace ++ [Event.write]) ∧
    (∀ b, (setVisualizationEnable E b w).trace = w.trace ++ [Event.write]) := by
  refine ⟨?_, ?_, ?_, ?_, ?_, ?_, ?_, ?_, ?_, ?_, ?_, ?_, ?_, ?_, ?_⟩
  · exact fun x => FOR_ALL_VOICES_gated E hE _ (setVolume_body_storesOnly E hK x) h w hl hu
  · exact fun x => FOR_ALL_VOICES_gated E hE _
      (fun ch a _ => ⟨_, rfl, storesOnly_store _ a (hK.pan _ _ _)⟩) h w hl hu
  · exact fun l r => FOR_ALL_VOICES_gated E hE _ (setPanAbsolute_body_storesOnly l r) h w hl hu
  · exact fun x => setRelativePlaySpeed_gated E hE hK h x w hl hu
  · exact fun x => FOR_ALL_VOICES_gated E hE _ (setSamplerate_body_storesOnly E x) h w hl hu
  · exact fun b => FOR_ALL_VOICES_gated E hE _
      (fun ch a _ => ⟨_, rfl, storesOnly_store _ a (hK.pause _ _ _)⟩) h w hl hu
  · exact fun b => FOR_ALL_VOICES_gated E hE _ (setProtectVoice_body_storesOnly E b) h w hl hu
  · exact fun b => FOR_ALL_VOICES_gated E hE _ (setLooping_body_storesOnly E b) h w hl hu
  · exact fun t k => FOR_ALL_VOICES_gated E hE _
      (setInaudibleBehavior_body_storesOnly E t k) h w hl hu
  · exact fun n => FOR_ALL_VOICES_gated E hE _ (setDelaySamples_body_storesOnly n) h w hl hu
  · exact fun b => gated_of_storesOnly w _ hl hu (setPauseAll_loop_storesOnly E hK b _ _ _)
  · exact fun n => setMaxActiveVoiceCount_gated E n w hl hu
  · exact fun x => by simp [setGlobalVolume]
  · exact fun x => rfl
  · intro b
    unfold setVisualizationEnable
    split <;> rfl

/-- Witness of the amended C10 on the sample engine, both callbacks installed, with the
group handle `4294963200`: `setVolume` records lock, four stores, unlock; `setPauseAll`
and `setMaxActiveVoiceCount(4)` are gated as well; `setGlobalVolume` records two stores
only. -/
theorem setters_gate_witness :
    (∃ w1, setVolume specEnv 4294963200 1056964608 sampleWorld = some w1 ∧
      Gated sampleWorld w1) ∧
    (∃ r w1, setRelativePlaySpeed specEnv 4294963200 1073741824 sampleWorld = some (r, w1) ∧
      Gated sampleWorld w1) ∧
    Gated sampleWorld (setPauseAll specEnv true sampleWorld) ∧
    Gated sampleWorld (setMaxActiveVoiceCount specEnv 4 sampleWorld).2 ∧
    (setGlobalVolume 1056964608 sampleWorld).trace =
      sampleWorld.trace ++ [Event.write, Event.write] ∧
    (setPostClipScaler 1056964608 sampleWorld).trace = sampleWorld.trace ++ [Event.write] ∧
    (setVisualizationEnable specEnv true sampleWorld).trace =
      sampleWorld.trace ++ [Event.write] ∧
    (setVolume specEnv 4294963200 1056964608 sampleWorld).map World.trace =
      some [Event.lock, Event.write, Event.write, Event.write, Event.write, Event.unlock] :=
  have t := setters_gate specEnv specEnv_sound specEnv_keepsCallbacks sampleWorld rfl rfl
    4294963200
  ⟨t.1 _, t.2.2.2.1 _, t.2.2.2.2.2.2.2.2.2.2.1 _, t.2.2.2.2.2.2.2.2.2.2.2.1 _,
    t.2.2.2.2.2.2.2.2.2.2.2.2.1 _, t.2.2.2.2.2.2.2.2.2.2.2.2.2.1 _,
    t.2.2.2.2.2.2.2.2.2.2.2.2.2.2 _, by decide⟩

/-! ## setPauseAll -/

theorem toSigned_of_lt (n : Nat) (h : n < 2147483648) : toSigned n = (n : Int) := by
  unfold toSigned
  have h1 : n % 4294967296 = n := Nat.mod_eq_of_lt (by omega)
  rw [h1, if_pos h]

theorem toUnsigned_natCast (n : Nat) (h : n < 2147483648) : toUnsigned (n : Int) = n := by
  unfold toUnsigned
  have h1 : ((n : Int) % 4294967296) = (n : Int) := Int.emod_eq_of_lt (by omega) (by omega)
  rw [h1]
  simp

theorem setPauseAll_loop_eq (E : Env)
    (hkeep : ∀ n b e, (E.setVoicePause n b e).mHighestVoice = e.mHighestVoice) (p : Bool)
    (k : Nat) : ∀ (fuel c : Nat) (a : World), a.eng.mHighestVoice < 2147483648 →
      c + k = a.eng.mHighestVoice → k ≤ fuel →
      setPauseAll_loop E p fuel (c : Int) a =
        (List.range' c k).foldl (fun a ch => store (E.setVoicePause ch p) a) a := by
  induction k with
  | zero =>
    intro fuel c a hN hc _
    cases fuel with
    | zero => rfl
    | succ f =>
      have hlt : ¬ ((c : Int) < toSigned a.eng.mHighestVoice) := by
        rw [toSigned_of_lt _ hN]
        omega
      simp [setPauseAll_loop, hlt]
  | succ k ih =>
    intro fuel c a hN hc hf
    cases fuel with
    | zero => omega
    | succ f =>
      have hlt : (c : Int) < toSigned a.eng.mHighestVoice := by
        rw [toSigned_of_lt _ hN]
        omega
      have hstep := ih f (c + 1) (store (E.setVoicePause c p) a)
        (by rw [store_eng, hkeep]; exact hN) (by rw [store_eng, hkeep]; omega) (by omega)
      simp only [setPauseAll_loop, hlt, if_true, toUnsigned_natCast c (by omega)]
      rw [List.range'_succ, List.foldl_cons]
      exact_mod_cast hstep

/-- C11, as stated, fails: on the sample engine with `mHighestVoice = 1`, the highest
index that holds an instance (slots 0 and 1 are occupied, slots 2 to 15 are empty),
`setPauseAll(true)` pauses slot 0 (flag bit `4`) and does not visit slot 1, whose flags
stay `0`. -/
theorem setPauseAll_misses_top_slot :
    sampleWorldTop.eng.mHighestVoice = 1 ∧
      (voiceAt sampleWorldTop.eng 1).isSome = true ∧
      sampleWorldTop.eng.mVoice.drop 2 = List.replicate 14 none ∧
      (voiceAt (setPauseAll specEnv true sampleWorldTop).eng 0).map (fun v => v.mFlags) =
        some 4 ∧
      (voiceAt (setPauseAll specEnv true sampleWorldTop).eng 1).map (fun v => v.mFlags) =
        some 0 := by
  decide

/-- C11, amended. `setPauseAll(p)` calls the lock callback, then `setVoicePause(ch, p)`
for exactly the slots `ch = 0, 1, ..., mHighestVoice - 1`, in ascending order, then the
unlock callback: `mHighestVoice` is the exclusive upper bound of the scan, and the slot
at index `mHighestVoice` itself is not visited. The per-voice `setVoicePause`, which is
not in this file, is taken to leave `mHighestVoice` as it is. -/
theorem setPauseAll_scan (E : Env)
    (hkeep : ∀ n b e, (E.setVoicePause n b e).mHighestVoice = e.mHighestVoice)
    (p : Bool) (w : World) (hN : w.eng.mHighestVoice < 2147483648) :
    setPauseAll E p w =
      callUnlock ((List.range w.eng.mHighestVoice).foldl
        (fun a ch => store (E.setVoicePause ch p) a) (callLock w)) := by
  unfold setPauseAll
  have h := setPauseAll_loop_eq E hkeep p w.eng.mHighestVoice 2147483648 0 (callLock w)
    (by simpa using hN) (by simp) (by omega)
  rw [List.range_eq_range']
  exact congrArg callUnlock (by exact_mod_cast h)

theorem specEnv_pause_keeps_highest (n : Nat) (b : Bool) (e : Soloud) :
    (specEnv.setVoicePause n b e).mHighestVoice = e.mHighestVoice := by
  show (specSetVoicePause n b e).mHighestVoice = _
  unfold specSetVoicePause
  split <;> simp [putVoice]

/-- Witness of the amended C11 on the sample engine, where `mHighestVoice = 2` is one
above the highest occupied slot: slots 0 and 1 are visited and both end up paused. -/
theorem setPauseAll_scan_witness :
    setPauseAll specEnv true sampleWorld =
      callUnlock ((List.range sampleWorld.eng.mHighestVoice).foldl
        (fun a ch => store (specEnv.setVoicePause ch true) a) (callLock sampleWorld)) ∧
    (voiceAt (setPauseAll specEnv true sampleWorld).eng 0).map (fun v => v.mFlags) = some 4 ∧
    (voiceAt (setPauseAll specEnv true sampleWorld).eng 1).map (fun v => v.mFlags) = some 4 :=
  ⟨setPauseAll_scan specEnv specEnv_pause_keeps_highest true sampleWorld (by decide),
    by decide, by decide⟩

/-! ## The setters that store to the instance -/

theorem SlotSetter.run_eq (E : Env) (s : SlotSetter) (h : handle) (w : World) :
    s.run E h w = FOR_ALL_VOICES E h (s.body E) w := by
  cases s <;> rfl

theorem putVoice_putVoice (e : Soloud) (ch : Int) (x y : AudioSourceInstance) :
    putVoice (putVoice e ch x) ch y = putVoice e ch y := by
  simp [putVoice, List.set_set]

theorem SlotSetter.body_eq_update (E : Env) (s : SlotSetter) (ch : Int) (a : World)
    (v : AudioSourceInstance) (hv : voiceAt a.eng ch = some v) :
    ∃ a1, s.body E ch a = some a1 ∧ a1.eng = putVoice a.eng ch (s.update E v) ∧
      StoresOnly a a1 := by
  have hocc : (voiceAt a.eng ch).isSome = true := by simp [hv]
  cases s with
  | protectVoice b =>
    obtain ⟨a1, h1, hs⟩ := setProtectVoice_body_storesOnly E b ch a hocc
    refine ⟨a1, h1, ?_, hs⟩
    cases b <;>
      simp [setProtectVoice_body, storeVoice, hv] at h1 <;>
      simp [← h1, SlotSetter.update]
  | looping b =>
    obtain ⟨a1, h1, hs⟩ := setLooping_body_storesOnly E b ch a hocc
    refine ⟨a1, h1, ?_, hs⟩
    cases b <;>
      simp [setLooping_body, storeVoice, hv] at h1 <;>
      simp [← h1, SlotSetter.update]
  | inaudibleBehavior t k =>
    obtain ⟨a1, h1, hs⟩ := setInaudibleBehavior_body_storesOnly E t k ch a hocc
    refine ⟨a1, h1, ?_, hs⟩
    have hv1 := fun x => voiceAt_putVoice_self (e := a.eng) x hv
    cases t <;> cases k <;>
      simp [setInaudibleBehavior_body, storeVoice, hv, hv1,
        putVoice_putVoice] at h1 <;>
      simp [← h1, SlotSetter.update, putVoice_putVoice]
  | samplerate r =>
    obtain ⟨a1, h1, hs⟩ := setSamplerate_body_storesOnly E r ch a hocc
    refine ⟨a1, h1, ?_, hs⟩
    have hv1 := fun x => voiceAt_putVoice_self (e := a.eng) x hv
    simp [setSamplerate_body, storeVoice, hv, hv1, putVoice_putVoice] at h1
    simp [← h1, SlotSetter.update, putVoice_putVoice]
  | delaySamples n =>
    obtain ⟨a1, h1, hs⟩ := setDelaySamples_body_storesOnly n ch a hocc
    refine ⟨a1, h1, ?_, hs⟩
    simp [setDelaySamples_body, storeVoice, hv] at h1
    simp [← h1, SlotSetter.update]
  | panAbsolute l r =>
    obtain ⟨a1, h1, hs⟩ := setPanAbsolute_body_storesOnly l r ch a hocc
    refine ⟨a1, h1, ?_, hs⟩
    have hv1 := fun x => voiceAt_putVoice_self (e := a.eng) x hv
    simp [setPanAbsolute_body, storeVoice, hv, hv1, putVoice_putVoice] at h1
    simp [← h1, SlotSetter.update, putVoice_putVoice]

theorem SlotSetter.update_generation (E : Env) (s : SlotSetter) (v : AudioSourceInstance) :
    (s.update E v).generation = v.generation := by
  cases s <;> rfl

theorem list_set_pair_idem (l : List SoFloat) (a b : SoFloat) :
    (((l.set 0 a).set 1 b).set 0 a).set 1 b = (l.set 0 a).set 1 b := by
  cases l with
  | nil => rfl
  | cons x t =>
    cases t with
    | nil => rfl
    | cons y u => rfl

theorem and_or_and_idem (f n t : Nat) : ((f &&& n ||| t) &&& n) ||| t = f &&& n ||| t := by
  apply Nat.eq_of_testBit_eq
  intro i
  simp only [Nat.testBit_or, Nat.testBit_and]
  cases f.testBit i <;> cases n.testBit i <;> cases t.testBit i <;> rfl

theorem and_or_or_and_idem (f n t k : Nat) :
    ((f &&& n ||| t ||| k) &&& n) ||| t ||| k = f &&& n ||| t ||| k := by
  apply Nat.eq_of_testBit_eq
  intro i
  simp only [Nat.testBit_or, Nat.testBit_and]
  cases f.testBit i <;> cases n.testBit i <;> cases t.testBit i <;> cases k.testBit i <;> rfl

theorem SlotSetter.update_idem (E : Env) (s : SlotSetter) (v : AudioSourceInstance) :
    s.update E (s.update E v) = s.update E v := by
  cases s with
  | protectVoice b =>
    cases b
    · simp [SlotSetter.update, Nat.and_assoc]
    · simp [SlotSetter.update, Nat.or_assoc]
  | looping b =>
    cases b
    · simp [SlotSetter.update, Nat.and_assoc]
    · simp [SlotSetter.update, Nat.or_assoc]
  | inaudibleBehavior t k =>
    cases t <;> cases k
    · simp [SlotSetter.update, Nat.and_assoc]
    · simp [SlotSetter.update, and_or_and_idem]
    · simp [SlotSetter.update, and_or_and_idem]
    · simp [SlotSetter.update, and_or_or_and_idem]
  | samplerate r => rfl
  | delaySamples n => rfl
  | panAbsolute l r => simp [SlotSetter.update, list_set_pair_idem]

theorem soloud_eq_of_fields {e e1 : Soloud} (hv : e1.mVoice = e.mVoice)
    (hf : sameEngineFields e e1) : e1 = e := by
  obtain ⟨h1, h2, h3, h4, h5, h6, h7, h8, h9, h10⟩ := hf
  cases e
  cases e1
  simp_all

theorem sameEngineFields_putVoice (e : Soloud) (ch : Int) (v : AudioSourceInstance) :
    sameEngineFields e (putVoice e ch v) := by
  simp [sameEngineFields, putVoice]

theorem onlySlotChanged_putVoice (e : Soloud) (ch : Int) (v0 v : AudioSourceInstance)
    (hv0 : voiceAt e ch = some v0) : onlySlotChanged e (putVoice e ch v) ch := by
  have h0 := voiceAt_nonneg hv0
  refine ⟨?_, by simp [putVoice], sameEngineFields_putVoice e ch v⟩
  intro i hi
  have hne : ch.toNat ≠ i := by
    intro heq
    apply hi
    have := Int.toNat_of_nonneg h0
    omega
  simp [putVoice, List.getElem?_set_ne hne]

theorem SlotSetter.run_single (E : Env) (hE : E.Sound) (s : SlotSetter) (h : handle)
    (w : World) (hng : E.voiceGroupHandleToArray w.eng h = none) (h0 : h ≠ 0)
    (hr : E.getVoiceFromHandle w.eng h ≠ -1) :
    ∃ v0 w1, voiceAt w.eng (E.getVoiceFromHandle w.eng h) = some v0 ∧
      s.run E h w = some w1 ∧
      w1.eng = putVoice w.eng (E.getVoiceFromHandle w.eng h) (s.update E v0) := by
  obtain ⟨v0, hv0⟩ := Option.isSome_iff_exists.mp (hE.resolve_occupied w.eng h hr)
  obtain ⟨a1, hb, heng, _⟩ := s.body_eq_update E (E.getVoiceFromHandle w.eng h) (callLock w) v0
    (by simpa using hv0)
  refine ⟨v0, callUnlock a1, hv0, ?_, by simpa using heng⟩
  rw [SlotSetter.run_eq]
  simp [FOR_ALL_VOICES, handleArray, hng, forAllVoices, h0, hr, hb]

/-- C12. For a single-voice handle that resolves to slot `ch`, each of `setProtectVoice`,
`setLooping`, `setInaudibleBehavior`, `setSamplerate`, `setDelaySamples` and
`setPanAbsolute` returns with at most slot `ch` changed: every other entry of the voice
table and every engine-level member (global volume and its fader, max active voices,
engine flags, post-clip scaler, highest voice, callbacks, 3D data, groups) is as
before. -/
theorem slotSetter_changes_one_slot (E : Env) (hE : E.Sound) (h : handle) (w : World)
    (hng : E.voiceGroupHandleToArray w.eng h = none) (h0 : h ≠ 0)
    (hr : E.getVoiceFromHandle w.eng h ≠ -1) :
    (∀ b, ∃ w1, setProtectVoice E h b w = some w1 ∧
      onlySlotChanged w.eng w1.eng (E.getVoiceFromHandle w.eng h)) ∧
    (∀ b, ∃ w1, setLooping E h b w = some w1 ∧
      onlySlotChanged w.eng w1.eng (E.getVoiceFromHandle w.eng h)) ∧
    (∀ t k, ∃ w1, setInaudibleBehavior E h t k w = some w1 ∧
      onlySlotChanged w.eng w1.eng (E.getVoiceFromHandle w.eng h)) ∧
    (∀ r, ∃ w1, setSamplerate E h r w = some w1 ∧
      onlySlotChanged w.eng w1.eng (E.getVoiceFromHandle w.eng h)) ∧
    (∀ n, ∃ w1, setDelaySamples E h n w = some w1 ∧
      onlySlotChanged w.eng w1.eng (E.getVoiceFromHandle w.eng h)) ∧
    (∀ l r, ∃ w1, setPanAbsolute E h l r w = some w1 ∧
      onlySlotChanged w.eng w1.eng (E.getVoiceFromHandle w.eng h)) := by
  have key : ∀ s : SlotSetter, ∃ w1, s.run E h w = some w1 ∧
      onlySlotChanged w.eng w1.eng (E.getVoiceFromHandle w.eng h) := by
    intro s
    obtain ⟨v0, w1, hv0, hrun, heng⟩ := s.run_single E hE h w hng h0 hr
    exact ⟨w1, hrun, by rw [heng]; exact onlySlotChanged_putVoice _ _ v0 _ hv0⟩
  exact ⟨fun b => key (.protectVoice b), fun b => key (.looping b),
    fun t k => key (.inaudibleBehavior t k), fun r => key (.samplerate r),
    fun n => key (.delaySamples n), fun l r => key (.panAbsolute l r)⟩

/-- Witness of C12 on the sample engine, with the handle `4097` of slot 0: after each of
the six setters slot 1 and the engine-level members are as before. -/
theorem slotSetter_changes_one_slot_witness :
    (∃ w1, setProtectVoice specEnv 4097 true sampleWorld = some w1 ∧
      onlySlotChanged sampleWorld.eng w1.eng 0) ∧
    (∃ w1, setLooping specEnv 4097 true sampleWorld = some w1 ∧
      onlySlotChanged sampleWorld.eng w1.eng 0) ∧
    (∃ w1, setInaudibleBehavior specEnv 4097 true false sampleWorld = some w1 ∧
      onlySlotChanged sampleWorld.eng w1.eng 0) ∧
    (∃ w1, setSamplerate specEnv 4097 1185694720 sampleWorld = some w1 ∧
      onlySlotChanged sampleWorld.eng w1.eng 0) ∧
    (∃ w1, setDelaySamples specEnv 4097 512 sampleWorld = some w1 ∧
      onlySlotChanged sampleWorld.eng w1.eng 0) ∧
    (∃ w1, setPanAbsolute specEnv 4097 0 1065353216 sampleWorld = some w1 ∧
      onlySlotChanged sampleWorld.eng w1.eng 0) ∧
    (setSamplerate specEnv 4097 1185694720 sampleWorld).map
        (fun w1 => (w1.eng.mVoice.drop 1, w1.eng.mMaxActiveVoices, w1.eng.mGlobalVolume)) =
      some (sampleEngine.mVoice.drop 1, 8, 1065353216) :=
  have t := slotSetter_changes_one_slot specEnv specEnv_sound 4097 sampleWorld (by decide)
    (by decide) (by decide)
  ⟨t.1 _, t.2.1 _, t.2.2.1 _ _, t.2.2.2.1 _, t.2.2.2.2.1 _, t.2.2.2.2.2 _ _, by decide⟩

theorem forAllVoices_establishes_inv {α : Type} (resolve : α → handle → Int)
    (body : Int → α → Option α) (P : α → Prop) (off : α → Int → Prop)
    (hbody : ∀ a h, P a → resolve a h ≠ -1 →
      ∃ a1, body (resolve a h) a = some a1 ∧ P a1 ∧ off a1 (resolve a h) ∧
        ∀ c, off a c → off a1 c)
    (hs : List handle) (hterm : 0 ∈ hs) (a : α) (S : List Int) (hP : P a)
    (hS : ∀ c ∈ S, off a c) :
    ∃ a1, forAllVoices resolve body hs a = some a1 ∧ P a1 ∧
      ∀ c ∈ S ++ resolvedSlots resolve body hs a, off a1 c := by
  induction hs generalizing a S with
  | nil => simp at hterm
  | cons h rest ih =>
    by_cases h0 : h = 0
    · refine ⟨a, by simp [forAllVoices, h0], hP, ?_⟩
      simpa [resolvedSlots, h0] using hS
    · have hterm1 : 0 ∈ rest := by
        rcases List.mem_cons.mp hterm with h1 | h1
        · exact absurd h1.symm h0
        · exact h1
      by_cases hr : resolve a h = -1
      · obtain ⟨a2, hrun, hP2, hall⟩ := ih hterm1 a S hP hS
        refine ⟨a2, by simp [forAllVoices, h0, hr, hrun], hP2, ?_⟩
        intro c hc
        apply hall
        simpa [resolvedSlots, h0, hr] using hc
      · obtain ⟨a1, hb, hP1, hoff, hpres⟩ := hbody a h hP hr
        obtain ⟨a2, hrun, hP2, hall⟩ := ih hterm1 a1 (S ++ [resolve a h]) hP1 (by
          intro c hc
          rcases List.mem_append.mp hc with h1 | h1
          · exact hpres c (hS c h1)
          · rw [List.mem_singleton.mp h1]; exact hoff)
        refine ⟨a2, by simp [forAllVoices, h0, hr, hb, hrun], hP2, ?_⟩
        intro c hc
        apply hall
        simp only [resolvedSlots, h0, hr, hb, if_false, if_true, ne_eq, not_false_eq_true,
          List.mem_append, List.mem_cons] at hc
        simp only [List.mem_append, List.mem_singleton]
        tauto

theorem SlotSetter.run_resolved (E : Env) (hE : E.Sound) (s : SlotSetter) (h : handle)
    (w : World) :
    ∃ w1, s.run E h w = some w1 ∧
      ∀ ch ∈ resolvedSlots (fun (a : World) x => E.getVoiceFromHandle a.eng x) (s.body E)
          (handleArray E w.eng h) (callLock w),
        ∃ v0, voiceAt w.eng ch = some v0 ∧ voiceAt w1.eng ch = some (s.update E v0) := by
  obtain ⟨a1, hrun, _, hall⟩ := forAllVoices_establishes_inv
    (fun (a : World) x => E.getVoiceFromHandle a.eng x) (s.body E)
    (fun a => ∀ c v, voiceAt a.eng c = some v →
      ∃ v0, voiceAt w.eng c = some v0 ∧ (v = v0 ∨ v = s.update E v0))
    (fun a c => ∃ v0, voiceAt w.eng c = some v0 ∧ voiceAt a.eng c = some (s.update E v0))
    (by
      intro a x hP hr
      obtain ⟨v, hv⟩ := Option.isSome_iff_exists.mp (hE.resolve_occupied a.eng x hr)
      obtain ⟨a1, hb, heng, _⟩ := s.body_eq_update E _ a v hv
      obtain ⟨v0, hv0, hvv⟩ := hP _ v hv
      have hupd : s.update E v = s.update E v0 := by
        rcases hvv with h1 | h1
        · rw [h1]
        · rw [h1, s.update_idem]
      have hself : voiceAt a1.eng (E.getVoiceFromHandle a.eng x) = some (s.update E v0) := by
        rw [heng, voiceAt_putVoice_self _ hv, hupd]
      refine ⟨a1, hb, ?_, ⟨v0, hv0, hself⟩, ?_⟩
      · intro c y hy
        by_cases hc : c = E.getVoiceFromHandle a.eng x
        · subst hc
          rw [hself] at hy
          cases hy
          exact ⟨v0, hv0, Or.inr rfl⟩
        · rw [heng, voiceAt_putVoice_ne _ (voiceAt_nonneg hv) hc] at hy
          exact hP c y hy
      · rintro c ⟨y0, hy0, hy⟩
        by_cases hc : c = E.getVoiceFromHandle a.eng x
        · subst hc
          rw [hv0] at hy0
          cases hy0
          exact ⟨v0, hv0, hself⟩
        · refine ⟨y0, hy0, ?_⟩
          rw [heng, voiceAt_putVoice_ne _ (voiceAt_nonneg hv) hc]
          exact hy)
    (handleArray E w.eng h) (handleArray_terminated E hE w.eng h) (callLock w) []
    (by
      intro c v hv
      exact ⟨v, by simpa using hv, Or.inl rfl⟩)
    (by simp)
  refine ⟨callUnlock a1, ?_, ?_⟩
  · rw [SlotSetter.run_eq]
    simp only [FOR_ALL_VOICES, callLock_eng, hrun]
  · intro ch hch
    simpa using hall ch (by simpa using hch)

theorem testBit_bitNot (n i : Nat) :
    (bitNot n).testBit i = (decide (i < 32) && !n.testBit i) := by
  unfold bitNot
  have hlt : n % 4294967296 < 2 ^ 32 := Nat.mod_lt _ (by norm_num)
  have h := Nat.testBit_two_pow_sub_succ hlt i
  have e1 : 4294967295 - n % 4294967296 = 2 ^ 32 - (n % 4294967296 + 1) := by
    norm_num
    omega
  have e2 : (n % 4294967296).testBit i = (decide (i < 32) && n.testBit i) := by
    have := Nat.testBit_mod_two_pow n 32 i
    simpa using this
  rw [e1, h, e2]
  cases decide (i < 32) <;> simp

/-! ## The flag setters and setSamplerate -/

/-- C14. `setProtectVoice(h, b)` returns, and for every slot the handle resolved to
(every slot the loop ran its body for; for a single-voice handle the slot
`getVoiceFromHandle(h)`), with `PROTECTED` the single bit `2 ^ k` of the 32-bit flag
word: afterwards the `PROTECTED` bit of `mFlags` is set if and only if `b` is true,
every other bit of `mFlags` has its previous value, and every other member of the
instance is unchanged. -/
theorem setProtectVoice_flag (E : Env) (hE : E.Sound) (k : Nat)
    (hP : E.PROTECTED = 2 ^ k) (h : handle) (b : Bool) (w : World) :
    ∃ w1, setProtectVoice E h b w = some w1 ∧
      ∀ ch ∈ resolvedSlots (fun (a : World) x => E.getVoiceFromHandle a.eng x)
          (setProtectVoice_body E b) (handleArray E w.eng h) (callLock w),
        ∃ v0 v1, voiceAt w.eng ch = some v0 ∧ voiceAt w1.eng ch = some v1 ∧
          v1.mFlags.testBit k = b ∧
          (∀ i, i < 32 → i ≠ k → v1.mFlags.testBit i = v0.mFlags.testBit i) ∧
          v1 = { v0 with mFlags := v1.mFlags } := by
  obtain ⟨w1, hrun, hall⟩ := SlotSetter.run_resolved E hE (.protectVoice b) h w
  refine ⟨w1, hrun, ?_⟩
  intro ch hch
  obtain ⟨v0, hv0, hv1⟩ := hall ch hch
  refine ⟨v0, _, hv0, hv1, ?_, ?_, ?_⟩
  · cases b
    · simp [SlotSetter.update, hP, testBit_bitNot, Nat.testBit_two_pow]
    · simp [SlotSetter.update, hP, Nat.testBit_two_pow]
  · intro i hi hik
    have hki : ¬ k = i := fun hh => hik hh.symm
    cases b
    · simp [SlotSetter.update, hP, testBit_bitNot, Nat.testBit_two_pow, hi, hki]
    · simp [SlotSetter.update, hP, Nat.testBit_two_pow, hki]
  · rfl

/-- Witness of C14 on the sample engine (`PROTECTED` is bit 1), with the handle `4097`
of slot 0: after `setProtectVoice(4097, true)` the flags of slot 0 are `2`. -/
theorem setProtectVoice_flag_witness :
    (∃ w1, setProtectVoice specEnv 4097 true sampleWorld = some w1 ∧
      ∃ v0 v1, voiceAt sampleWorld.eng 0 = some v0 ∧ voiceAt w1.eng 0 = some v1 ∧
        v1.mFlags.testBit 1 = true ∧
        (∀ i, i < 32 → i ≠ 1 → v1.mFlags.testBit i = v0.mFlags.testBit i) ∧
        v1 = { v0 with mFlags := v1.mFlags }) ∧
    (setProtectVoice specEnv 4097 true sampleWorld).map
      (fun w1 => (voiceAt w1.eng 0).map (fun v => v.mFlags)) = some (some 2) := by
  obtain ⟨w1, hrun, hall⟩ := setProtectVoice_flag specEnv specEnv_sound 1 rfl
    4097 true sampleWorld
  exact ⟨⟨w1, hrun, hall 0 (by decide)⟩, by decide⟩

/-- C16. `setInaudibleBehavior(h, tick, kill)` returns, and for every slot the handle
resolved to, with `INAUDIBLE_TICK` the bit `2 ^ t` and `INAUDIBLE_KILL` the bit `2 ^ k`
of the 32-bit flag word, `t` and `k` different: afterwards the `INAUDIBLE_TICK` bit is
set if and only if `tick` is true and the `INAUDIBLE_KILL` bit if and only if `kill` is
true, whatever the two bits were before, every other bit of `mFlags` has its previous
value, and every other member of the instance is unchanged. -/
theorem setInaudibleBehavior_flags (E : Env) (hE : E.Sound) (t k : Nat) (ht : t < 32)
    (hk : k < 32) (htk : t ≠ k) (hT : E.INAUDIBLE_TICK = 2 ^ t)
    (hK : E.INAUDIBLE_KILL = 2 ^ k) (h : handle) (tick kill : Bool) (w : World) :
    ∃ w1, setInaudibleBehavior E h tick kill w = some w1 ∧
      ∀ ch ∈ resolvedSlots (fun (a : World) x => E.getVoiceFromHandle a.eng x)
          (setInaudibleBehavior_body E tick kill) (handleArray E w.eng h) (callLock w),
        ∃ v0 v1, voiceAt w.eng ch = some v0 ∧ voiceAt w1.eng ch = some v1 ∧
          v1.mFlags.testBit t = tick ∧ v1.mFlags.testBit k = kill ∧
          (∀ i, i < 32 → i ≠ t → i ≠ k → v1.mFlags.testBit i = v0.mFlags.testBit i) ∧
          v1 = { v0 with mFlags := v1.mFlags } := by
  obtain ⟨w1, hrun, hall⟩ := SlotSetter.run_resolved E hE (.inaudibleBehavior tick kill) h w
  refine ⟨w1, hrun, ?_⟩
  intro ch hch
  obtain ⟨v0, hv0, hv1⟩ := hall ch hch
  have hkt : ¬ k = t := fun hh => htk hh.symm
  refine ⟨v0, _, hv0, hv1, ?_, ?_, ?_, ?_⟩
  · cases tick <;> cases kill <;>
      simp [SlotSetter.update, hT, hK, testBit_bitNot, Nat.testBit_two_pow, htk, hkt, ht]
  · cases tick <;> cases kill <;>
      simp [SlotSetter.update, hT, hK, testBit_bitNot, Nat.testBit_two_pow, htk, hkt, hk]
  · intro i hi hit hik
    have hti : ¬ t = i := fun hh => hit hh.symm
    have hki : ¬ k = i := fun hh => hik hh.symm
    cases tick <;> cases kill <;>
      simp [SlotSetter.update, hT, hK, testBit_bitNot, Nat.testBit_two_pow, hi, hti, hki]
  · rfl

/-- Witness of C16 on the sample engine (`INAUDIBLE_TICK` is bit 6, `INAUDIBLE_KILL` bit
5), with the handle `8194` of slot 1: after `setInaudibleBehavior(8194, true, false)`
the flags of slot 1 are `64`. -/
theorem setInaudibleBehavior_flags_witness :
    (∃ w1, setInaudibleBehavior specEnv 8194 true false sampleWorld = some w1 ∧
      ∃ v0 v1, voiceAt sampleWorld.eng 1 = some v0 ∧ voiceAt w1.eng 1 = some v1 ∧
        v1.mFlags.testBit 6 = true ∧ v1.mFlags.testBit 5 = false ∧
        (∀ i, i < 32 → i ≠ 6 → i ≠ 5 → v1.mFlags.testBit i = v0.mFlags.testBit i) ∧
        v1 = { v0 with mFlags := v1.mFlags }) ∧
    (setInaudibleBehavior specEnv 8194 true false sampleWorld).map
      (fun w1 => (voiceAt w1.eng 1).map (fun v => v.mFlags)) = some (some 64) := by
  obtain ⟨w1, hrun, hall⟩ := setInaudibleBehavior_flags specEnv specEnv_sound 6 5 (by decide)
    (by decide) (by decide) rfl rfl 8194 true false sampleWorld
  exact ⟨⟨w1, hrun, hall 1 (by decide)⟩, by decide⟩

/-- C17. `setSamplerate(h, r)` returns, and for every slot the handle resolved to:
afterwards the base sample rate of the instance is `r`, its derived sample rate is the
float product of `r` and its relative play speed, and the relative play speed, the
three faders and every other member of the instance are unchanged. -/
theorem setSamplerate_rates (E : Env) (hE : E.Sound) (h : handle) (r : SoFloat) (w : World) :
    ∃ w1, setSamplerate E h r w = some w1 ∧
      ∀ ch ∈ resolvedSlots (fun (a : World) x => E.getVoiceFromHandle a.eng x)
          (setSamplerate_body E r) (handleArray E w.eng h) (callLock w),
        ∃ v0 v1, voiceAt w.eng ch = some v0 ∧ voiceAt w1.eng ch = some v1 ∧
          v1.mBaseSamplerate = r ∧
          v1.mSamplerate = E.fmul r v1.mRelativePlaySpeed ∧
          v1.mRelativePlaySpeed = v0.mRelativePlaySpeed ∧
          v1.mVolumeFader = v0.mVolumeFader ∧ v1.mPanFader = v0.mPanFader ∧
          v1.mRelativePlaySpeedFader = v0.mRelativePlaySpeedFader ∧
          v1 = { v0 with mBaseSamplerate := r, mSamplerate := v1.mSamplerate } := by
  obtain ⟨w1, hrun, hall⟩ := SlotSetter.run_resolved E hE (.samplerate r) h w
  refine ⟨w1, hrun, ?_⟩
  intro ch hch
  obtain ⟨v0, hv0, hv1⟩ := hall ch hch
  exact ⟨v0, _, hv0, hv1, rfl, rfl, rfl, rfl, rfl, rfl, rfl⟩

/-- Witness of C17 on the sample engine, with the group handle `4294963200`: after
`setSamplerate(22050.0)` slots 0 and 1 have base sample rate 22050.0 and the derived
rate that goes with it. -/
theorem setSamplerate_rates_witness :
    (∃ w1, setSamplerate specEnv 4294963200 1185694720 sampleWorld = some w1 ∧
      ∃ v0 v1, voiceAt sampleWorld.eng 1 = some v0 ∧ voiceAt w1.eng 1 = some v1 ∧
        v1.mBaseSamplerate = 1185694720 ∧
        v1.mSamplerate = specEnv.fmul 1185694720 v1.mRelativePlaySpeed ∧
        v1.mRelativePlaySpeed = v0.mRelativePlaySpeed ∧
        v1.mVolumeFader = v0.mVolumeFader ∧ v1.mPanFader = v0.mPanFader ∧
        v1.mRelativePlaySpeedFader = v0.mRelativePlaySpeedFader ∧
        v1 = { v0 with mBaseSamplerate := 1185694720, mSamplerate := v1.mSamplerate }) ∧
    (setSamplerate specEnv 4294963200 1185694720 sampleWorld).map
      (fun w1 => ((voiceAt w1.eng 0).map (fun v => v.mBaseSamplerate),
        (voiceAt w1.eng 1).map (fun v => v.mBaseSamplerate))) =
      some (some 1185694720, some 1185694720) := by
  obtain ⟨w1, hrun, hall⟩ := setSamplerate_rates specEnv specEnv_sound 4294963200 1185694720
    sampleWorld
  exact ⟨⟨w1, hrun, hall 1 (by decide)⟩, by decide⟩

/-! ## Repeated members and repeated calls -/

theorem voiceAt_eq_some {e : Soloud} {ch : Int} {v : AudioSourceInstance}
    (h : voiceAt e ch = some v) :
    ((ch.toNat : Nat) : Int) = ch ∧ e.mVoice[ch.toNat]? = some (some v) := by
  have h0 := voiceAt_nonneg h
  refine ⟨Int.toNat_of_nonneg h0, ?_⟩
  unfold voiceAt at h
  simp only [not_lt.mpr h0, if_false] at h
  split at h
  · rename_i x hx
    cases h
    exact hx
  · cases h

theorem putVoice_getElem? (e : Soloud) (ch : Int) (v y : AudioSourceInstance)
    (h : voiceAt e ch = some v) (i : Nat) :
    (putVoice e ch y).mVoice[i]? =
      if i = ch.toNat then some (some y) else e.mVoice[i]? := by
  obtain ⟨_, hget⟩ := voiceAt_eq_some h
  have hlt : ch.toNat < e.mVoice.length := by
    by_contra hge
    rw [List.getElem?_eq_none (not_lt.mp hge)] at hget
    cases hget
  by_cases hi : i = ch.toNat
  · subst hi
    simp [putVoice, List.getElem?_set, hlt]
  · have hne : ch.toNat ≠ i := fun hh => hi hh.symm
    simp [putVoice, List.getElem?_set_ne hne, hi]

theorem sameEngineFields_trans {a b c : Soloud} (h1 : sameEngineFields a b)
    (h2 : sameEngineFields b c) : sameEngineFields a c := by
  obtain ⟨a1, a2, a3, a4, a5, a6, a7, a8, a9, a10⟩ := h1
  obtain ⟨b1, b2, b3, b4, b5, b6, b7, b8, b9, b10⟩ := h2
  exact ⟨b1.trans a1, b2.trans a2, b3.trans a3, b4.trans a4, b5.trans a5, b6.trans a6,
    b7.trans a7, b8.trans a8, b9.trans a9, b10.trans a10⟩

theorem sameEngineFields_refl (a : Soloud) : sameEngineFields a a :=
  ⟨rfl, rfl, rfl, rfl, rfl, rfl, rfl, rfl, rfl, rfl⟩

theorem eq_of_updatedAt {g g1 : AudioSourceInstance → AudioSourceInstance}
    {R R1 : Nat → Prop} {e e1 e2 : Soloud} (h1 : updatedAt g R e e1)
    (h2 : updatedAt g1 R1 e e2) (hR : ∀ i, R i ↔ R1 i)
    (hg : ∀ i, R i → (e.mVoice[i]?).map (Option.map g) = (e.mVoice[i]?).map (Option.map g1)) :
    e1 = e2 := by
  obtain ⟨p1, n1, f1⟩ := h1
  obtain ⟨p2, n2, f2⟩ := h2
  have hv : e1.mVoice = e2.mVoice := by
    apply List.ext_getElem?
    intro i
    by_cases hi : R i
    · rw [p1 i hi, p2 i ((hR i).mp hi), hg i hi]
    · rw [n1 i hi, n2 i (fun hh => hi ((hR i).mpr hh))]
  obtain ⟨a1, a2, a3, a4, a5, a6, a7, a8, a9, a10⟩ := f1
  obtain ⟨b1, b2, b3, b4, b5, b6, b7, b8, b9, b10⟩ := f2
  cases e1
  cases e2
  simp_all

theorem exists_members_split (arr : List handle) (h0 : 0 ∈ arr) :
    ∃ hs tl, arr = hs ++ 0 :: tl ∧ ∀ x ∈ hs, x ≠ 0 := by
  induction arr with
  | nil => simp at h0
  | cons a t ih =>
    by_cases ha : a = 0
    · exact ⟨[], t, by simp [ha], by simp⟩
    · have ht : 0 ∈ t := by
        rcases List.mem_cons.mp h0 with h1 | h1
        · exact absurd h1.symm ha
        · exact h1
      obtain ⟨hs, tl, harr, hnz⟩ := ih ht
      refine ⟨a :: hs, tl, by simp [harr], ?_⟩
      intro x hx
      rcases List.mem_cons.mp hx with h1 | h1
      · rw [h1]; exact ha
      · exact hnz x h1

theorem SlotSetter.loop_pointwise (E : Env) (hE : E.Sound) (hL : E.StableLookup)
    (s : SlotSetter) (hs tl : List handle) (hnz : ∀ x ∈ hs, x ≠ 0) (a : World) :
    ∃ a1, forAllVoices (fun (a : World) x => E.getVoiceFromHandle a.eng x) (s.body E)
        (hs ++ 0 :: tl) a = some a1 ∧
      updatedAt (s.update E) (fun i => ∃ x ∈ hs, E.getVoiceFromHandle a.eng x = (i : Int))
        a.eng a1.eng ∧
      (∀ x, E.getVoiceFromHandle a1.eng x = E.getVoiceFromHandle a.eng x) ∧
      (∀ x, E.voiceGroupHandleToArray a1.eng x = E.voiceGroupHandleToArray a.eng x) := by
  induction hs generalizing a with
  | nil =>
    refine ⟨a, by simp [forAllVoices], ⟨?_, ?_, sameEngineFields_refl _⟩, fun _ => rfl,
      fun _ => rfl⟩
    · rintro i ⟨x, hx, _⟩
      simp at hx
    · intro i _
      rfl
  | cons h rest ih =>
    have h0 : h ≠ 0 := hnz h (List.mem_cons_self h rest)
    have hrest : ∀ x ∈ rest, x ≠ 0 := fun x hx => hnz x (List.mem_cons_of_mem h hx)
    by_cases hr : E.getVoiceFromHandle a.eng h = -1
    · obtain ⟨a1, hrun, ⟨p, n, f⟩, hres, hgrp⟩ := ih hrest a
      refine ⟨a1, by simp [forAllVoices, h0, hr, hrun], ⟨?_, ?_, f⟩, hres, hgrp⟩
      · rintro i ⟨x, hx, hxi⟩
        rcases List.mem_cons.mp hx with h1 | h1
        · rw [h1, hr] at hxi
          omega
        · exact p i ⟨x, h1, hxi⟩
      · intro i hi
        exact n i (fun ⟨x, hx, hxi⟩ => hi ⟨x, List.mem_cons_of_mem h hx, hxi⟩)
    · obtain ⟨v, hv⟩ := Option.isSome_iff_exists.mp (hE.resolve_occupied a.eng h hr)
      obtain ⟨a0, hb, heng, _⟩ := s.body_eq_update E _ a v hv
      have hres0 : ∀ x, E.getVoiceFromHandle a0.eng x = E.getVoiceFromHandle a.eng x := by
        intro x
        rw [heng]
        exact hL.resolve_stable _ _ v _ x hv (s.update_generation E v)
      have hgrp0 : ∀ x, E.voiceGroupHandleToArray a0.eng x =
          E.voiceGroupHandleToArray a.eng x := by
        intro x
        rw [heng]
        exact hL.group_stable _ _ v _ x hv (s.update_generation E v)
      obtain ⟨a1, hrun, ⟨p, n, f⟩, hres, hgrp⟩ := ih hrest a0
      obtain ⟨hcast, hget⟩ := voiceAt_eq_some hv
      have hget0 : ∀ i, a0.eng.mVoice[i]? =
          if i = (E.getVoiceFromHandle a.eng h).toNat then some (some (s.update E v))
          else a.eng.mVoice[i]? := by
        intro i
        rw [heng]
        exact putVoice_getElem? _ _ v _ hv i
      refine ⟨a1, by simp [forAllVoices, h0, hr, hb, hrun], ⟨?_, ?_, ?_⟩,
        fun x => (hres x).trans (hres0 x), fun x => (hgrp x).trans (hgrp0 x)⟩
      · rintro i ⟨x, hx, hxi⟩
        by_cases hi : i = (E.getVoiceFromHandle a.eng h).toNat
        · by_cases hR : ∃ y ∈ rest, E.getVoiceFromHandle a0.eng y = (i : Int)
          · rw [p i hR, hget0 i, if_pos hi, hi, hget]
            simp [s.update_idem]
          · rw [n i hR, hget0 i, if_pos hi, hi, hget]
            rfl
        · have hx1 : x ∈ rest := by
            rcases List.mem_cons.mp hx with h1 | h1
            · exfalso
              apply hi
              rw [h1] at hxi
              rw [hxi]
              simp
            · exact h1
          rw [p i ⟨x, hx1, by rw [hres0 x]; exact hxi⟩, hget0 i, if_neg hi]
      · intro i hi
        have hine : i ≠ (E.getVoiceFromHandle a.eng h).toNat := by
          intro hh
          apply hi
          exact ⟨h, List.mem_cons_self h rest, by rw [hh]; exact hcast.symm⟩
        rw [n i (fun ⟨x, hx, hxi⟩ =>
          hi ⟨x, List.mem_cons_of_mem h hx, by rw [← hres0 x]; exact hxi⟩), hget0 i,
          if_neg hine]
      · have f0 : sameEngineFields a.eng a0.eng := by
          rw [heng]
          exact sameEngineFields_putVoice _ _ _
        exact sameEngineFields_trans f0 f

theorem SlotSetter.run_pointwise (E : Env) (hE : E.Sound) (hL : E.StableLookup)
    (s : SlotSetter) (h : handle) (w : World) (hs tl : List handle)
    (harr : handleArray E w.eng h = hs ++ 0 :: tl) (hnz : ∀ x ∈ hs, x ≠ 0) :
    ∃ w1, s.run E h w = some w1 ∧
      updatedAt (s.update E) (fun i => ∃ x ∈ hs, E.getVoiceFromHandle w.eng x = (i : Int))
        w.eng w1.eng ∧
      (∀ x, E.getVoiceFromHandle w1.eng x = E.getVoiceFromHandle w.eng x) ∧
      handleArray E w1.eng h = hs ++ 0 :: tl := by
  obtain ⟨a1, hrun, hupd, hres, hgrp⟩ := s.loop_pointwise E hE hL hs tl hnz (callLock w)
  refine ⟨callUnlock a1, ?_, by simpa using hupd, by simpa using hres, ?_⟩
  · rw [SlotSetter.run_eq]
    simp only [FOR_ALL_VOICES, callLock_eng, harr, hrun]
  · rw [← harr]
    unfold handleArray
    rw [callUnlock_eng, hgrp h, callLock_eng]

theorem specEnv_stableLookup : specEnv.StableLookup where
  resolve_stable := by
    intro e ch v v1 h hv hgen
    show specResolve (putVoice e ch v1) h = specResolve e h
    unfold specResolve
    by_cases hc : h = 0 ∨ h / 4096 = 1048575
    · rw [if_pos hc, if_pos hc]
    · rw [if_neg hc, if_neg hc]
      by_cases hcc : (((h % 4096 : Nat) : Int) - 1) = ch
      · rw [hcc, voiceAt_putVoice_self v1 hv, hv]
        simp only [hgen]
      · rw [voiceAt_putVoice_ne v1 (voiceAt_nonneg hv) hcc]
  group_stable := by
    intro e ch v v1 h _ _
    rfl

theorem option_map_map_idem {α : Type} (g : α → α) (hg : ∀ v, g (g v) = g v)
    (x : Option (Option α)) :
    (x.map (Option.map g)).map (Option.map g) = x.map (Option.map g) := by
  cases x with
  | none => rfl
  | some y =>
    cases y with
    | none => rfl
    | some v => simp [hg]

/-- C13. For each of `setProtectVoice`, `setLooping`, `setInaudibleBehavior`,
`setSamplerate`, `setDelaySamples` and `setPanAbsolute` (the setter `s` with its
arguments): a group whose array lists the members `hs`, repeats included, and a group
whose array lists `hs` with the repeats removed leave the engine in the same final
state; and calling the setter a second time with the same arguments leaves the engine
as the first call left it. The two lookups outside this file are taken to look at a
slot only for its occupancy and generation. -/
theorem slotSetter_duplicates (E : Env) (hE : E.Sound) (hL : E.StableLookup)
    (s : SlotSetter) (w : World) :
    (∀ hA hB hs tlA tlB,
      E.voiceGroupHandleToArray w.eng hA = some (hs ++ 0 :: tlA) →
      E.voiceGroupHandleToArray w.eng hB = some (hs.dedup ++ 0 :: tlB) →
      (∀ x ∈ hs, x ≠ 0) →
      ∃ wA wB, s.run E hA w = some wA ∧ s.run E hB w = some wB ∧ wA.eng = wB.eng) ∧
    (∀ h, ∃ w1 w2, s.run E h w = some w1 ∧ s.run E h w1 = some w2 ∧ w2.eng = w1.eng) := by
  refine ⟨?_, ?_⟩
  · intro hA hB hs tlA tlB harrA harrB hnz
    have hnzB : ∀ x ∈ hs.dedup, x ≠ 0 := fun x hx => hnz x (List.mem_dedup.mp hx)
    obtain ⟨wA, hrunA, hupdA, _, _⟩ := s.run_pointwise E hE hL hA w hs tlA
      (by simp [handleArray, harrA]) hnz
    obtain ⟨wB, hrunB, hupdB, _, _⟩ := s.run_pointwise E hE hL hB w hs.dedup tlB
      (by simp [handleArray, harrB]) hnzB
    refine ⟨wA, wB, hrunA, hrunB, eq_of_updatedAt hupdA hupdB ?_ (fun _ _ => rfl)⟩
    intro i
    constructor
    · rintro ⟨x, hx, hxi⟩
      exact ⟨x, List.mem_dedup.mpr hx, hxi⟩
    · rintro ⟨x, hx, hxi⟩
      exact ⟨x, List.mem_dedup.mp hx, hxi⟩
  · intro h
    obtain ⟨hs, tl, harr, hnz⟩ := exists_members_split (handleArray E w.eng h)
      (handleArray_terminated E hE w.eng h)
    obtain ⟨w1, hrun1, hupd1, hres1, harr1⟩ := s.run_pointwise E hE hL h w hs tl harr hnz
    obtain ⟨w2, hrun2, hupd2, _, _⟩ := s.run_pointwise E hE hL h w1 hs tl harr1 hnz
    refine ⟨w1, w2, hrun1, hrun2, ?_⟩
    obtain ⟨p1, n1, f1⟩ := hupd1
    obtain ⟨p2, n2, f2⟩ := hupd2
    refine soloud_eq_of_fields ?_ f2
    apply List.ext_getElem?
    intro i
    by_cases hi : ∃ x ∈ hs, E.getVoiceFromHandle w.eng x = (i : Int)
    · have hi1 : ∃ x ∈ hs, E.getVoiceFromHandle w1.eng x = (i : Int) := by
        obtain ⟨x, hx, hxi⟩ := hi
        exact ⟨x, hx, by rw [hres1 x]; exact hxi⟩
      rw [p2 i hi1, p1 i hi]
      exact option_map_map_idem _ (s.update_idem E) _
    · have hi1 : ¬ ∃ x ∈ hs, E.getVoiceFromHandle w1.eng x = (i : Int) := by
        rintro ⟨x, hx, hxi⟩
        exact hi ⟨x, hx, by rw [← hres1 x]; exact hxi⟩
      rw [n2 i hi1]

/-- Witness of C13 on the sample engine with groups `[4097, 8194, 4097]` (handle
`4294963200`) and `[8194, 4097]` (handle `4294963201`): `setProtectVoice(true)` leaves
the same engine through either group, and a second call changes nothing. -/
theorem slotSetter_duplicates_witness :
    (∃ wA wB, setProtectVoice specEnv 4294963200 true sampleWorldDup = some wA ∧
      setProtectVoice specEnv 4294963201 true sampleWorldDup = some wB ∧ wA.eng = wB.eng) ∧
    (∃ w1 w2, setProtectVoice specEnv 4294963200 true sampleWorldDup = some w1 ∧
      setProtectVoice specEnv 4294963200 true w1 = some w2 ∧ w2.eng = w1.eng) ∧
    [4097, 8194, 4097].dedup = [8194, 4097] ∧
    (setProtectVoice specEnv 4294963200 true sampleWorldDup).map
      (fun w1 => ((voiceAt w1.eng 0).map (fun v => v.mFlags),
        (voiceAt w1.eng 1).map (fun v => v.mFlags), w1.trace)) =
      some (some 2, some 2, [Event.lock, Event.write, Event.write, Event.write, Event.unlock]) :=
  have t := slotSetter_duplicates specEnv specEnv_sound specEnv_stableLookup
    (.protectVoice true) sampleWorldDup
  ⟨t.1 4294963200 4294963201 [4097, 8194, 4097] [] [] (by decide) (by decide) (by decide),
    t.2 4294963200, by decide, by decide⟩

theorem updatedAt.comp {g1 g2 : AudioSourceInstance → AudioSourceInstance} {R R1 : Nat → Prop}
    {e e1 e2 : Soloud} (h1 : updatedAt g1 R e e1) (h2 : updatedAt g2 R1 e1 e2)
    (hR : ∀ i, R i ↔ R1 i) : updatedAt (fun v => g2 (g1 v)) R e e2 := by
  obtain ⟨p1, n1, f1⟩ := h1
  obtain ⟨p2, n2, f2⟩ := h2
  refine ⟨?_, ?_, sameEngineFields_trans f1 f2⟩
  · intro i hi
    rw [p2 i ((hR i).mp hi), p1 i hi]
    cases e.mVoice[i]? with
    | none => rfl
    | some y =>
      cases y with
      | none => rfl
      | some v => rfl
  · intro i hi
    rw [n2 i (fun hh => hi ((hR i).mpr hh)), n1 i hi]

theorem SlotSetter.run_comm (E : Env) (hE : E.Sound) (hL : E.StableLookup)
    (s1 s2 : SlotSetter) (hcomm : ∀ v, s2.update E (s1.update E v) = s1.update E (s2.update E v))
    (h : handle) (w : World) :
    ∃ wa wab wb wba, s1.run E h w = some wa ∧ s2.run E h wa = some wab ∧
      s2.run E h w = some wb ∧ s1.run E h wb = some wba ∧ wab.eng = wba.eng := by
  obtain ⟨hs, tl, harr, hnz⟩ := exists_members_split (handleArray E w.eng h)
    (handleArray_terminated E hE w.eng h)
  obtain ⟨wa, hrunA, hupdA, hresA, harrA⟩ := s1.run_pointwise E hE hL h w hs tl harr hnz
  obtain ⟨wab, hrunAB, hupdAB, _, _⟩ := s2.run_pointwise E hE hL h wa hs tl harrA hnz
  obtain ⟨wb, hrunB, hupdB, hresB, harrB⟩ := s2.run_pointwise E hE hL h w hs tl harr hnz
  obtain ⟨wba, hrunBA, hupdBA, _, _⟩ := s1.run_pointwise E hE hL h wb hs tl harrB hnz
  refine ⟨wa, wab, wb, wba, hrunA, hrunAB, hrunB, hrunBA, ?_⟩
  have c1 := hupdA.comp hupdAB (fun i => by
    constructor
    · rintro ⟨x, hx, hxi⟩
      exact ⟨x, hx, by rw [hresA x]; exact hxi⟩
    · rintro ⟨x, hx, hxi⟩
      exact ⟨x, hx, by rw [← hresA x]; exact hxi⟩)
  have c2 := hupdB.comp hupdBA (fun i => by
    constructor
    · rintro ⟨x, hx, hxi⟩
      exact ⟨x, hx, by rw [hresB x]; exact hxi⟩
    · rintro ⟨x, hx, hxi⟩
      exact ⟨x, hx, by rw [← hresB x]; exact hxi⟩)
  refine eq_of_updatedAt c1 c2 (fun _ => Iff.rfl) ?_
  intro i _
  have hfun : (fun v => s2.update E (s1.update E v)) = (fun v => s1.update E (s2.update E v)) :=
    funext hcomm
  rw [hfun]

theorem looping_protect_flags_comm (f j k : Nat) (hj : j < 32) (hk : k < 32) (hjk : j ≠ k)
    (b p : Bool) :
    (if p then (if b then f ||| 2 ^ j else f &&& bitNot (2 ^ j)) ||| 2 ^ k
      else (if b then f ||| 2 ^ j else f &&& bitNot (2 ^ j)) &&& bitNot (2 ^ k)) =
    (if b then (if p then f ||| 2 ^ k else f &&& bitNot (2 ^ k)) ||| 2 ^ j
      else (if p then f ||| 2 ^ k else f &&& bitNot (2 ^ k)) &&& bitNot (2 ^ j)) := by
  apply Nat.eq_of_testBit_eq
  intro i
  have hkj : ¬ k = j := fun hh => hjk hh.symm
  cases b <;> cases p <;>
    simp only [Nat.testBit_or, Nat.testBit_and, testBit_bitNot, Nat.testBit_two_pow, if_true,
      if_false, Bool.false_eq_true] <;>
    by_cases hij : j = i <;> by_cases hik : k = i <;>
    by_cases hi : i < 32 <;> cases f.testBit i <;> simp [hij, hik, hi] <;> omega

/-- C15. `setLooping(h, b)` returns, and for every slot the handle resolved to, with
`LOOPING` the single bit `2 ^ j` of the 32-bit flag word: afterwards the `LOOPING` bit of
`mFlags` is set if and only if `b` is true, every other bit of `mFlags` has its previous
value, and every other member of the instance is unchanged. Consequently, `PROTECTED`
being another bit `2 ^ k`, `setLooping` and `setProtectVoice` on the same handle
commute: either order leaves the same engine. For the second part the two lookups
outside this file are taken to look at a slot only for its occupancy and generation. -/
theorem setLooping_flag (E : Env) (hE : E.Sound) (hL : E.StableLookup) (j k : Nat)
    (hj : j < 32) (hk : k < 32) (hjk : j ≠ k) (hLoop : E.LOOPING = 2 ^ j)
    (hProt : E.PROTECTED = 2 ^ k) (h : handle) (b : Bool) (w : World) :
    (∃ w1, setLooping E h b w = some w1 ∧
      ∀ ch ∈ resolvedSlots (fun (a : World) x => E.getVoiceFromHandle a.eng x)
          (setLooping_body E b) (handleArray E w.eng h) (callLock w),
        ∃ v0 v1, voiceAt w.eng ch = some v0 ∧ voiceAt w1.eng ch = some v1 ∧
          v1.mFlags.testBit j = b ∧
          (∀ i, i < 32 → i ≠ j → v1.mFlags.testBit i = v0.mFlags.testBit i) ∧
          v1 = { v0 with mFlags := v1.mFlags }) ∧
    (∀ p, ∃ wa wab wb wba, setLooping E h b w = some wa ∧
      setProtectVoice E h p wa = some wab ∧ setProtectVoice E h p w = some wb ∧
      setLooping E h b wb = some wba ∧ wab.eng = wba.eng) := by
  refine ⟨?_, ?_⟩
  · obtain ⟨w1, hrun, hall⟩ := SlotSetter.run_resolved E hE (.looping b) h w
    refine ⟨w1, hrun, ?_⟩
    intro ch hch
    obtain ⟨v0, hv0, hv1⟩ := hall ch hch
    refine ⟨v0, _, hv0, hv1, ?_, ?_, ?_⟩
    · cases b
      · simp [SlotSetter.update, hLoop, testBit_bitNot, Nat.testBit_two_pow]
      · simp [SlotSetter.update, hLoop, Nat.testBit_two_pow]
    · intro i hi hij
      have hji : ¬ j = i := fun hh => hij hh.symm
      cases b
      · simp [SlotSetter.update, hLoop, testBit_bitNot, Nat.testBit_two_pow, hi, hji]
      · simp [SlotSetter.update, hLoop, Nat.testBit_two_pow, hji]
    · rfl
  · intro p
    exact SlotSetter.run_comm E hE hL (.looping b) (.protectVoice p) (by
      intro v
      simp only [SlotSetter.update, hLoop, hProt]
      rw [looping_protect_flags_comm v.mFlags j k hj hk hjk b p]) h w

/-- Witness of C15 on the sample engine (`LOOPING` is bit 0, `PROTECTED` bit 1), with
the handle `4097` of slot 0: `setLooping(true)` sets bit 0, and with
`setProtectVoice(true)` in either order the flags of slot 0 end as `3`. -/
theorem setLooping_flag_witness :
    (∃ w1, setLooping specEnv 4097 true sampleWorld = some w1 ∧
      ∃ v0 v1, voiceAt sampleWorld.eng 0 = some v0 ∧ voiceAt w1.eng 0 = some v1 ∧
        v1.mFlags.testBit 0 = true ∧
        (∀ i, i < 32 → i ≠ 0 → v1.mFlags.testBit i = v0.mFlags.testBit i) ∧
        v1 = { v0 with mFlags := v1.mFlags }) ∧
    (∃ wa wab wb wba, setLooping specEnv 4097 true sampleWorld = some wa ∧
      setProtectVoice specEnv 4097 true wa = some wab ∧
      setProtectVoice specEnv 4097 true sampleWorld = some wb ∧
      setLooping specEnv 4097 true wb = some wba ∧ wab.eng = wba.eng) ∧
    ((setLooping specEnv 4097 true sampleWorld).bind (setProtectVoice specEnv 4097 true)).map
      (fun w1 => (voiceAt w1.eng 0).map (fun v => v.mFlags)) = some (some 3) := by
  obtain ⟨⟨w1, hrun, hall⟩, hcomm⟩ := setLooping_flag specEnv specEnv_sound
    specEnv_stableLookup 0 1 (by decide) (by decide) (by decide) rfl rfl 4097 true sampleWorld
  exact ⟨⟨w1, hrun, hall 0 (by decide)⟩, hcomm true, by decide⟩

/-! ## The voice table of the spec -/

theorem VoiceTable.free_getElem? (t : VoiceTable) (j i : Nat) :
    (t.free j).slots[i]? =
      if i = j then
        (t.slots[i]?).map (fun s => { generation := s.generation + 1, voice := none })
      else t.slots[i]? := by
  unfold VoiceTable.free
  cases hj : t.slots[j]? with
  | none =>
    by_cases hij : i = j
    · subst hij
      simp [hj]
    · simp [hij]
  | some s =>
    have hlt : j < t.slots.length := by
      by_contra hge
      rw [List.getElem?_eq_none (not_lt.mp hge)] at hj
      cases hj
    by_cases hij : i = j
    · subst hij
      simp [hj, List.getElem?_set, hlt]
    · have hji : j ≠ i := fun hh => hij hh.symm
      simp [hij, List.getElem?_set_ne hji]

theorem VoiceTable.place_getElem? (t : VoiceTable) (j i : Nat) (v : VoiceInfo) :
    (t.place j v).2.slots[i]? =
      if i = j then
        (t.slots[i]?).map (fun s => { generation := s.generation + 1, voice := some v })
      else t.slots[i]? := by
  unfold VoiceTable.place
  cases hj : t.slots[j]? with
  | none =>
    by_cases hij : i = j
    · subst hij
      simp [hj]
    · simp [hij]
  | some s =>
    have hlt : j < t.slots.length := by
      by_contra hge
      rw [List.getElem?_eq_none (not_lt.mp hge)] at hj
      cases hj
    by_cases hij : i = j
    · subst hij
      simp [hj, List.getElem?_set, hlt]
    · have hji : j ≠ i := fun hh => hij hh.symm
      simp [hij, List.getElem?_set_ne hji]

theorem firstFreeFrom_some (l : List VoiceSlot) (k i : Nat) (h : firstFreeFrom l k = some i) :
    k ≤ i ∧ ∃ s, l[i - k]? = some s ∧ s.voice = none := by
  induction l generalizing k with
  | nil => simp [firstFreeFrom] at h
  | cons s rest ih =>
    unfold firstFreeFrom at h
    split at h
    · rename_i hs
      cases h
      refine ⟨le_refl _, s, by simp, ?_⟩
      cases hv : s.voice with
      | none => rfl
      | some x => simp [hv] at hs
    · obtain ⟨hk, s1, hget, hv⟩ := ih (k + 1) h
      refine ⟨by omega, s1, ?_, hv⟩
      have e : i - k = (i - (k + 1)) + 1 := by omega
      rw [e, List.getElem?_cons_succ]
      exact hget

theorem firstFreeFrom_none (l : List VoiceSlot) (k : Nat) (h : firstFreeFrom l k = none) :
    ∀ s ∈ l, s.voice.isSome = true := by
  induction l generalizing k with
  | nil => simp
  | cons s rest ih =>
    unfold firstFreeFrom at h
    split at h
    · cases h
    · rename_i hs
      intro x hx
      rcases List.mem_cons.mp hx with h1 | h1
      · rw [h1]
        cases hv : s.voice with
        | none => simp [hv] at hs
        | some y => rfl
      · exact ih (k + 1) h x h1

theorem victimFrom_none (score : VoiceInfo → Nat) (l : List VoiceSlot) (k : Nat)
    (h : victimFrom score l k = none) :
    ∀ s ∈ l, ∀ v, s.voice = some v → v.isProtected = true := by
  induction l generalizing k with
  | nil => simp
  | cons y ys ih =>
    unfold victimFrom at h
    intro x hx v hxv
    cases hyv : y.voice with
    | none =>
      simp only [hyv] at h
      rcases List.mem_cons.mp hx with h1 | h1
      · rw [h1, hyv] at hxv
        cases hxv
      · exact ih (k + 1) h x h1 v hxv
    | some yv =>
      simp only [hyv] at h
      by_cases hyp : yv.isProtected = true
      · rw [if_pos hyp] at h
        rcases List.mem_cons.mp hx with h1 | h1
        · rw [h1, hyv] at hxv
          cases hxv
          exact hyp
        · exact ih (k + 1) h x h1 v hxv
      · rw [if_neg hyp] at h
        cases hq : victimFrom score ys (k + 1) with
        | none => simp [hq] at h
        | some q =>
          obtain ⟨q1, q2⟩ := q
          simp only [hq] at h
          split at h <;> cases h

theorem victimFrom_some (score : VoiceInfo → Nat) (l : List VoiceSlot) (k j sc : Nat)
    (h : victimFrom score l k = some (j, sc)) :
    k ≤ j ∧ (∃ s v, l[j - k]? = some s ∧ s.voice = some v ∧ v.isProtected = false ∧
      score v = sc) ∧
    ∀ s ∈ l, ∀ v, s.voice = some v → v.isProtected = false → sc ≤ score v := by
  induction l generalizing k j sc with
  | nil => simp [victimFrom] at h
  | cons s rest ih =>
    unfold victimFrom at h
    have lift : ∀ j1 sc1, victimFrom score rest (k + 1) = some (j1, sc1) →
        k ≤ j1 ∧ (∃ s1 v1, (s :: rest)[j1 - k]? = some s1 ∧ s1.voice = some v1 ∧
          v1.isProtected = false ∧ score v1 = sc1) ∧
        ∀ x ∈ rest, ∀ v, x.voice = some v → v.isProtected = false → sc1 ≤ score v := by
      intro j1 sc1 h1
      obtain ⟨hk, ⟨s1, v1, hget, hv, hp, hsc⟩, hmin⟩ := ih (k + 1) j1 sc1 h1
      refine ⟨by omega, ⟨s1, v1, ?_, hv, hp, hsc⟩, hmin⟩
      have e : j1 - k = (j1 - (k + 1)) + 1 := by omega
      rw [e, List.getElem?_cons_succ]
      exact hget
    cases hv : s.voice with
    | none =>
      simp only [hv] at h
      obtain ⟨hk, hex, hmin⟩ := lift j sc h
      refine ⟨hk, hex, ?_⟩
      intro x hx v hxv hp
      rcases List.mem_cons.mp hx with h1 | h1
      · rw [h1, hv] at hxv
        cases hxv
      · exact hmin x h1 v hxv hp
    | some v0 =>
      simp only [hv] at h
      by_cases hp0 : v0.isProtected = true
      · rw [if_pos hp0] at h
        obtain ⟨hk, hex, hmin⟩ := lift j sc h
        refine ⟨hk, hex, ?_⟩
        intro x hx v hxv hp
        rcases List.mem_cons.mp hx with h1 | h1
        · rw [h1, hv] at hxv
          cases hxv
          rw [hp0] at hp
          cases hp
        · exact hmin x h1 v hxv hp
      · rw [if_neg hp0] at h
        have hp0f : v0.isProtected = false := by
          cases hh : v0.isProtected with
          | false => rfl
          | true => exact absurd hh hp0
        cases hr : victimFrom score rest (k + 1) with
        | none =>
          simp only [hr] at h
          cases h
          refine ⟨le_refl _, ⟨s, v0, by simp, hv, hp0f, rfl⟩, ?_⟩
          intro x hx v hxv hp
          rcases List.mem_cons.mp hx with h1 | h1
          · rw [h1, hv] at hxv
            cases hxv
            exact le_refl _
          · have hprot := victimFrom_none score rest (k + 1) hr x h1 v hxv
            rw [hprot] at hp
            cases hp
        | some r =>
          obtain ⟨j1, sc1⟩ := r
          simp only [hr] at h
          obtain ⟨hk, hex, hmin⟩ := lift j1 sc1 hr
          by_cases hlt : sc1 < score v0
          · rw [if_pos hlt] at h
            cases h
            refine ⟨hk, hex, ?_⟩
            intro x hx v hxv hp
            rcases List.mem_cons.mp hx with h1 | h1
            · rw [h1, hv] at hxv
              cases hxv
              exact Nat.le_of_lt hlt
            · exact hmin x h1 v hxv hp
          · rw [if_neg hlt] at h
            cases h
            refine ⟨le_refl _, ⟨s, v0, by simp, hv, hp0f, rfl⟩, ?_⟩
            intro x hx v hxv hp
            rcases List.mem_cons.mp hx with h1 | h1
            · rw [h1, hv] at hxv
              cases hxv
              exact le_refl _
            · exact le_trans (not_lt.mp hlt) (hmin x h1 v hxv hp)

theorem VoiceTable.step_slot (score : VoiceInfo → Nat) (t : VoiceTable) (op : TableOp)
    (i : Nat) (s : VoiceSlot) (hs : t.slots[i]? = some s) :
    ∃ s1, (t.step score op).slots[i]? = some s1 ∧
      (freesSlot score t i op = true → s.generation < s1.generation) ∧
      (freesSlot score t i op = false → s.voice.isSome = true → s1 = s) ∧
      s.generation ≤ s1.generation := by
  cases op with
  | free j =>
    simp only [VoiceTable.step, freesSlot, VoiceTable.free_getElem?, hs]
    by_cases hij : i = j
    · subst hij
      refine ⟨{ generation := s.generation + 1, voice := none }, by simp, ?_, ?_, ?_⟩ <;> simp
    · have hji : ¬ j = i := fun hh => hij hh.symm
      exact ⟨s, by simp [hij], by simp [hji], fun _ _ => rfl, le_refl _⟩
  | allocate v =>
    simp only [VoiceTable.step, freesSlot, VoiceTable.allocate]
    cases hf : firstFreeFrom t.slots 0 with
    | some k =>
      simp only [VoiceTable.place_getElem?, hs]
      by_cases hik : i = k
      · subst hik
        obtain ⟨_, sk, hget, hvoice⟩ := firstFreeFrom_some t.slots 0 i hf
        rw [Nat.sub_zero, hs] at hget
        cases hget
        refine ⟨{ generation := s.generation + 1, voice := some v }, by simp,
          (fun hh => Bool.noConfusion hh), ?_, by simp⟩
        intro _ hsome
        rw [hvoice] at hsome
        cases hsome
      · exact ⟨s, by simp [hik], by simp, fun _ _ => rfl, le_refl _⟩
    | none =>
      cases hv : victimFrom score t.slots 0 with
      | none => exact ⟨s, by simpa using hs, by simp, fun _ _ => rfl, le_refl _⟩
      | some r =>
        obtain ⟨j, sc⟩ := r
        simp only [VoiceTable.place_getElem?, VoiceTable.free_getElem?, hs]
        by_cases hij : i = j
        · subst hij
          refine ⟨{ generation := s.generation + 1 + 1, voice := some v }, by simp, ?_, ?_, ?_⟩
          · intro _
            show s.generation < s.generation + 1 + 1
            omega
          · intro hh
            simp at hh
          · show s.generation ≤ s.generation + 1 + 1
            omega
        · have hji : ¬ j = i := fun hh => hij hh.symm
          exact ⟨s, by simp [hij], by simp [hji], fun _ _ => rfl, le_refl _⟩

theorem VoiceTable.resolve_stale (score : VoiceInfo → Nat) (i g : Nat) (ops : List TableOp) :
    ∀ (t : VoiceTable) (s : VoiceSlot), t.slots[i]? = some s → g < s.generation →
      (t.runOps score ops).resolve (VoiceHandle.voice i g) = none := by
  induction ops with
  | nil =>
    intro t s hs hg
    have hne : ¬ (s.generation = g ∧ s.voice.isSome = true) := fun hh => by omega
    simp [VoiceTable.runOps, VoiceTable.resolve, hs, hne]
  | cons op ops ih =>
    intro t s hs hg
    obtain ⟨s1, hs1, _, _, hle⟩ := t.step_slot score op i s hs
    have := ih (t.step score op) s1 hs1 (by omega)
    simpa [VoiceTable.runOps] using this

theorem VoiceTable.resolve_live (score : VoiceInfo → Nat) (i g : Nat) (ops : List TableOp) :
    ∀ (t : VoiceTable) (s : VoiceSlot), t.slots[i]? = some s → s.generation = g →
      s.voice.isSome = true →
      (t.runOps score ops).resolve (VoiceHandle.voice i g) =
        if freedDuring score i t ops = true then none else some i := by
  induction ops with
  | nil =>
    intro t s hs hg hv
    simp [VoiceTable.runOps, VoiceTable.resolve, hs, hg, hv, freedDuring]
  | cons op ops ih =>
    intro t s hs hg hv
    obtain ⟨s1, hs1, hfree, hkeep, _⟩ := t.step_slot score op i s hs
    cases hf : freesSlot score t i op with
    | true =>
      have hstale := VoiceTable.resolve_stale score i g ops (t.step score op) s1 hs1
        (by have := hfree hf; omega)
      have hrun : (t.runOps score (op :: ops)) = (t.step score op).runOps score ops := rfl
      rw [hrun, hstale]
      simp [freedDuring, hf]
    | false =>
      have hs1eq := hkeep hf hv
      subst hs1eq
      have := ih (t.step score op) s1 hs1 hg hv
      have hrun : (t.runOps score (op :: ops)) = (t.step score op).runOps score ops := rfl
      rw [hrun, this]
      simp [freedDuring, hf]

theorem VoiceTable.place_spec (t : VoiceTable) (i : Nat) (v : VoiceInfo) (s : VoiceSlot)
    (hs : t.slots[i]? = some s) :
    (t.place i v).1 = VoiceHandle.voice i (s.generation + 1) ∧
      (t.place i v).2.slots[i]? = some { generation := s.generation + 1, voice := some v } := by
  refine ⟨by simp [VoiceTable.place, hs], ?_⟩
  rw [VoiceTable.place_getElem?]
  simp [hs]

theorem VoiceTable.allocate_spec (score : VoiceInfo → Nat) (t : VoiceTable) (v : VoiceInfo)
    (hne : (t.allocate score v).1 ≠ VoiceHandle.null) :
    ∃ i g, (t.allocate score v).1 = VoiceHandle.voice i g ∧
      (t.allocate score v).2.slots[i]? = some { generation := g, voice := some v } := by
  unfold VoiceTable.allocate at hne ⊢
  cases hf : firstFreeFrom t.slots 0 with
  | some k =>
    obtain ⟨_, sk, hget, _⟩ := firstFreeFrom_some t.slots 0 k hf
    rw [Nat.sub_zero] at hget
    obtain ⟨h1, h2⟩ := t.place_spec k v sk hget
    exact ⟨k, sk.generation + 1, h1, h2⟩
  | none =>
    cases hv : victimFrom score t.slots 0 with
    | none => simp [hf, hv] at hne
    | some r =>
      obtain ⟨j, sc⟩ := r
      obtain ⟨_, ⟨sj, vj, hget, _, _, _⟩, _⟩ := victimFrom_some score t.slots 0 j sc hv
      rw [Nat.sub_zero] at hget
      have hfree : (t.free j).slots[j]? =
          some { generation := sj.generation + 1, voice := none } := by
        rw [VoiceTable.free_getElem?]
        simp [hget]
      obtain ⟨h1, h2⟩ := (t.free j).place_spec j v _ hfree
      exact ⟨j, sj.generation + 1 + 1, h1, h2⟩

/-- C18. In the voice table of the spec, for every table, every audibility policy and
every sequence of allocate and free operations that follows: a handle that allocate
returned (not the null handle) resolves to its slot as long as no operation of the
sequence has ended its voice (a free of its slot or an eviction from it), and from the
first such operation on it never resolves again, also when later allocations reuse the
slot. -/
theorem allocate_handle_lifetime (score : VoiceInfo → Nat) (t : VoiceTable) (v : VoiceInfo)
    (hne : (t.allocate score v).1 ≠ VoiceHandle.null) :
    ∃ i g, (t.allocate score v).1 = VoiceHandle.voice i g ∧
      ∀ ops, ((t.allocate score v).2.runOps score ops).resolve (t.allocate score v).1 =
        if freedDuring score i (t.allocate score v).2 ops = true then none else some i := by
  obtain ⟨i, g, hh, hslot⟩ := t.allocate_spec score v hne
  refine ⟨i, g, hh, ?_⟩
  intro ops
  rw [hh]
  exact VoiceTable.resolve_live score i g ops _ _ hslot rfl rfl

/-- Witness of C18 on a table of capacity 2: the first allocation returns the handle of
slot 0 with generation 1; it resolves after a second allocation, and no longer after
its slot has been freed and allocated again (the slot then has generation 3). -/
theorem allocate_handle_lifetime_witness :
    (∃ i g, (emptyTable2.allocate volumeScore ⟨1065353216, false⟩).1 = VoiceHandle.voice i g ∧
      ∀ ops, ((emptyTable2.allocate volumeScore ⟨1065353216, false⟩).2.runOps volumeScore
          ops).resolve (emptyTable2.allocate volumeScore ⟨1065353216, false⟩).1 =
        if freedDuring volumeScore i (emptyTable2.allocate volumeScore ⟨1065353216, false⟩).2
          ops = true then none else some i) ∧
    (emptyTable2.allocate volumeScore ⟨1065353216, false⟩).1 = VoiceHandle.voice 0 1 ∧
    ((emptyTable2.allocate volumeScore ⟨1065353216, false⟩).2.runOps volumeScore
      [TableOp.allocate ⟨1056964608, false⟩]).resolve (VoiceHandle.voice 0 1) = some 0 ∧
    ((emptyTable2.allocate volumeScore ⟨1065353216, false⟩).2.runOps volumeScore
      [TableOp.allocate ⟨1056964608, false⟩, TableOp.free 0,
        TableOp.allocate ⟨1056964608, false⟩]).resolve (VoiceHandle.voice 0 1) = none ∧
    ((emptyTable2.allocate volumeScore ⟨1065353216, false⟩).2.runOps volumeScore
      [TableOp.allocate ⟨1056964608, false⟩, TableOp.free 0,
        TableOp.allocate ⟨1056964608, false⟩]).resolve (VoiceHandle.voice 0 3) = some 0 :=
  ⟨allocate_handle_lifetime volumeScore emptyTable2 ⟨1065353216, false⟩ (by decide),
    by decide, by decide, by decide, by decide⟩

theorem firstFreeFrom_eq_none (l : List VoiceSlot) (k : Nat)
    (h : ∀ s ∈ l, s.voice.isSome = true) : firstFreeFrom l k = none := by
  induction l generalizing k with
  | nil => rfl
  | cons s rest ih =>
    unfold firstFreeFrom
    have hs : s.voice.isSome = true := h s (List.mem_cons_self s rest)
    have hn : ¬ s.voice.isNone = true := by
      cases hv : s.voice with
      | none => simp [hv] at hs
      | some x => simp
    rw [if_neg hn]
    exact ih (k + 1) (fun x hx => h x (List.mem_cons_of_mem s hx))

theorem victimFrom_eq_none (score : VoiceInfo → Nat) (l : List VoiceSlot) (k : Nat)
    (h : ∀ s ∈ l, ∀ x, s.voice = some x → x.isProtected = true) :
    victimFrom score l k = none := by
  induction l generalizing k with
  | nil => rfl
  | cons s rest ih =>
    unfold victimFrom
    have hrest := ih (k + 1) (fun x hx => h x (List.mem_cons_of_mem s hx))
    cases hv : s.voice with
    | none => simpa using hrest
    | some x =>
      have hp := h s (List.mem_cons_self s rest) x hv
      simp only [hp, if_true]
      exact hrest

/-- C20. In the voice table of the spec, when no slot is free: if every voice is
protected, allocate returns the null handle and leaves the table as it is; if some voice
is not protected, allocate succeeds, the voice it evicts is an unprotected one that is
least audible among the unprotected ones, the new voice occupies that slot, every other
slot is as before, so the handles of the other voices resolve as they did, and the
handle of the evicted voice no longer resolves. -/
theorem allocate_full_table (score : VoiceInfo → Nat) (t : VoiceTable) (v : VoiceInfo)
    (hfull : ∀ s ∈ t.slots, s.voice.isSome = true) :
    ((∀ s ∈ t.slots, ∀ x, s.voice = some x → x.isProtected = true) →
      t.allocate score v = (VoiceHandle.null, t)) ∧
    ((∃ s ∈ t.slots, ∃ x, s.voice = some x ∧ x.isProtected = false) →
      ∃ j sj vj, t.slots[j]? = some sj ∧ sj.voice = some vj ∧ vj.isProtected = false ∧
        (∀ s ∈ t.slots, ∀ x, s.voice = some x → x.isProtected = false →
          score vj ≤ score x) ∧
        (t.allocate score v).1 = VoiceHandle.voice j (sj.generation + 2) ∧
        (t.allocate score v).2.slots[j]? =
          some { generation := sj.generation + 2, voice := some v } ∧
        (∀ i, i ≠ j → (t.allocate score v).2.slots[i]? = t.slots[i]?) ∧
        t.resolve (VoiceHandle.voice j sj.generation) = some j ∧
        (t.allocate score v).2.resolve (VoiceHandle.voice j sj.generation) = none ∧
        (∀ i g, i ≠ j → (t.allocate score v).2.resolve (VoiceHandle.voice i g) =
          t.resolve (VoiceHandle.voice i g))) := by
  have hf := firstFreeFrom_eq_none t.slots 0 hfull
  refine ⟨?_, ?_⟩
  · intro hprot
    simp [VoiceTable.allocate, hf, victimFrom_eq_none score t.slots 0 hprot]
  · rintro ⟨s0, hs0, x0, hx0, hp0⟩
    cases hv : victimFrom score t.slots 0 with
    | none =>
      have := victimFrom_none score t.slots 0 hv s0 hs0 x0 hx0
      rw [this] at hp0
      cases hp0
    | some r =>
      obtain ⟨j, sc⟩ := r
      obtain ⟨_, ⟨sj, vj, hget, hvj, hpj, hsc⟩, hmin⟩ := victimFrom_some score t.slots 0 j sc hv
      rw [Nat.sub_zero] at hget
      have halloc : t.allocate score v = (t.free j).place j v := by
        simp [VoiceTable.allocate, hf, hv]
      have hfree : (t.free j).slots[j]? =
          some { generation := sj.generation + 1, voice := none } := by
        rw [VoiceTable.free_getElem?]
        simp [hget]
      obtain ⟨h1, h2⟩ := (t.free j).place_spec j v _ hfree
      have hother : ∀ i, i ≠ j → (t.allocate score v).2.slots[i]? = t.slots[i]? := by
        intro i hij
        rw [halloc, VoiceTable.place_getElem?, if_neg hij, VoiceTable.free_getElem?,
          if_neg hij]
      refine ⟨j, sj, vj, hget, hvj, hpj, ?_, ?_, ?_, hother, ?_, ?_, ?_⟩
      · intro s hs x hx hp
        rw [hsc]
        exact hmin s hs x hx hp
      · rw [halloc, h1]
      · rw [halloc, h2]
      · simp [VoiceTable.resolve, hget, hvj]
      · rw [halloc]
        simp [VoiceTable.resolve, h2]
        omega
      · intro i g hij
        simp only [VoiceTable.resolve, hother i hij]

/-- Witness of C20, the end-to-end scenario: on a table of capacity 2 voice A (volume
1.0) gets slot 0 and voice B (volume 0.5) slot 1, neither protected; allocating voice C
evicts B, C gets slot 1, the handle of A still resolves to slot 0 and the handle of B no
longer resolves; with A and B protected the allocation returns the null handle. -/
theorem allocate_full_table_witness :
    (∃ j sj vj, ((emptyTable2.allocate volumeScore ⟨1065353216, false⟩).2.allocate volumeScore
          ⟨1056964608, false⟩).2.slots[j]? = some sj ∧ sj.voice = some vj ∧
        (((emptyTable2.allocate volumeScore ⟨1065353216, false⟩).2.allocate volumeScore
          ⟨1056964608, false⟩).2.allocate volumeScore ⟨1061158912, false⟩).1 =
          VoiceHandle.voice j (sj.generation + 2)) ∧
    (emptyTable2.allocate volumeScore ⟨1065353216, false⟩).1 = VoiceHandle.voice 0 1 ∧
    ((emptyTable2.allocate volumeScore ⟨1065353216, false⟩).2.allocate volumeScore
      ⟨1056964608, false⟩).1 = VoiceHandle.voice 1 1 ∧
    (((emptyTable2.allocate volumeScore ⟨1065353216, false⟩).2.allocate volumeScore
      ⟨1056964608, false⟩).2.allocate volumeScore ⟨1061158912, false⟩).1 =
      VoiceHandle.voice 1 3 ∧
    (((emptyTable2.allocate volumeScore ⟨1065353216, false⟩).2.allocate volumeScore
      ⟨1056964608, false⟩).2.allocate volumeScore ⟨1061158912, false⟩).2.slots =
      [{ generation := 1, voice := some ⟨1065353216, false⟩ },
        { generation := 3, voice := some ⟨1061158912, false⟩ }] ∧
    (((emptyTable2.allocate volumeScore ⟨1065353216, false⟩).2.allocate volumeScore
      ⟨1056964608, false⟩).2.allocate volumeScore ⟨1061158912, false⟩).2.resolve
      (VoiceHandle.voice 0 1) = some 0 ∧
    (((emptyTable2.allocate volumeScore ⟨1065353216, false⟩).2.allocate volumeScore
      ⟨1056964608, false⟩).2.allocate volumeScore ⟨1061158912, false⟩).2.resolve
      (VoiceHandle.voice 1 1) = none ∧
    ((emptyTable2.allocate volumeScore ⟨1065353216, true⟩).2.allocate volumeScore
      ⟨1056964608, true⟩).2.allocate volumeScore ⟨1061158912, false⟩ =
      (VoiceHandle.null, ((emptyTable2.allocate volumeScore ⟨1065353216, true⟩).2.allocate
        volumeScore ⟨1056964608, true⟩).2) :=
  ⟨by
      obtain ⟨j, sj, vj, h1, h2, _, _, h5, _⟩ := (allocate_full_table volumeScore
        ((emptyTable2.allocate volumeScore ⟨1065353216, false⟩).2.allocate volumeScore
          ⟨1056964608, false⟩).2 ⟨1061158912, false⟩ (by decide)).2
        ⟨{ generation := 1, voice := some ⟨1056964608, false⟩ }, by decide,
          ⟨1056964608, false⟩, rfl, rfl⟩
      exact ⟨j, sj, vj, h1, h2, h5⟩,
    by decide, by decide, by decide, by decide, by decide, by decide, by decide⟩

/-! ## The fader of the spec -/

/-- C19. In the fader of the spec: a fader activated with start 0, target 1 and duration
2 yields 0 when queried at elapsed 0, 1/2 at elapsed 1, and 1 at every elapsed time of 2
or more, where it becomes inactive; in general a fader activated with start `s`, target
`t` and duration `d` yields `s + (t - s) * (e / d)` and stays active when queried at an
elapsed time `e` below `d`, and yields `t` and becomes inactive at `e` from `d` on (at
once for a zero duration), after which every query yields `t`. -/
theorem fader_interpolates (s t d e : ℚ) :
    ((TimedFader.activate 0 1 2).query 0).1 = 0 ∧
    ((TimedFader.activate 0 1 2).query 1).1 = 1 / 2 ∧
    (2 ≤ e → ((TimedFader.activate 0 1 2).query e).1 = 1 ∧
      ((TimedFader.activate 0 1 2).query e).2.active = false) ∧
    (e < d → ((TimedFader.activate s t d).query e).1 = s + (t - s) * (e / d) ∧
      ((TimedFader.activate s t d).query e).2.active = true) ∧
    (d ≤ e → ((TimedFader.activate s t d).query e).1 = t ∧
      ((TimedFader.activate s t d).query e).2.active = false ∧
      ∀ e1, (((TimedFader.activate s t d).query e).2.query e1).1 = t) ∧
    (0 ≤ e → ((TimedFader.activate s t 0).query e).1 = t) := by
  refine ⟨?_, ?_, ?_, ?_, ?_, ?_⟩
  · norm_num [TimedFader.activate, TimedFader.query]
  · norm_num [TimedFader.activate, TimedFader.query]
  · intro h
    simp [TimedFader.activate, TimedFader.query, h]
  · intro h
    simp [TimedFader.activate, TimedFader.query, not_le.mpr h]
  · intro h
    simp [TimedFader.activate, TimedFader.query, h]
  · intro h
    simp [TimedFader.activate, TimedFader.query, h]

/-- Witness of C19: the fader from 0 to 1 over 2 seconds queried at 3 seconds yields 1
and is inactive; a fader from 1/4 to 3/4 over 4 seconds queried at 1 second yields
3/8. -/
theorem fader_interpolates_witness :
    (((TimedFader.activate 0 1 2).query 3).1 = 1 ∧
      ((TimedFader.activate 0 1 2).query 3).2.active = false) ∧
    (((TimedFader.activate (1 / 4) (3 / 4) 4).query 1).1 =
        1 / 4 + (3 / 4 - 1 / 4) * (1 / 4) ∧
      ((TimedFader.activate (1 / 4) (3 / 4) 4).query 1).2.active = true) ∧
    (1 / 4 + (3 / 4 - 1 / 4) * (1 / 4) : ℚ) = 3 / 8 :=
  ⟨(fader_interpolates 0 1 2 3).2.2.1 (by norm_num),
    (fader_interpolates (1 / 4) (3 / 4) 4 1).2.2.2.1 (by norm_num), by norm_num⟩

/-! ## setPanAbsolute -/

/-- C22. `setPanAbsolute(h, l, r)` returns, and for every slot the handle resolved to
(every slot the loop ran its body for): afterwards the pan fader of the instance is
inactive, channel volume 0 is `l` and channel volume 1 is `r` (the instance having at
least two channel volumes), every other channel volume is what it was, and every other
member of the instance, among them the stored pan value, the flags and the other two
faders, is unchanged. -/
theorem setPanAbsolute_effect (E : Env) (hE : E.Sound) (h : handle) (l r : SoFloat)
    (w : World) :
    ∃ w1, setPanAbsolute E h l r w = some w1 ∧
      ∀ ch ∈ resolvedSlots (fun (a : World) x => E.getVoiceFromHandle a.eng x)
          (setPanAbsolute_body l r) (handleArray E w.eng h) (callLock w),
        ∃ v0 v1, voiceAt w.eng ch = some v0 ∧ voiceAt w1.eng ch = some v1 ∧
          v1.mPanFader.mActive = 0 ∧
          (2 ≤ v0.mChannelVolume.length →
            v1.mChannelVolume[0]? = some l ∧ v1.mChannelVolume[1]? = some r) ∧
          (∀ i, 2 ≤ i → v1.mChannelVolume[i]? = v0.mChannelVolume[i]?) ∧
          v1.mChannelVolume.length = v0.mChannelVolume.length ∧
          v1.pan = v0.pan ∧ v1.mFlags = v0.mFlags ∧ v1.mVolumeFader = v0.mVolumeFader ∧
          v1.mRelativePlaySpeedFader = v0.mRelativePlaySpeedFader ∧
          v1 = { v0 with mPanFader := v1.mPanFader, mChannelVolume := v1.mChannelVolume } := by
  obtain ⟨w1, hrun, hall⟩ := SlotSetter.run_resolved E hE (.panAbsolute l r) h w
  refine ⟨w1, hrun, ?_⟩
  intro ch hch
  obtain ⟨v0, hv0, hv1⟩ := hall ch hch
  refine ⟨v0, _, hv0, hv1, rfl, ?_, ?_, ?_, rfl, rfl, rfl, rfl, rfl⟩
  · intro hlen
    constructor
    · simp only [SlotSetter.update]
      rw [List.getElem?_set_ne (by decide), List.getElem?_set_self (by omega)]
    · simp only [SlotSetter.update]
      rw [List.getElem?_set_self (by simpa using hlen)]
  · intro i hi
    simp only [SlotSetter.update]
    rw [List.getElem?_set_ne (by omega), List.getElem?_set_ne (by omega)]
  · simp [SlotSetter.update]

/-- Witness of C22 on the sample engine, with the handle `4097` of slot 0, whose pan
fader is active and whose channel volumes are both 1.0: after
`setPanAbsolute(4097, 0.5, 0.25)` the pan fader is inactive and the channel volumes are
0.5 and 0.25. -/
theorem setPanAbsolute_effect_witness :
    (∃ w1, setPanAbsolute specEnv 4097 1056964608 1048576000 sampleWorld = some w1 ∧
      ∃ v0 v1, voiceAt sampleWorld.eng 0 = some v0 ∧ voiceAt w1.eng 0 = some v1 ∧
        v1.mPanFader.mActive = 0 ∧
        (2 ≤ v0.mChannelVolume.length →
          v1.mChannelVolume[0]? = some 1056964608 ∧ v1.mChannelVolume[1]? = some 1048576000) ∧
        (∀ i, 2 ≤ i → v1.mChannelVolume[i]? = v0.mChannelVolume[i]?) ∧
        v1.mChannelVolume.length = v0.mChannelVolume.length ∧
        v1.pan = v0.pan ∧ v1.mFlags = v0.mFlags ∧ v1.mVolumeFader = v0.mVolumeFader ∧
        v1.mRelativePlaySpeedFader = v0.mRelativePlaySpeedFader ∧
        v1 = { v0 with mPanFader := v1.mPanFader, mChannelVolume := v1.mChannelVolume }) ∧
    (setPanAbsolute specEnv 4097 1056964608 1048576000 sampleWorld).map
      (fun w1 => (voiceAt w1.eng 0).map (fun v => (v.mPanFader.mActive, v.mChannelVolume))) =
      some (some (0, [1056964608, 1048576000])) ∧
    (voiceAt sampleWorld.eng 0).map (fun v => (v.mPanFader.mActive, v.mChannelVolume)) =
      some (1, [1065353216, 1065353216]) := by
  obtain ⟨w1, hrun, hall⟩ := setPanAbsolute_effect specEnv specEnv_sound 4097 1056964608
    1048576000 sampleWorld
  exact ⟨⟨w1, hrun, hall 0 (by decide)⟩, by decide, by decide⟩

/-! ## The bound on mMaxActiveVoices -/

theorem setMaxActiveVoiceCount_keeps_bound (E : Env) (n : Nat) (w : World)
    (h1 : 1 ≤ w.eng.mMaxActiveVoices) (h2 : w.eng.mMaxActiveVoices < E.VOICE_COUNT) :
    1 ≤ (setMaxActiveVoiceCount E n w).2.eng.mMaxActiveVoices ∧
      (setMaxActiveVoiceCount E n w).2.eng.mMaxActiveVoices < E.VOICE_COUNT := by
  unfold setMaxActiveVoiceCount
  split
  · exact ⟨h1, h2⟩
  · rename_i hn
    simp only [callUnlock_eng, store_eng]
    show 1 ≤ n ∧ n < E.VOICE_COUNT
    omega

/-- C26. If `1 <= mMaxActiveVoices < VOICE_COUNT` holds of the engine, it holds after
any sequence of calls `setMaxActiveVoiceCount(n)`, for arbitrary arguments `n`, whether
the single calls succeed or fail. -/
theorem setMaxActiveVoiceCount_invariant (E : Env) (ns : List Nat) (w : World)
    (h1 : 1 ≤ w.eng.mMaxActiveVoices) (h2 : w.eng.mMaxActiveVoices < E.VOICE_COUNT) :
    1 ≤ (ns.foldl (fun a n => (setMaxActiveVoiceCount E n a).2) w).eng.mMaxActiveVoices ∧
      (ns.foldl (fun a n => (setMaxActiveVoiceCount E n a).2) w).eng.mMaxActiveVoices <
        E.VOICE_COUNT := by
  induction ns generalizing w with
  | nil => exact ⟨h1, h2⟩
  | cons n rest ih =>
    obtain ⟨k1, k2⟩ := setMaxActiveVoiceCount_keeps_bound E n w h1 h2
    exact ih _ k1 k2

/-- Witness of C26 on the sample engine (`mMaxActiveVoices = 8`, `VOICE_COUNT = 16`):
after the calls with 0, 4, 16, 4000000000 and 15, of which the second and the last
succeed, `mMaxActiveVoices` is 15. -/
theorem setMaxActiveVoiceCount_invariant_witness :
    (1 ≤ ([0, 4, 16, 4000000000, 15].foldl
        (fun a n => (setMaxActiveVoiceCount specEnv n a).2) sampleWorld).eng.mMaxActiveVoices ∧
      ([0, 4, 16, 4000000000, 15].foldl
        (fun a n => (setMaxActiveVoiceCount specEnv n a).2) sampleWorld).eng.mMaxActiveVoices <
        specEnv.VOICE_COUNT) ∧
    ([0, 4, 16, 4000000000, 15].foldl
      (fun a n => (setMaxActiveVoiceCount specEnv n a).2) sampleWorld).eng.mMaxActiveVoices = 15 ∧
    [0, 4, 16, 4000000000, 15].map (fun n => (setMaxActiveVoiceCount specEnv n sampleWorld).1) =
      [INVALID_PARAMETER, SO_NO_ERROR, INVALID_PARAMETER, INVALID_PARAMETER, SO_NO_ERROR] :=
  ⟨setMaxActiveVoiceCount_invariant specEnv [0, 4, 16, 4000000000, 15] sampleWorld
    (by decide) (by decide), by decide, by decide⟩

/-! ## The 3D voice iteration -/

theorem slot3d_eq (h : handle) : slot3d h = ((h % 4096 : Nat) : Int) - 1 := by
  have hand : h &&& 4095 = h % 4096 := Nat.and_pow_two_sub_one_eq_mod h 12
  unfold slot3d toSigned
  rw [hand]
  have hlt : h % 4096 < 4096 := Nat.mod_lt _ (by decide)
  split <;> omega

/-- C23. In the 3D voice iteration a non-zero handle `h` addresses the slot
`ch = (h & 0xfff) - 1`, which is the low 12 bits of `h` minus one and lies between `-1`
and `4094`. When `ch` is `-1` the loop goes on to the next handle without running the
body; when the handle recorded in `m3dData[ch]` is not exactly `h` (for example that of
another generation of the slot) it does the same; and when the handle recorded there is
`h`, it runs the body for `ch` and then goes on. -/
theorem forAllVoices3d_selects {α : Type} (m3dData : α → List handle)
    (body : Int → α → Option α) (h : handle) (rest : List handle) (a : α) (hh : h ≠ 0) :
    slot3d h = ((h % 4096 : Nat) : Int) - 1 ∧ -1 ≤ slot3d h ∧ slot3d h ≤ 4094 ∧
    (slot3d h = -1 →
      forAllVoices3d m3dData body (h :: rest) a = forAllVoices3d m3dData body rest a) ∧
    (∀ recorded, slot3d h ≠ -1 → (m3dData a)[(slot3d h).toNat]? = some recorded →
      recorded ≠ h →
      forAllVoices3d m3dData body (h :: rest) a = forAllVoices3d m3dData body rest a) ∧
    (slot3d h ≠ -1 → (m3dData a)[(slot3d h).toNat]? = some h →
      forAllVoices3d m3dData body (h :: rest) a =
        (body (slot3d h) a).bind (forAllVoices3d m3dData body rest)) := by
  have hlt : h % 4096 < 4096 := Nat.mod_lt _ (by decide)
  refine ⟨slot3d_eq h, by rw [slot3d_eq]; omega, by rw [slot3d_eq]; omega, ?_, ?_, ?_⟩
  · intro hs
    simp [forAllVoices3d, hh, hs]
  · intro recorded hs hrec hne
    simp [forAllVoices3d, hh, hs, hrec, hne]
  · intro hs hrec
    simp only [forAllVoices3d, hh, hs, hrec, if_true, if_false, ne_eq, not_false_eq_true]
    cases body (slot3d h) a <;> rfl

/-- Witness of C23 on the sample engine, whose `m3dData` records handle `4097` for slot
0: the 3D iteration over the array of the stale handle `28673` (slot 0, another
generation) leaves the world as it is, the one over the array of `4097` runs the body
(here that of `setDelaySamples(512)`) for slot 0, and the handle `4096`, whose low 12
bits are zero, addresses slot `-1`. -/
theorem forAllVoices3d_selects_witness :
    (slot3d 28673 = ((28673 % 4096 : Nat) : Int) - 1 ∧ -1 ≤ slot3d 28673 ∧
      slot3d 28673 ≤ 4094 ∧
      (slot3d 28673 = -1 →
        forAllVoices3d (fun (a : World) => a.eng.m3dData) (setDelaySamples_body 512)
            (28673 :: [0]) sampleWorld =
          forAllVoices3d (fun (a : World) => a.eng.m3dData) (setDelaySamples_body 512)
            [0] sampleWorld) ∧
      (∀ recorded, slot3d 28673 ≠ -1 →
        ((fun (a : World) => a.eng.m3dData) sampleWorld)[(slot3d 28673).toNat]? =
          some recorded →
        recorded ≠ 28673 →
        forAllVoices3d (fun (a : World) => a.eng.m3dData) (setDelaySamples_body 512)
            (28673 :: [0]) sampleWorld =
          forAllVoices3d (fun (a : World) => a.eng.m3dData) (setDelaySamples_body 512)
            [0] sampleWorld) ∧
      (slot3d 28673 ≠ -1 →
        ((fun (a : World) => a.eng.m3dData) sampleWorld)[(slot3d 28673).toNat]? =
          some 28673 →
        forAllVoices3d (fun (a : World) => a.eng.m3dData) (setDelaySamples_body 512)
            (28673 :: [0]) sampleWorld =
          (setDelaySamples_body 512 (slot3d 28673) sampleWorld).bind
            (forAllVoices3d (fun (a : World) => a.eng.m3dData) (setDelaySamples_body 512)
              [0]))) ∧
    slot3d 28673 = 0 ∧ slot3d 4097 = 0 ∧ slot3d 4096 = -1 ∧ slot3d 4095 = 4094 ∧
    FOR_ALL_VOICES_3D specEnv 28673 (setDelaySamples_body 512) sampleWorld = some sampleWorld ∧
    (FOR_ALL_VOICES_3D specEnv 4097 (setDelaySamples_body 512) sampleWorld).map
      (fun w1 => (voiceAt w1.eng 0).map (fun v => v.mDelaySamples)) = some (some 512) ∧
    FOR_ALL_VOICES_3D specEnv 4096 (setDelaySamples_body 512) sampleWorld = some sampleWorld :=
  ⟨forAllVoices3d_selects (fun (a : World) => a.eng.m3dData) (setDelaySamples_body 512)
    28673 [0] sampleWorld (by decide), by decide, by decide, by decide, by decide, by decide,
    by decide, by decide⟩

/-! ## The calls of the lock callbacks -/

theorem lockedOnce_of_storesOnly (w a1 : World) (hl : w.eng.mLockMutexFunc = true)
    (hu : w.eng.mUnlockMutexFunc = true) (hs : StoresOnly (callLock w) a1) :
    LockedOnce w (callUnlock a1) := by
  obtain ⟨_, hu1, k, ht⟩ := hs
  rw [callLock_eng] at hu1
  refine ⟨k, ?_⟩
  rw [callUnlock_trace a1 (hu1.trans hu), ht, callLock_trace w hl]
  simp

theorem lockedOnce_counts (w w1 : World) (h : LockedOnce w w1) :
    ∃ evs, w1.trace = w.trace ++ evs ∧ evs.count Event.lock = 1 ∧
      evs.count Event.unlock = 1 ∧ evs.head? = some Event.lock ∧
      evs.getLast? = some Event.unlock := by
  obtain ⟨k, hk⟩ := h
  refine ⟨_, hk, ?_, ?_, rfl, ?_⟩
  · simp [List.count_cons, List.count_replicate]
  · simp [List.count_cons, List.count_replicate]
  · rw [← List.cons_append, List.getLast?_append]
    rfl

theorem FOR_ALL_VOICES_lockedOnce (E : Env) (hE : E.Sound)
    (body : Int → World → Option World)
    (hbody : ∀ ch a, (voiceAt a.eng ch).isSome = true →
      ∃ a1, body ch a = some a1 ∧ StoresOnly a a1)
    (h : handle) (w : World) (hl : w.eng.mLockMutexFunc = true)
    (hu : w.eng.mUnlockMutexFunc = true) :
    ∃ w1, FOR_ALL_VOICES E h body w = some w1 ∧ LockedOnce w w1 := by
  obtain ⟨a1, hrun, hP⟩ := forAllVoices_invariant
    (fun (a : World) x => E.getVoiceFromHandle a.eng x) body (fun a => StoresOnly (callLock w) a)
    (fun a x hPa hr => by
      obtain ⟨a1, hb, hs⟩ := hbody _ a (hE.resolve_occupied a.eng x hr)
      exact ⟨a1, hb, hPa.trans hs⟩)
    (handleArray E (callLock w).eng h) (handleArray_terminated E hE _ h) (callLock w)
    (StoresOnly.refl _)
  exact ⟨callUnlock a1, by simp only [FOR_ALL_VOICES, hrun],
    lockedOnce_of_storesOnly w a1 hl hu hP⟩

theorem setRelativePlaySpeed_lockedOnce (E : Env) (hE : E.Sound) (hK : E.KeepsCallbacks)
    (h : handle) (s : SoFloat) (w : World) (hl : w.eng.mLockMutexFunc = true)
    (hu : w.eng.mUnlockMutexFunc = true) :
    ∃ r w1, setRelativePlaySpeed E h s w = some (r, w1) ∧ LockedOnce w w1 := by
  obtain ⟨a1, hrun, hP⟩ := forAllVoices_invariant
    (fun (a : result × World) x => E.getVoiceFromHandle a.2.eng x)
    (setRelativePlaySpeed_body E s) (fun a => StoresOnly (callLock w) a.2)
    (fun a x hPa hr => by
      obtain ⟨a1, h1, hs1, _⟩ := storeVoice_storesOnly (E.getVoiceFromHandle a.2.eng x)
        (fun v => { v with mRelativePlaySpeedFader :=
          { v.mRelativePlaySpeedFader with mActive := 0 } }) a.2
        (hE.resolve_occupied a.2.eng x hr)
      exact ⟨_, by unfold setRelativePlaySpeed_body; rw [h1],
        hPa.trans (hs1.trans (storesOnly_store _ a1 (hK.speed _ _ _)))⟩)
    (handleArray E (callLock w).eng h) (handleArray_terminated E hE _ h)
    ((0 : result), callLock w) (StoresOnly.refl _)
  exact ⟨a1.1, callUnlock a1.2, by simp only [setRelativePlaySpeed, hrun],
    lockedOnce_of_storesOnly w a1.2 hl hu hP⟩

/-- C25. With both lock callbacks installed, for every handle (null, stale, single or
group) each of the ten handle-based setters returns, and so does `setPauseAll`, having
added to the trace one call of the lock callback, then stores only, then one call of the
unlock callback: the lock callback is called exactly once, before anything else, and the
unlock callback exactly once, after everything else. `setMaxActiveVoiceCount(n)` does the
same when it succeeds, and on its `INVALID_PARAMETER` path (`n` zero or at least
`VOICE_COUNT`) returns the world as it was, having called neither. The lookups of the
voice iteration are made on the world after the lock call; the per-voice setters outside
this file are taken to leave the two callbacks installed. -/
theorem setters_lock_once (E : Env) (hE : E.Sound) (hK : E.KeepsCallbacks) (w : World)
    (hl : w.eng.mLockMutexFunc = true) (hu : w.eng.mUnlockMutexFunc = true) (h : handle) :
    (∀ x, ∃ w1, setVolume E h x w = some w1 ∧ LockedOnce w w1) ∧
    (∀ x, ∃ w1, setPan E h x w = some w1 ∧ LockedOnce w w1) ∧
    (∀ l r, ∃ w1, setPanAbsolute E h l r w = some w1 ∧ LockedOnce w w1) ∧
    (∀ x, ∃ r w1, setRelativePlaySpeed E h x w = some (r, w1) ∧ LockedOnce w w1) ∧
    (∀ x, ∃ w1, setSamplerate E h x w = some w1 ∧ LockedOnce w w1) ∧
    (∀ b, ∃ w1, setPause E h b w = some w1 ∧ LockedOnce w w1) ∧
    (∀ b, ∃ w1, setProtectVoice E h b w = some w1 ∧ LockedOnce w w1) ∧
    (∀ b, ∃ w1, setLooping E h b w = some w1 ∧ LockedOnce w w1) ∧
    (∀ t k, ∃ w1, setInaudibleBehavior E h t k w = some w1 ∧ LockedOnce w w1) ∧
    (∀ n, ∃ w1, setDelaySamples E h n w = some w1 ∧ LockedOnce w w1) ∧
    (∀ b, LockedOnce w (setPauseAll E b w)) ∧
    (∀ n, (n = 0 ∨ n ≥ E.VOICE_COUNT) →
      setMaxActiveVoiceCount E n w = (INVALID_PARAMETER, w)) ∧
    (∀ n, ¬ (n = 0 ∨ n ≥ E.VOICE_COUNT) →
      (setMaxActiveVoiceCount E n w).1 = SO_NO_ERROR ∧
        LockedOnce w (setMaxActiveVoiceCount E n w).2) ∧
    (∀ w1, LockedOnce w w1 →
      ∃ evs, w1.trace = w.trace ++ evs ∧ evs.count Event.lock = 1 ∧
        evs.count Event.unlock = 1 ∧ evs.head? = some Event.lock ∧
        evs.getLast? = some Event.unlock) := by
  refine ⟨?_, ?_, ?_, ?_, ?_, ?_, ?_, ?_, ?_, ?_, ?_, ?_, ?_, ?_⟩
  · exact fun x => FOR_ALL_VOICES_lockedOnce E hE _ (setVolume_body_storesOnly E hK x) h w hl hu
  · exact fun x => FOR_ALL_VOICES_lockedOnce E hE _
      (fun ch a _ => ⟨_, rfl, storesOnly_store _ a (hK.pan _ _ _)⟩) h w hl hu
  · exact fun l r => FOR_ALL_VOICES_lockedOnce E hE _ (setPanAbsolute_body_storesOnly l r)
      h w hl hu
  · exact fun x => setRelativePlaySpeed_lockedOnce E hE hK h x w hl hu
  · exact fun x => FOR_ALL_VOICES_lockedOnce E hE _ (setSamplerate_body_storesOnly E x)
      h w hl hu
  · exact fun b => FOR_ALL_VOICES_lockedOnce E hE _
      (fun ch a _ => ⟨_, rfl, storesOnly_store _ a (hK.pause _ _ _)⟩) h w hl hu
  · exact fun b => FOR_ALL_VOICES_lockedOnce E hE _ (setProtectVoice_body_storesOnly E b)
      h w hl hu
  · exact fun b => FOR_ALL_VOICES_lockedOnce E hE _ (setLooping_body_storesOnly E b) h w hl hu
  · exact fun t k => FOR_ALL_VOICES_lockedOnce E hE _
      (setInaudibleBehavior_body_storesOnly E t k) h w hl hu
  · exact fun n => FOR_ALL_VOICES_lockedOnce E hE _ (setDelaySamples_body_storesOnly n)
      h w hl hu
  · exact fun b => lockedOnce_of_storesOnly w _ hl hu (setPauseAll_loop_storesOnly E hK b _ _ _)
  · intro n hn
    simp [setMaxActiveVoiceCount, hn]
  · intro n hn
    have hrun : setMaxActiveVoiceCount E n w = (SO_NO_ERROR,
        callUnlock (store (fun e => { e with mMaxActiveVoices := n }) (callLock w))) := by
      unfold setMaxActiveVoiceCount
      rw [if_neg hn]
    rw [hrun]
    exact ⟨rfl, lockedOnce_of_storesOnly w _ hl hu (storesOnly_store _ _ ⟨rfl, rfl⟩)⟩
  · exact fun w1 h1 => lockedOnce_counts w w1 h1

/-- Witness of C25 on the sample engine, both callbacks installed: with the group handle
`4294963200`, `setVolume` records lock, four stores, unlock; with the null handle and with
the stale handle `28673`, `setLooping` records lock, unlock; `setPauseAll` records lock,
two stores, unlock; `setMaxActiveVoiceCount(4)` records lock, one store, unlock, and
`setMaxActiveVoiceCount(16)` records nothing. -/
theorem setters_lock_once_witness :
    (∃ w1, setVolume specEnv 4294963200 1056964608 sampleWorld = some w1 ∧
      LockedOnce sampleWorld w1) ∧
    LockedOnce sampleWorld (setPauseAll specEnv true sampleWorld) ∧
    setMaxActiveVoiceCount specEnv 16 sampleWorld = (INVALID_PARAMETER, sampleWorld) ∧
    ((setMaxActiveVoiceCount specEnv 4 sampleWorld).1 = SO_NO_ERROR ∧
      LockedOnce sampleWorld (setMaxActiveVoiceCount specEnv 4 sampleWorld).2) ∧
    (setVolume specEnv 4294963200 1056964608 sampleWorld).map World.trace =
      some [Event.lock, Event.write, Event.write, Event.write, Event.write, Event.unlock] ∧
    (setLooping specEnv 0 true sampleWorld).map World.trace =
      some [Event.lock, Event.unlock] ∧
    (setLooping specEnv 28673 true sampleWorld).map World.trace =
      some [Event.lock, Event.unlock] ∧
    (setPauseAll specEnv true sampleWorld).trace =
      [Event.lock, Event.write, Event.write, Event.unlock] ∧
    (setMaxActiveVoiceCount specEnv 4 sampleWorld).2.trace =
      [Event.lock, Event.write, Event.unlock] :=
  have t := setters_lock_once specEnv specEnv_sound specEnv_keepsCallbacks sampleWorld rfl rfl
    4294963200
  ⟨t.1 _, t.2.2.2.2.2.2.2.2.2.2.1 _, t.2.2.2.2.2.2.2.2.2.2.2.1 16 (by decide),
    t.2.2.2.2.2.2.2.2.2.2.2.2.1 4 (by decide), by decide, by decide, by decide, by decide,
    by decide⟩

/-! ## The result of setRelativePlaySpeed -/

theorem setRelativePlaySpeed_loop_result (E : Env) (s : SoFloat) (hs : List handle)
    (a a1 : result × World)
    (hrun : forAllVoices (fun (a : result × World) h => E.getVoiceFromHandle a.2.eng h)
      (setRelativePlaySpeed_body E s) hs a = some a1) :
    a1.1 = (speedSetterResults E s hs a.2).getLastD a.1 := by
  induction hs generalizing a with
  | nil => simp [forAllVoices] at hrun
  | cons h rest ih =>
    by_cases h0 : h = 0
    · simp only [forAllVoices, h0, if_true, Option.some.injEq] at hrun
      subst hrun
      simp [speedSetterResults, h0]
    · by_cases hr : E.getVoiceFromHandle a.2.eng h = -1
      · simp only [forAllVoices, h0, hr, if_false, ne_eq, not_true_eq_false] at hrun
        rw [ih a hrun]
        simp [speedSetterResults, h0, hr]
      · have hb : setRelativePlaySpeed_body E s (E.getVoiceFromHandle a.2.eng h) (0, a.2) =
            setRelativePlaySpeed_body E s (E.getVoiceFromHandle a.2.eng h) a := rfl
        cases hbody : setRelativePlaySpeed_body E s (E.getVoiceFromHandle a.2.eng h) a with
        | none => simp [forAllVoices, h0, hr, hbody] at hrun
        | some a2 =>
          simp only [forAllVoices, h0, hr, hbody, if_false, ne_eq, not_false_eq_true,
            if_true] at hrun
          have hlist : speedSetterResults E s (h :: rest) a.2 =
              a2.1 :: speedSetterResults E s rest a2.2 := by
            simp [speedSetterResults, h0, hr, hb, hbody]
          rw [ih a2 hrun, hlist, List.getLastD_cons]

/-- C27. `setRelativePlaySpeed(h, s)` returns, and the value it returns is the last of
the results `setVoiceRelativePlaySpeed(ch, s)` gave in the loop, one for each member of
the expanded handle array that resolved, in the order of the array, or `0` when no
member resolved. So the result of an earlier member, an error included, does not reach
the caller once a later member has resolved. -/
theorem setRelativePlaySpeed_result (E : Env) (hE : E.Sound) (h : handle) (s : SoFloat)
    (w : World) :
    ∃ r w1, setRelativePlaySpeed E h s w = some (r, w1) ∧
      r = (speedSetterResults E s (handleArray E w.eng h) (callLock w)).getLastD 0 ∧
      (speedSetterResults E s (handleArray E w.eng h) (callLock w) = [] → r = 0) ∧
      (∀ rs x, speedSetterResults E s (handleArray E w.eng h) (callLock w) = rs ++ [x] →
        r = x) := by
  obtain ⟨a1, hrun, _⟩ := forAllVoices_invariant
    (fun (a : result × World) x => E.getVoiceFromHandle a.2.eng x)
    (setRelativePlaySpeed_body E s) (fun _ => True)
    (fun a x _ hr => by
      obtain ⟨v0, _, hst⟩ := storeVoice_of_occupied (E.getVoiceFromHandle a.2.eng x)
        (fun v => { v with mRelativePlaySpeedFader :=
          { v.mRelativePlaySpeedFader with mActive := 0 } }) a.2
        (hE.resolve_occupied a.2.eng x hr)
      exact ⟨_, by unfold setRelativePlaySpeed_body; rw [hst], trivial⟩)
    (handleArray E (callLock w).eng h) (handleArray_terminated E hE _ h)
    ((0 : result), callLock w) trivial
  have hres := setRelativePlaySpeed_loop_result E s _ _ a1 hrun
  rw [callLock_eng] at hres
  refine ⟨a1.1, callUnlock a1.2, by simp only [setRelativePlaySpeed, hrun], hres, ?_, ?_⟩
  · intro hnil
    rw [hres, hnil]
    rfl
  · intro rs x hlist
    rw [hres, hlist]
    simp

/-- Witness of C27 on the sample engine, with the group handle `4294963200`, whose
members are `4097`, the stale `28673` and `8194`: with the speed `0.0`, which the sample
per-voice setter rejects, the results are `INVALID_PARAMETER` for slot 0 and for slot 1
and the call returns the last; with the speed `2.0` both are `0`; the stale handle
`28673` alone gives no result and the call returns `0`. -/
theorem setRelativePlaySpeed_result_witness :
    (∃ r w1, setRelativePlaySpeed specEnv 4294963200 0 sampleWorld = some (r, w1) ∧
      r = (speedSetterResults specEnv 0 (handleArray specEnv sampleWorld.eng 4294963200)
        (callLock sampleWorld)).getLastD 0 ∧
      (speedSetterResults specEnv 0 (handleArray specEnv sampleWorld.eng 4294963200)
        (callLock sampleWorld) = [] → r = 0) ∧
      (∀ rs x, speedSetterResults specEnv 0 (handleArray specEnv sampleWorld.eng 4294963200)
        (callLock sampleWorld) = rs ++ [x] → r = x)) ∧
    speedSetterResults specEnv 0 (handleArray specEnv sampleWorld.eng 4294963200)
      (callLock sampleWorld) = [INVALID_PARAMETER, INVALID_PARAMETER] ∧
    (setRelativePlaySpeed specEnv 4294963200 0 sampleWorld).map (fun a => a.1) =
      some INVALID_PARAMETER ∧
    speedSetterResults specEnv 1073741824 (handleArray specEnv sampleWorld.eng 4294963200)
      (callLock sampleWorld) = [0, 0] ∧
    speedSetterResults specEnv 1073741824 (handleArray specEnv sampleWorld.eng 28673)
      (callLock sampleWorld) = [] ∧
    (setRelativePlaySpeed specEnv 28673 1073741824 sampleWorld).map (fun a => a.1) = some 0 :=
  ⟨setRelativePlaySpeed_result specEnv specEnv_sound 4294963200 0 sampleWorld, by decide,
    by decide, by decide, by decide, by decide⟩

end SoLoud

/-! # Theorems: tinyflock -/

namespace TinyFlock

/-! ## parse_arguments -/

theorem parse_loop_exit (E : Env) (argc : Nat) (argv : List String) (fuel i : Nat)
    (c : configuration) (reads : List Nat) (hi : ¬ i < argc) :
    parse_loop E argc argv (fuel + 1) i c reads =
      { reads := reads,
        outcome := Outcome.returned 1
          { c with input := { c.input with
              influence_radius :=
                E.sqrtOver5 (c.video.screen_height * c.video.screen_width) } } } := by
  simp [parse_loop, hi]

theorem parse_loop_noentry (E : Env) (argc : Nat) (argv : List String) (fuel i : Nat)
    (c : configuration) (reads : List Nat) (hi : i < argc) (ha : argv[i]? = none) :
    parse_loop E argc argv (fuel + 1) i c reads =
      { reads := reads ++ [i], outcome := Outcome.undefined } := by
  simp [parse_loop, hi, ha]

theorem parse_loop_help (E : Env) (argc : Nat) (argv : List String) (fuel i : Nat)
    (c : configuration) (reads : List Nat) (a : String) (hi : i < argc)
    (ha : argv[i]? = some a) (hh : a = "-h" ∨ a = "--help") :
    parse_loop E argc argv (fuel + 1) i c reads =
      { reads := reads ++ [i], outcome := Outcome.returned print_help c } := by
  simp [parse_loop, hi, ha, hh]

theorem parse_loop_value (E : Env) (argc : Nat) (argv : List String) (fuel i : Nat)
    (c : configuration) (reads : List Nat) (a v : String)
    (assign : configuration → Int → configuration) (hi : i < argc)
    (ha : argv[i]? = some a) (hh : ¬ (a = "-h" ∨ a = "--help"))
    (hs : assignment a = some assign) (hv : argv[i + 1]? = some v) :
    parse_loop E argc argv (fuel + 1) i c reads =
      parse_loop E argc argv fuel (i + 2) (assign c (E.atoi v)) (reads ++ [i, i + 1]) := by
  simp [parse_loop, hi, ha, hh, hs, hv]

theorem parse_loop_novalue (E : Env) (argc : Nat) (argv : List String) (fuel i : Nat)
    (c : configuration) (reads : List Nat) (a : String)
    (assign : configuration → Int → configuration) (hi : i < argc)
    (ha : argv[i]? = some a) (hh : ¬ (a = "-h" ∨ a = "--help"))
    (hs : assignment a = some assign) (hv : argv[i + 1]? = none) :
    parse_loop E argc argv (fuel + 1) i c reads =
      { reads := reads ++ [i, i + 1], outcome := Outcome.undefined } := by
  simp [parse_loop, hi, ha, hh, hs, hv]

theorem parse_loop_other (E : Env) (argc : Nat) (argv : List String) (fuel i : Nat)
    (c : configuration) (reads : List Nat) (a : String) (hi : i < argc)
    (ha : argv[i]? = some a) (hh : ¬ (a = "-h" ∨ a = "--help"))
    (hs : assignment a = none) :
    parse_loop E argc argv (fuel + 1) i c reads =
      parse_loop E argc argv fuel (i + 1) c (reads ++ [i]) := by
  simp [parse_loop, hi, ha, hh, hs]

theorem parse_loop_ends (E : Env) (argc : Nat) (argv : List String) (fuel i : Nat)
    (c : configuration) (reads : List Nat) (hf : argc < fuel + i) (h0 : 0 < fuel) :
    (parse_loop E argc argv fuel i c reads).outcome ≠ Outcome.outOfFuel := by
  induction fuel generalizing i c reads with
  | zero => omega
  | succ n ih =>
    by_cases hi : i < argc
    · cases ha : argv[i]? with
      | none =>
        rw [parse_loop_noentry E argc argv n i c reads hi ha]
        exact fun hh => Outcome.noConfusion hh
      | some a =>
        by_cases hh : a = "-h" ∨ a = "--help"
        · rw [parse_loop_help E argc argv n i c reads a hi ha hh]
          exact fun hh => Outcome.noConfusion hh
        · cases hs : assignment a with
          | none =>
            rw [parse_loop_other E argc argv n i c reads a hi ha hh hs]
            exact ih _ _ _ (by omega) (by omega)
          | some assign =>
            cases hv : argv[i + 1]? with
            | none =>
              rw [parse_loop_novalue E argc argv n i c reads a assign hi ha hh hs hv]
              exact fun hh => Outcome.noConfusion hh
            | some v =>
              rw [parse_loop_value E argc argv n i c reads a v assign hi ha hh hs hv]
              exact ih _ _ _ (by omega) (by omega)
    · rw [parse_loop_exit E argc argv n i c reads hi]
      exact fun hh => Outcome.noConfusion hh

theorem parse_loop_radius (E : Env) (argc : Nat) (argv : List String) (fuel i : Nat)
    (c : configuration) (reads : List Nat) (c1 : configuration)
    (hret : (parse_loop E argc argv fuel i c reads).outcome = Outcome.returned 1 c1) :
    c1.input.influence_radius =
      E.sqrtOver5 (c1.video.screen_height * c1.video.screen_width) := by
  induction fuel generalizing i c reads with
  | zero => simp [parse_loop] at hret
  | succ n ih =>
    by_cases hi : i < argc
    · cases ha : argv[i]? with
      | none =>
        rw [parse_loop_noentry E argc argv n i c reads hi ha] at hret
        exact Outcome.noConfusion hret
      | some a =>
        by_cases hh : a = "-h" ∨ a = "--help"
        · rw [parse_loop_help E argc argv n i c reads a hi ha hh] at hret
          simp [print_help] at hret
        · cases hs : assignment a with
          | none =>
            rw [parse_loop_other E argc argv n i c reads a hi ha hh hs] at hret
            exact ih _ _ _ hret
          | some assign =>
            cases hv : argv[i + 1]? with
            | none =>
              rw [parse_loop_novalue E argc argv n i c reads a assign hi ha hh hs hv] at hret
              exact Outcome.noConfusion hret
            | some v =>
              rw [parse_loop_value E argc argv n i c reads a v assign hi ha hh hs hv] at hret
              exact ih _ _ _ hret
    · rw [parse_loop_exit E argc argv n i c reads hi] at hret
      simp only [Outcome.returned.injEq, true_and] at hret
      subst hret
      rfl

/-- C21 does not hold of the code. `parse_arguments` ends, and whenever it returns `1`
the member `config->input.influence_radius` is the value of
`sqrt(screen_height * screen_width) / 5` for the final screen size, whatever the
argument vector holds: the value that `-ir N` or `--influence-radius N` stored in the
loop is overwritten by the assignment after the loop. -/
theorem parse_arguments_influence_radius (E : Env) (argc : Nat) (argv : List String)
    (config : configuration) :
    (parse_arguments E argc argv config).outcome ≠ Outcome.outOfFuel ∧
    ∀ c1, (parse_arguments E argc argv config).outcome = Outcome.returned 1 c1 →
      c1.input.influence_radius =
        E.sqrtOver5 (c1.video.screen_height * c1.video.screen_width) :=
  ⟨parse_loop_ends E argc argv _ _ _ _ (by omega) (by omega),
    fun c1 hret => parse_loop_radius E argc argv _ _ _ _ c1 hret⟩

/-- The failing input of C21 in the sample environment: called with
`tinyflock --width 100 --height 100 -ir 50`, `parse_arguments` reads the entries 1 to 6,
returns `1`, and leaves `influence_radius = 20`, the square root of `100 * 100` divided
by five, not `50`; without `-ir 50` it leaves the same configuration. -/
theorem parse_arguments_influence_radius_witness :
    ((parse_arguments sampleEnv 7
        ["tinyflock", "--width", "100", "--height", "100", "-ir", "50"]
        zeroConfig).outcome ≠ Outcome.outOfFuel ∧
      ∀ c1, (parse_arguments sampleEnv 7
          ["tinyflock", "--width", "100", "--height", "100", "-ir", "50"]
          zeroConfig).outcome = Outcome.returned 1 c1 →
        c1.input.influence_radius =
          sampleEnv.sqrtOver5 (c1.video.screen_height * c1.video.screen_width)) ∧
    parse_arguments sampleEnv 7
        ["tinyflock", "--width", "100", "--height", "100", "-ir", "50"] zeroConfig =
      { reads := [1, 2, 3, 4, 5, 6],
        outcome := Outcome.returned 1
          { num_threads := 2,
            video := { screen_width := 100, screen_height := 100, screen_depth := 32,
                       frames_per_second := 60 },
            input := { influence_radius := 20 },
            flock := { size := 256, max_velocity := 10, min_separation := 20,
                       max_steering_force := 1, neighborhood_radius := 50 } } } ∧
    (parse_arguments sampleEnv 5 ["tinyflock", "--width", "100", "--height", "100"]
        zeroConfig).outcome =
      (parse_arguments sampleEnv 7
        ["tinyflock", "--width", "100", "--height", "100", "-ir", "50"]
        zeroConfig).outcome :=
  ⟨parse_arguments_influence_radius sampleEnv 7
    ["tinyflock", "--width", "100", "--height", "100", "-ir", "50"] zeroConfig,
    by decide, by decide⟩

theorem assignment_not_help (x : String) (hx : (assignment x).isSome = true) :
    ¬ (x = "-h" ∨ x = "--help") := by
  rintro (rfl | rfl) <;> revert hx <;> decide

theorem parse_loop_append (E : Env) (argv : List String) (x : String)
    (assign : configuration → Int → configuration) (hx : assignment x = some assign)
    (c1 : configuration) (fuel i : Nat) (c : configuration) (reads : List Nat)
    (hi : i ≤ argv.length)
    (hret : (parse_loop E argv.length argv fuel i c reads).outcome = Outcome.returned 1 c1) :
    parse_loop E (argv.length + 1) (argv ++ [x]) (fuel + 1) i c reads =
      { reads := (parse_loop E argv.length argv fuel i c reads).reads ++
          [argv.length, argv.length + 1],
        outcome := Outcome.undefined } := by
  have hnh : ¬ (x = "-h" ∨ x = "--help") := assignment_not_help x (by rw [hx]; rfl)
  induction fuel generalizing i c reads with
  | zero => simp [parse_loop] at hret
  | succ n ih =>
    by_cases hlt : i < argv.length
    · have hlt1 : i < argv.length + 1 := by omega
      cases ha : argv[i]? with
      | none =>
        rw [parse_loop_noentry E _ argv n i c reads hlt ha] at hret
        exact Outcome.noConfusion hret
      | some a =>
        have ha1 : (argv ++ [x])[i]? = some a := by
          rw [List.getElem?_append_left hlt]
          exact ha
        by_cases hh : a = "-h" ∨ a = "--help"
        · rw [parse_loop_help E _ argv n i c reads a hlt ha hh] at hret
          simp [print_help] at hret
        · cases hs : assignment a with
          | none =>
            rw [parse_loop_other E _ argv n i c reads a hlt ha hh hs] at hret
            rw [parse_loop_other E _ (argv ++ [x]) (n + 1) i c reads a hlt1 ha1 hh hs,
              parse_loop_other E _ argv n i c reads a hlt ha hh hs]
            exact ih _ _ _ (by omega) hret
          | some f =>
            cases hv : argv[i + 1]? with
            | none =>
              rw [parse_loop_novalue E _ argv n i c reads a f hlt ha hh hs hv] at hret
              exact Outcome.noConfusion hret
            | some v =>
              have hv2 : i + 1 < argv.length := by
                by_contra hcon
                rw [List.getElem?_eq_none (by omega)] at hv
                cases hv
              have hv1 : (argv ++ [x])[i + 1]? = some v := by
                rw [List.getElem?_append_left hv2]
                exact hv
              rw [parse_loop_value E _ argv n i c reads a v f hlt ha hh hs hv] at hret
              rw [parse_loop_value E _ (argv ++ [x]) (n + 1) i c reads a v f hlt1 ha1 hh hs hv1,
                parse_loop_value E _ argv n i c reads a v f hlt ha hh hs hv]
              exact ih _ _ _ (by omega) hret
    · have hieq : i = argv.length := by omega
      subst hieq
      have hx1 : (argv ++ [x])[argv.length]? = some x := by simp
      have hx2 : (argv ++ [x])[argv.length + 1]? = none := by simp
      rw [parse_loop_novalue E _ (argv ++ [x]) (n + 1) argv.length c reads x assign
        (by omega) hx1 hnh hx hx2, parse_loop_exit E _ argv n argv.length c reads hlt]

/-- C28 does not hold of the code. Take any argument vector `argv` (its length `argc`,
the program name first) on which `parse_arguments` returns `1`, and append one of the
options that take a value, such as `--width`: called on the longer vector, of length
`argc + 1`, `parse_arguments` reads what it read before, then the new last entry
`argv[argc]`, and then passes `argv[argc + 1]` to `atoi`, an index that is not below the
length of the vector; the call has no defined result. -/
theorem parse_arguments_reads_past_end (E : Env) (argv : List String) (x : String)
    (config c1 : configuration) (hlen : 1 ≤ argv.length)
    (hx : (assignment x).isSome = true)
    (hret : (parse_arguments E argv.length argv config).outcome = Outcome.returned 1 c1) :
    parse_arguments E (argv.length + 1) (argv ++ [x]) config =
      { reads := (parse_arguments E argv.length argv config).reads ++
          [argv.length, argv.length + 1],
        outcome := Outcome.undefined } := by
  obtain ⟨assign, hs⟩ := Option.isSome_iff_exists.mp hx
  exact parse_loop_append E argv x assign hs c1 _ 1 _ [] hlen hret

/-- The failing input of C28 in the sample environment: called with `tinyflock --width`
(`argc = 2`), `parse_arguments` reads `argv[1]` and then passes `argv[2]` to `atoi`;
called with `tinyflock --width 100` it reads `argv[1]` and `argv[2]` and returns `1`. -/
theorem parse_arguments_reads_past_end_witness :
    parse_arguments sampleEnv (["tinyflock"].length + 1) (["tinyflock"] ++ ["--width"])
        zeroConfig =
      { reads := (parse_arguments sampleEnv ["tinyflock"].length ["tinyflock"]
            zeroConfig).reads ++ [["tinyflock"].length, ["tinyflock"].length + 1],
        outcome := Outcome.undefined } ∧
    parse_arguments sampleEnv 2 ["tinyflock", "--width"] zeroConfig =
      { reads := [1, 2], outcome := Outcome.undefined } ∧
    parse_arguments sampleEnv 3 ["tinyflock", "--width", "100"] zeroConfig =
      { reads := [1, 2],
        outcome := Outcome.returned 1
          { num_threads := 2,
            video := { screen_width := 100, screen_height := 480, screen_depth := 32,
                       frames_per_second := 60 },
            input := { influence_radius := 43 },
            flock := { size := 256, max_velocity := 10, min_separation := 20,
                       max_steering_force := 1, neighborhood_radius := 50 } } } :=
  ⟨parse_arguments_reads_past_end sampleEnv ["tinyflock"] "--width" zeroConfig
    { num_threads := 2,
      video := { screen_width := 640, screen_height := 480, screen_depth := 32,
                 frames_per_second := 60 },
      input := { influence_radius := 110 },
      flock := { size := 256, max_velocity := 10, min_separation := 20,
                 max_steering_force := 1, neighborhood_radius := 50 } }
    (by decide) (by decide) (by decide), by decide, by decide⟩

/-! ## avg_fps -/

theorem avg_fps_step (t b0 b1 b2 b3 b4 : Int) (ht : t ≠ 0) :
    avg_fps t [b0, b1, b2, b3, b4] =
      some (Int.tdiv (Int.tdiv 1000000000 t + b0 + b1 + b2 + b3) 5,
        [Int.tdiv 1000000000 t, b0, b1, b2, b3]) := by
  simp [avg_fps, ht, shift_loop, sum_loop, FPS_BUFFER_SIZE]

theorem take_append_take (A B : List Int) (n : Nat) :
    (A ++ B.take n).take n = (A ++ B).take n := by
  rw [List.take_append_eq_append_take, List.take_append_eq_append_take, List.take_take]
  congr 2
  omega

theorem avg_fps_calls_buffer (ts : List Int) (hts : ∀ x ∈ ts, 0 < x) (buf : List Int)
    (hlen : buf.length = 5) :
    ∃ rs, avg_fps_calls ts buf =
      some (rs, ((ts.reverse.map (fun t => Int.tdiv 1000000000 t)) ++ buf).take 5) := by
  induction ts generalizing buf with
  | nil =>
    refine ⟨[], ?_⟩
    simp only [avg_fps_calls, List.reverse_nil, List.map_nil, List.nil_append]
    rw [List.take_of_length_le (by omega)]
  | cons t ts ih =>
    have ht : t ≠ 0 := by
      have := hts t (List.mem_cons_self _ _)
      omega
    match buf, hlen with
    | [b0, b1, b2, b3, b4], _ =>
      obtain ⟨rs, hrs⟩ := ih (fun x hx => hts x (List.mem_cons_of_mem _ hx))
        [Int.tdiv 1000000000 t, b0, b1, b2, b3] rfl
      refine ⟨Int.tdiv (Int.tdiv 1000000000 t + b0 + b1 + b2 + b3) 5 :: rs, ?_⟩
      simp only [avg_fps_calls, avg_fps_step t b0 b1 b2 b3 b4 ht, hrs]
      have h5 : [Int.tdiv 1000000000 t, b0, b1, b2, b3] =
          (Int.tdiv 1000000000 t :: [b0, b1, b2, b3, b4]).take 5 := rfl
      rw [h5, take_append_take]
      simp

/-- C24. Each call `avg_fps(t)` with a non-zero frame time stores `1000000000 / t` at
position 0 of the array, moves the values of positions 0 to 3 to positions 1 to 4,
drops the value of position 4, and returns the sum of the five values now in the array
divided by 5, the division truncating. So after successive calls with positive frame
times `ts`, from the zeroed array, the array holds the five most recent quotients,
newest first, with `0` for calls not yet made, and a further call with a positive `t`
returns their truncated mean together with the quotient of `t`. -/
theorem avg_fps_window (ts : List Int) (t : Int) (hts : ∀ x ∈ ts, 0 < x) (ht : 0 < t) :
    (∀ b0 b1 b2 b3 b4 : Int, avg_fps t [b0, b1, b2, b3, b4] =
      some (Int.tdiv (Int.tdiv 1000000000 t + b0 + b1 + b2 + b3) 5,
        [Int.tdiv 1000000000 t, b0, b1, b2, b3])) ∧
    ∃ rs, avg_fps_calls ts fps_buffer_initial = some (rs, recentRates ts) ∧
      avg_fps t (recentRates ts) =
        some (Int.tdiv (recentRates (ts ++ [t])).sum 5, recentRates (ts ++ [t])) ∧
      recentRates (ts ++ [t]) = Int.tdiv 1000000000 t :: (recentRates ts).take 4 ∧
      Int.tdiv 1000000000 t = 1000000000 / t := by
  have ht0 : t ≠ 0 := by omega
  refine ⟨fun b0 b1 b2 b3 b4 => avg_fps_step t b0 b1 b2 b3 b4 ht0, ?_⟩
  obtain ⟨rs, hrs⟩ := avg_fps_calls_buffer ts hts fps_buffer_initial rfl
  have hrec : recentRates (ts ++ [t]) = Int.tdiv 1000000000 t :: (recentRates ts).take 4 := by
    simp only [recentRates, List.reverse_append, List.reverse_singleton, List.map_append,
      List.map_cons, List.map_nil, List.singleton_append, List.cons_append, List.take_succ_cons,
      List.take_take]
    rfl
  have hlen : (recentRates ts).length = 5 := by
    simp [recentRates, List.length_take]
  refine ⟨rs, hrs, ?_, hrec, ?_⟩
  · rw [hrec]
    match hb : recentRates ts, hlen with
    | [b0, b1, b2, b3, b4], _ =>
      rw [avg_fps_step t b0 b1 b2 b3 b4 ht0]
      simp [add_assoc]
  · exact Int.tdiv_eq_ediv (by decide) (by omega)

/-- Witness of C24: after the calls with the frame times 4, 2 and 1 (in nanoseconds) the
array holds `1000000000`, `500000000`, `250000000`, `0`, `0`, and a further call with
the frame time 3 returns `(333333333 + 1000000000 + 500000000 + 250000000 + 0) / 5`,
which is `416666666`. -/
theorem avg_fps_window_witness :
    ((∀ b0 b1 b2 b3 b4 : Int, avg_fps 3 [b0, b1, b2, b3, b4] =
        some (Int.tdiv (Int.tdiv 1000000000 3 + b0 + b1 + b2 + b3) 5,
          [Int.tdiv 1000000000 3, b0, b1, b2, b3])) ∧
      ∃ rs, avg_fps_calls [4, 2, 1] fps_buffer_initial = some (rs, recentRates [4, 2, 1]) ∧
        avg_fps 3 (recentRates [4, 2, 1]) =
          some (Int.tdiv (recentRates ([4, 2, 1] ++ [3])).sum 5,
            recentRates ([4, 2, 1] ++ [3])) ∧
        recentRates ([4, 2, 1] ++ [3]) =
          Int.tdiv 1000000000 3 :: (recentRates [4, 2, 1]).take 4 ∧
        Int.tdiv 1000000000 3 = 1000000000 / 3) ∧
    avg_fps_calls [4, 2, 1] fps_buffer_initial =
      some ([50000000, 150000000, 350000000], [1000000000, 500000000, 250000000, 0, 0]) ∧
    avg_fps 3 [1000000000, 500000000, 250000000, 0, 0] =
      some (416666666, [333333333, 1000000000, 500000000, 250000000, 0]) :=
  ⟨avg_fps_window [4, 2, 1] 3 (by decide) (by decide), by decide, by decide⟩

end TinyFlock

/-! # Theorems: pybind -/

namespace Pybind

/-! ## The numeric type caster -/

theorem IntType.two_pow_bits (T : IntType) (h0 : 0 < T.sizeof) :
    (2 : Int) ^ T.bits = 2 * 2 ^ (T.bits - 1) := by
  have hb : T.bits = (T.bits - 1) + 1 := by
    unfold IntType.bits
    omega
  conv_lhs => rw [hb]
  rw [pow_succ]
  ring

theorem IntType.convert_of_range (T : IntType) (h0 : 0 < T.sizeof) (x : Int)
    (h1 : T.min ≤ x) (h2 : x ≤ T.max) : T.convert x = x := by
  have hpow := T.two_pow_bits h0
  have hpos : (0 : Int) < 2 ^ (T.bits - 1) := by positivity
  unfold IntType.convert
  unfold IntType.min at h1
  unfold IntType.max at h2
  cases hsg : T.isSigned with
  | true =>
    rw [hsg] at h1 h2
    simp only [if_true] at h1 h2 ⊢
    rw [Int.emod_eq_of_lt (by omega) (by omega)]
    omega
  | false =>
    rw [hsg] at h1 h2
    simp only [Bool.false_eq_true, if_false] at h1 h2 ⊢
    exact Int.emod_eq_of_lt h1 (by omega)

theorem IntType.range_mono (T P : IntType) (hs : T.isSigned = P.isSigned)
    (h0 : 0 < T.sizeof) (hb : T.sizeof < P.sizeof) :
    P.min ≤ T.min ∧ T.max < P.max := by
  have hT := T.two_pow_bits h0
  have hP := P.two_pow_bits (by omega)
  have hle : (2 : Int) ^ T.bits ≤ 2 ^ (P.bits - 1) := by
    apply pow_le_pow_right₀ (by norm_num)
    unfold IntType.bits
    omega
  have hpos : (0 : Int) < 2 ^ (T.bits - 1) := by positivity
  unfold IntType.min IntType.max
  rw [← hs]
  cases T.isSigned
  · simp only [Bool.false_eq_true, if_false]
    constructor <;> omega
  · simp only [if_true]
    constructor <;> omega

theorem load_value {Obj : Type} (T P : IntType) (from_type : Obj → Converted) (src : Obj)
    (value v : Int) (hs : T.isSigned = P.isSigned) (h0 : 0 < T.sizeof)
    (hb : T.sizeof < P.sizeof) (hc : from_type src = Converted.value v) :
    load T P from_type src false value =
      if T.min ≤ v ∧ v ≤ T.max then { ok := true, value := v, errorSet := false }
      else { ok := false, value := value, errorSet := false } := by
  have hr := IntType.range_mono T P hs h0 hb
  have hTle : T.min ≤ T.max := by
    have hpos : (0 : Int) < 2 ^ (T.bits - 1) := by positivity
    have hpos2 : (0 : Int) < 2 ^ T.bits := by positivity
    unfold IntType.min IntType.max
    cases T.isSigned
    · simp only [Bool.false_eq_true, if_false]
      omega
    · simp only [if_true]
      omega
  have hmin : P.convert T.min = T.min :=
    P.convert_of_range (by omega) _ hr.1 (by omega)
  have hmax : P.convert T.max = T.max :=
    P.convert_of_range (by omega) _ (by omega) (by omega)
  have hne : T.sizeof ≠ P.sizeof := by omega
  unfold load
  simp only [hc, hmin, hmax, Bool.false_eq_true, and_false, false_or, ne_eq, hne,
    not_false_eq_true, true_and]
  by_cases hin : T.min ≤ v ∧ v ≤ T.max
  · have h1 : ¬ (v < T.min ∨ v > T.max) := by omega
    rw [if_neg h1, if_pos hin, T.convert_of_range h0 v hin.1 hin.2]
  · have h1 : v < T.min ∨ v > T.max := by omega
    rw [if_pos h1, if_neg hin]

/-- C29. For an integer target type narrower than its carrier type and of the same
signedness (`int8_t`, `int16_t` carried by `long`, `uint8_t`, `uint16_t` by
`unsigned long`), with no Python error pending on entry: `load` returns `true` if and
only if the conversion `from_type(src)` raised no error and the value it gave lies within
the minimum and the maximum of the target type, and then stores exactly that value. And
when `from_type` gives back the value that `to_pytype` was given, casting any value `x`
of the target type and loading the object back succeeds and yields `x`. -/
theorem load_narrow {Obj : Type} (T P : IntType) (from_type : Obj → Converted)
    (to_pytype : Int → Obj) (src : Obj) (value : Int)
    (hs : T.isSigned = P.isSigned) (h0 : 0 < T.sizeof) (hb : T.sizeof < P.sizeof)
    (hapi : ∀ v, P.min ≤ v → v ≤ P.max → from_type (to_pytype v) = Converted.value v) :
    ((load T P from_type src false value).ok = true ↔
      ∃ v, from_type src = Converted.value v ∧ T.min ≤ v ∧ v ≤ T.max) ∧
    (∀ v, from_type src = Converted.value v → T.min ≤ v → v ≤ T.max →
      load T P from_type src false value = { ok := true, value := v, errorSet := false }) ∧
    (∀ x, T.min ≤ x → x ≤ T.max →
      load T P from_type (cast P to_pytype x) false value =
        { ok := true, value := x, errorSet := false }) := by
  have hr := IntType.range_mono T P hs h0 hb
  refine ⟨?_, ?_, ?_⟩
  · cases hc : from_type src with
    | value v =>
      rw [load_value T P from_type src value v hs h0 hb hc]
      by_cases hin : T.min ≤ v ∧ v ≤ T.max
      · rw [if_pos hin]
        exact ⟨fun _ => ⟨v, rfl, hin.1, hin.2⟩, fun _ => rfl⟩
      · rw [if_neg hin]
        constructor
        · intro hf
          cases hf
        · rintro ⟨v1, hv1, h1, h2⟩
          cases hv1
          exact absurd ⟨h1, h2⟩ hin
    | raised =>
      constructor
      · intro hok
        simp [load, hc] at hok
      · rintro ⟨v, hv, _⟩
        cases hv
  · intro v hc h1 h2
    rw [load_value T P from_type src value v hs h0 hb hc, if_pos ⟨h1, h2⟩]
  · intro x h1 h2
    have hx : P.convert x = x := P.convert_of_range (by omega) x (by omega) (by omega)
    have hc : from_type (cast P to_pytype x) = Converted.value x := by
      unfold cast
      rw [hx]
      exact hapi x (by omega) (by omega)
    rw [load_value T P from_type _ value x hs h0 hb hc, if_pos ⟨h1, h2⟩]

/-- Witness of C29 for `int8_t` carried by a `long` of eight bytes, with a Python
integer as the object: loading `-1` gives `true` and `-1`, loading `127` gives `true`,
loading `128` or `-129` gives `false`, loading an integer that does not fit a `long`
(the conversion raises) gives `false`; for `uint16_t` carried by `unsigned long`, loading
`65535` gives `true` and loading `65536` or `-1` gives `false`. -/
theorem load_narrow_witness :
    (((load int8_t long (sampleFromType long) (-1) false 0).ok = true ↔
        ∃ v, sampleFromType long (-1) = Converted.value v ∧ int8_t.min ≤ v ∧ v ≤ int8_t.max) ∧
      (∀ v, sampleFromType long (-1) = Converted.value v → int8_t.min ≤ v → v ≤ int8_t.max →
        load int8_t long (sampleFromType long) (-1) false 0 =
          { ok := true, value := v, errorSet := false }) ∧
      (∀ x, int8_t.min ≤ x → x ≤ int8_t.max →
        load int8_t long (sampleFromType long) (cast long (fun v => v) x) false 0 =
          { ok := true, value := x, errorSet := false })) ∧
    load int8_t long (sampleFromType long) (-1) false 0 =
      { ok := true, value := -1, errorSet := false } ∧
    load int8_t long (sampleFromType long) 127 false 0 =
      { ok := true, value := 127, errorSet := false } ∧
    (load int8_t long (sampleFromType long) 128 false 0).ok = false ∧
    (load int8_t long (sampleFromType long) (-129) false 0).ok = false ∧
    (load int8_t long (sampleFromType long) 9223372036854775808 false 0).ok = false ∧
    load uint16_t unsigned_long (sampleFromType unsigned_long) 65535 false 0 =
      { ok := true, value := 65535, errorSet := false } ∧
    (load uint16_t unsigned_long (sampleFromType unsigned_long) 65536 false 0).ok = false ∧
    (load uint16_t unsigned_long (sampleFromType unsigned_long) (-1) false 0).ok = false :=
  ⟨load_narrow int8_t long (sampleFromType long) (fun v => v) (-1) 0 rfl (by decide)
    (by decide) (fun v h1 h2 => by simp [sampleFromType, h1, h2]),
    by decide, by decide, by decide, by decide, by decide, by decide, by decide, by decide⟩

/-! ## The signature descriptor -/

theorem segment_nil (m : Heap) (p q : Option Nat) : segment m p [] q = true ↔ p = q := by
  simp [segment]

theorem segment_cons (m : Heap) (p q : Option Nat) (a : Nat) (rest : List Nat) :
    segment m p (a :: rest) q = true ↔
      p = some a ∧ ∃ e, m a = some e ∧ segment m e.next rest q = true := by
  cases hm : m a with
  | none => simp [segment, hm]
  | some e => simp [segment, hm]

theorem segment_append (m : Heap) (p q : Option Nat) (as bs : List Nat) :
    segment m p (as ++ bs) q = true ↔
      ∃ x, segment m p as x = true ∧ segment m x bs q = true := by
  induction as generalizing p with
  | nil =>
    constructor
    · intro h
      exact ⟨p, (segment_nil m p p).mpr rfl, h⟩
    · rintro ⟨x, h1, h2⟩
      rw [(segment_nil m p x).mp h1]
      exact h2
  | cons a rest ih =>
    rw [List.cons_append, segment_cons]
    constructor
    · rintro ⟨hp, e, he, hseg⟩
      obtain ⟨x, h1, h2⟩ := (ih e.next).mp hseg
      exact ⟨x, (segment_cons m p x a rest).mpr ⟨hp, e, he, h1⟩, h2⟩
    · rintro ⟨x, h1, h2⟩
      obtain ⟨hp, e, he, hseg⟩ := (segment_cons m p x a rest).mp h1
      exact ⟨hp, e, he, (ih e.next).mpr ⟨x, hseg, h2⟩⟩

theorem segment_congr (m m1 : Heap) (p q : Option Nat) (as : List Nat)
    (hsame : ∀ a ∈ as, m1 a = m a) : segment m1 p as q = segment m p as q := by
  induction as generalizing p with
  | nil => rfl
  | cons a rest ih =>
    have ha : m1 a = m a := hsame a (List.mem_cons_self _ _)
    have hrest : ∀ p1, segment m1 p1 rest q = segment m p1 rest q :=
      fun p1 => ih p1 (fun b hb => hsame b (List.mem_cons_of_mem _ hb))
    simp only [segment, ha]
    cases m a with
    | none => rfl
    | some e => simp only [hrest]

theorem segment_last_not_mem (m : Heap) (p : Option Nat) (init : List Nat) (z : Nat)
    (h : segment m p (init ++ [z]) none = true) : z ∉ init := by
  intro hz
  obtain ⟨s1, s2, hsplit⟩ := List.append_of_mem hz
  obtain ⟨x, _, hx⟩ := (segment_append m p none init [z]).mp h
  obtain ⟨_, e, he, hnil⟩ := (segment_cons m x none z []).mp hx
  have hnext : e.next = none := (segment_nil m _ _).mp hnil
  rw [hsplit, List.append_assoc] at h
  obtain ⟨y, _, hy⟩ := (segment_append m p none s1 ((z :: s2) ++ [z])).mp h
  rw [List.cons_append] at hy
  obtain ⟨_, e1, he1, hrest⟩ := (segment_cons m y none z (s2 ++ [z])).mp hy
  rw [he] at he1
  cases he1
  rw [hnext] at hrest
  cases s2 with
  | nil =>
    obtain ⟨hcontra, _⟩ := (segment_cons m none none z []).mp hrest
    cases hcontra
  | cons b t =>
    rw [List.cons_append] at hrest
    obtain ⟨hcontra, _⟩ := (segment_cons m none none b (t ++ [z])).mp hrest
    cases hcontra

theorem segment_last (m : Heap) (p : Option Nat) (as : List Nat) (x : Nat)
    (h : segment m p as none = true) (hx : as.getLast? = some x) :
    ∃ e, m x = some e ∧ e.next = none := by
  induction as generalizing p with
  | nil => simp at hx
  | cons a rest ih =>
    obtain ⟨_, e, he, hseg⟩ := (segment_cons m p none a rest).mp h
    cases rest with
    | nil =>
      simp at hx
      subst hx
      exact ⟨e, he, (segment_nil m _ _).mp hseg⟩
    | cons b t =>
      rw [List.getLast?_cons_cons] at hx
      exact ih e.next hseg hx

theorem advance_last_spec (m : Heap) (fuel a : Nat) (rest : List Nat)
    (h : segment m (some a) (a :: rest) none = true) (hf : rest.length < fuel) :
    ∃ x, advance_last m fuel a = some x ∧ (a :: rest).getLast? = some x := by
  induction rest generalizing a fuel with
  | nil =>
    obtain ⟨_, e, he, hseg⟩ := (segment_cons m _ none a []).mp h
    have hnext : e.next = none := (segment_nil m _ _).mp hseg
    cases fuel with
    | zero => simp at hf
    | succ n => exact ⟨a, by simp [advance_last, he, hnext], rfl⟩
  | cons b t ih =>
    obtain ⟨_, e, he, hseg⟩ := (segment_cons m _ none a (b :: t)).mp h
    obtain ⟨hb, _⟩ := (segment_cons m _ none b t).mp hseg
    cases fuel with
    | zero => simp at hf
    | succ n =>
      rw [hb] at hseg
      obtain ⟨x, hx, hlast⟩ := ih n b hseg (by simpa using hf)
      refine ⟨x, ?_, ?_⟩
      · simp [advance_last, he, hb, hx]
      · rw [List.getLast?_cons_cons]
        exact hlast

theorem textsOf_setNext (I : Internals) (m : Heap) (z : Nat) (e : entry) (q : Option Nat)
    (hz : m z = some e) (as : List Nat) :
    textsOf I (setNext m z e q) as = textsOf I m as := by
  induction as with
  | nil => rfl
  | cons a rest ih =>
    by_cases haz : a = z
    · subst haz
      simp only [textsOf, setNext, if_true, hz, ih]
      rfl
    · simp only [textsOf, setNext, if_neg haz, ih]

theorem textsOf_append (I : Internals) (m : Heap) (as bs : List Nat) (s t : String)
    (hs : textsOf I m as = some s) (ht : textsOf I m bs = some t) :
    textsOf I m (as ++ bs) = some (s ++ t) := by
  induction as generalizing s with
  | nil =>
    simp only [textsOf, Option.some.injEq] at hs
    subst hs
    simpa using ht
  | cons a rest ih =>
    simp only [List.cons_append, textsOf] at hs ⊢
    cases hm : m a with
    | none => simp [hm] at hs
    | some e =>
      rw [hm] at hs
      simp only at hs ⊢
      cases he : entryText I e with
      | none => simp [he] at hs
      | some u =>
        cases hr : textsOf I m rest with
        | none => simp [he, hr] at hs
        | some v =>
          simp only [he, hr, Option.some.injEq] at hs
          subst hs
          simp [ih v hr, String.append_assoc]

theorem str_loop_spec (I : Internals) (m : Heap) (fuel : Nat) (p : Option Nat)
    (as : List Nat) (acc : String) (h : segment m p as none = true)
    (hf : as.length < fuel) :
    str_loop I m fuel p acc = (textsOf I m as).map (fun t => acc ++ t) := by
  induction as generalizing p fuel acc with
  | nil =>
    have hp : p = none := (segment_nil m _ _).mp h
    subst hp
    cases fuel with
    | zero => simp at hf
    | succ n => simp [str_loop, textsOf]
  | cons a rest ih =>
    obtain ⟨hp, e, he, hseg⟩ := (segment_cons m p none a rest).mp h
    subst hp
    cases fuel with
    | zero => simp at hf
    | succ n =>
      simp only [str_loop, textsOf, he]
      cases hent : entryText I e with
      | none => rfl
      | some u =>
        simp only []
        rw [ih n e.next (acc ++ u) hseg (by simpa using hf)]
        cases textsOf I m rest with
        | none => rfl
        | some v => simp [String.append_assoc]

theorem getLast?_append_cons (as : List Nat) (z : Nat) (bs : List Nat) :
    (as ++ z :: bs).getLast? = (z :: bs).getLast? := by
  induction as with
  | nil => rfl
  | cons a rest ih =>
    cases rest with
    | nil => simp [List.getLast?_cons_cons]
    | cons b t =>
      rw [List.cons_append, List.cons_append, List.getLast?_cons_cons, ← List.cons_append]
      exact ih

/-- C30. Let `l` and `r` be descriptors that are lists, of the entries at the addresses
`la` and `ra`, `la` not empty, no entry of `l` being an entry of `r`. Then `l += r`
returns, and so does `l + r`, with the same heap and the same descriptor as result:
afterwards the result is the list of the entries of `l` followed by those of `r`, its
`last` points to the final entry of that list, whose `next` is null, also when `r` is
empty; `r` is empty (and so is `l` after `l + r`); no entry has changed its `type` or
`str`, and `str()` of the result is `l.str()` followed by `r.str()` as they were before.
The bound on the rounds of the loops is any number above the two lengths. -/
theorem plus_assign_appends (I : Internals) (fuel : Nat) (m : Heap) (l r : descr)
    (la ra : List Nat) (hl : descr.IsList m l la) (hne : la ≠ [])
    (hr : descr.IsList m r ra) (hsep : ∀ a ∈ la, a ∉ ra)
    (hfuel : la.length + ra.length < fuel) :
    ∃ m1 l1, plus_assign fuel m l r = some (m1, l1, { first := none, last := none }) ∧
      plus fuel m l r =
        some (m1, l1, { first := none, last := none }, { first := none, last := none }) ∧
      descr.IsList m1 l1 (la ++ ra) ∧
      (∃ z e, l1.last = some z ∧ (la ++ ra).getLast? = some z ∧ m1 z = some e ∧
        e.next = none) ∧
      (∀ a, (m1 a).map (fun e => (e.type, e.str)) = (m a).map (fun e => (e.type, e.str))) ∧
      (∀ sl sr, descr.str I fuel m l = some sl → descr.str I fuel m r = some sr →
        descr.str I fuel m1 l1 = some (sl ++ sr)) := by
  obtain ⟨hlseg, hllast⟩ := hl
  obtain ⟨hrseg, _⟩ := hr
  rcases List.eq_nil_or_concat la with hnil | ⟨init, z, hla⟩
  · exact absurd hnil hne
  rw [List.concat_eq_append] at hla
  subst hla
  have hlz : l.last = some z := by
    rw [hllast]
    simp
  obtain ⟨x, hinit, hx⟩ := (segment_append m l.first none init [z]).mp hlseg
  obtain ⟨hxz, e, he, hnil⟩ := (segment_cons m x none z []).mp hx
  subst hxz
  have hznotin : z ∉ init := segment_last_not_mem m l.first init z hlseg
  have hznotra : z ∉ ra := hsep z (by simp)
  have hm1_ne : ∀ a, a ≠ z → setNext m z e r.first a = m a := by
    intro a ha
    simp [setNext, ha]
  have hm1_z : setNext m z e r.first z = some { e with next := r.first } := by
    simp [setNext]
  have hinit1 : segment (setNext m z e r.first) l.first init (some z) = true := by
    rw [segment_congr m _ _ _ init (fun a ha => hm1_ne a (fun hh => hznotin (hh ▸ ha)))]
    exact hinit
  have hra1 : segment (setNext m z e r.first) r.first ra none = true := by
    rw [segment_congr m _ _ _ ra (fun a ha => hm1_ne a (fun hh => hznotra (hh ▸ ha)))]
    exact hrseg
  have hzra : segment (setNext m z e r.first) (some z) (z :: ra) none = true :=
    (segment_cons _ _ _ z ra).mpr ⟨rfl, _, hm1_z, hra1⟩
  have hall : segment (setNext m z e r.first) l.first (init ++ [z] ++ ra) none = true := by
    rw [List.append_assoc]
    exact (segment_append _ _ _ init _).mpr ⟨some z, hinit1, hzra⟩
  obtain ⟨y, hadv, hylast⟩ := advance_last_spec (setNext m z e r.first) fuel z ra hzra
    (by omega)
  have hlast1 : (init ++ [z] ++ ra).getLast? = some y := by
    rw [List.append_assoc, List.singleton_append, getLast?_append_cons]
    exact hylast
  have hrun : plus_assign fuel m l r =
      some (setNext m z e r.first, { l with last := some y },
        { first := none, last := none }) := by
    simp [plus_assign, hlz, he, hadv]
  refine ⟨setNext m z e r.first, { l with last := some y }, hrun, ?_, ⟨hall, hlast1.symm⟩, ?_,
    ?_, ?_⟩
  · have hmove : (descr.move l).1 = l := rfl
    simp only [plus, hmove, hrun]
    rfl
  · obtain ⟨e1, he1, hnext1⟩ := segment_last _ _ _ y hall hlast1
    exact ⟨y, e1, rfl, hlast1, he1, hnext1⟩
  · intro a
    by_cases ha : a = z
    · subst ha
      rw [hm1_z, he]
      rfl
    · rw [hm1_ne a ha]
  · intro sl sr hsl hsr
    unfold descr.str at hsl hsr ⊢
    have hlen : (init ++ [z]).length + ra.length = (init ++ [z] ++ ra).length := by
      simp only [List.length_append]
    rw [str_loop_spec I m fuel l.first (init ++ [z]) "" hlseg (by omega)] at hsl
    rw [str_loop_spec I m fuel r.first ra "" hrseg (by omega)] at hsr
    rw [str_loop_spec I _ fuel l.first (init ++ [z] ++ ra) "" hall (by omega),
      textsOf_setNext I m z e r.first he]
    cases htl : textsOf I m (init ++ [z]) with
    | none => simp [htl] at hsl
    | some tl =>
      cases htr : textsOf I m ra with
      | none => simp [htr] at hsr
      | some tr =>
        rw [htl] at hsl
        rw [htr] at hsr
        simp only [Option.map_some', Option.some.injEq, String.empty_append] at hsl hsr
        subst hsl
        subst hsr
        rw [textsOf_append I m (init ++ [z]) ra tl tr htl htr]
        simp

/-- Witness of C30 on the sample heap: `l` is the list of the entries at 1, 2 and 3
(`(`, the type `Widget`, `, `) and `r` the one entry at 5 (`)`); `l += r` gives the list
of the entries at 1, 2, 3 and 5 with `last` at 5 and the text `(Widget, )`; with an empty
`r` it gives the list of 1, 2 and 3 with `last` at 3. -/
theorem plus_assign_appends_witness :
    (∃ m1 l1, plus_assign 10 sampleHeap { first := some 1, last := some 3 }
          { first := some 5, last := some 5 } =
        some (m1, l1, { first := none, last := none }) ∧
      plus 10 sampleHeap { first := some 1, last := some 3 }
          { first := some 5, last := some 5 } =
        some (m1, l1, { first := none, last := none }, { first := none, last := none }) ∧
      descr.IsList m1 l1 ([1, 2, 3] ++ [5]) ∧
      (∃ z e, l1.last = some z ∧ ([1, 2, 3] ++ [5]).getLast? = some z ∧ m1 z = some e ∧
        e.next = none) ∧
      (∀ a, (m1 a).map (fun e => (e.type, e.str)) =
        (sampleHeap a).map (fun e => (e.type, e.str))) ∧
      (∀ sl sr,
        descr.str sampleInternals 10 sampleHeap { first := some 1, last := some 3 } = some sl →
        descr.str sampleInternals 10 sampleHeap { first := some 5, last := some 5 } = some sr →
        descr.str sampleInternals 10 m1 l1 = some (sl ++ sr))) ∧
    (plus_assign 10 sampleHeap { first := some 1, last := some 3 }
        { first := some 5, last := some 5 }).map
      (fun x => (x.2.1, x.2.2, descr.str sampleInternals 10 x.1 x.2.1)) =
      some ({ first := some 1, last := some 5 }, { first := none, last := none },
        some "(Widget, )") ∧
    (plus_assign 10 sampleHeap { first := some 1, last := some 3 }
        { first := none, last := none }).map
      (fun x => (x.2.1, x.2.2, descr.str sampleInternals 10 x.1 x.2.1)) =
      some ({ first := some 1, last := some 3 }, { first := none, last := none },
        some "(Widget, ") ∧
    descr.str sampleInternals 10 sampleHeap { first := some 1, last := some 3 } =
      some "(Widget, " ∧
    descr.str sampleInternals 10 sampleHeap { first := some 5, last := some 5 } = some ")" :=
  ⟨plus_assign_appends sampleInternals 10 sampleHeap { first := some 1, last := some 3 }
    { first := some 5, last := some 5 } [1, 2, 3] [5] ⟨by decide, by decide⟩ (by decide)
    ⟨by decide, by decide⟩ (by decide) (by decide), by decide, by decide, by decide,
    by decide⟩

end Pybind
